import Mathlib

/-!
The namespace `AutoUpgradeRailType`: a shallow embedding of `src/auto_upgrade.cpp` and `src/auto_upgrade_coro.hpp`:
the console entry point `Start`, the design selection `GetNewTrainUnit`, the
coroutine scheduler (`ResetCoroState`, `HandleCoro`, the two awaiters and
`WaitTicks`), `BailOut`, `OnTick` and the coroutine `DoCoro` with its phases
(depot wait, snapshot, sale, conversion, reconstruction, activation).

Machine integers are natural numbers (`Money` is an integer); where the width
of a type matters (the shift of `HasBit`, the pre-decrement of `WaitTicks`, the
counter `num_failed` and the 32 bit command parameters) the modulus is written
out. Console output (`IConsolePrintF`) and `HideActiveErrorMessage` change no
state of the engine and are left out, and with them the local
`cache_num_remaining`, which only selects a console line.

A coroutine is embedded as the data it is suspended with: a `Frame` names the
suspension point of `DoCoro` and holds the live locals, a `Handle` is what
`coro_resumer` can hold, and `DoCoro.resume` runs the code from a suspension
point to the next one. The game is an input of every entry point (`World`).
-/

namespace AutoUpgradeRailType

/-! ## Identifiers and constants of the game headers -/

abbrev RailType := Nat
abbrev CompanyID := Nat
abbrev CargoID := Nat
abbrev EngineID := Nat
abbrev VehicleID := Nat
abbrev TileIndex := Nat
abbrev CargoTypes := Nat

/-- Modelled from the spec: enumerator of `rail_type.h`, a header that is not among the sources. -/
def RAILTYPE_RAIL : RailType := 0
/-- Modelled from the spec: enumerator of `rail_type.h`, a header that is not among the sources. -/
def RAILTYPE_ELECTRIC : RailType := 1
/-- Modelled from the spec: enumerator of `rail_type.h`, a header that is not among the sources. -/
def RAILTYPE_MONO : RailType := 2
/-- Modelled from the spec: enumerator of `rail_type.h`, a header that is not among the sources. -/
def RAILTYPE_MAGLEV : RailType := 3
/-- Modelled from the spec: the invalid target variant, enumerator of `rail_type.h`. -/
def INVALID_RAILTYPE : RailType := 0xFF
/-- Modelled from the spec: "no authorizing context", enumerator of `company_type.h`. -/
def COMPANY_SPECTATOR : CompanyID := 255
/-- Modelled from the spec: the "traction unit" role tag, enumerator of `cargo_type.h`. -/
def CT_INVALID : CargoID := 0xFF
/-- Modelled from the spec: the selection failure marker, constant of `engine_type.h`. -/
def INVALID_ENGINE : EngineID := 0xFFFF
/-- Modelled from the spec: "no entity", constant of `vehicle_type.h`. -/
def INVALID_VEHICLE : VehicleID := 0xFFFFF

/-- Modelled from the spec: the bit test `HasBit(x, y)` of `core/bitmath_func.hpp`,
a header that is not among the sources, `(x & ((T)1U << y)) != 0` at the 64 bit
type `CargoTypes`. C++ defines the shift for `y < 64` only; for a larger `y` the
bit is taken as shifted out, so that the test is false. -/
def HasBit (x : CargoTypes) (y : Nat) : Bool :=
  (x &&& (((1 : Nat) <<< y) % 2 ^ 64)) != 0

/-- One entry of the engine pool as `GetNewTrainUnit` reads it: the pool index,
`e->u.rail.railtype` and the values of the three getters. -/
structure Engine where
  index : EngineID
  railtype : RailType
  GetPower : Nat
  GetDisplayMaxSpeed : Nat
  GetCost : Int
deriving DecidableEq, Repr

/-- The queries of the game that `GetNewTrainUnit` consumes; none of them is
defined in the sources, so each is a field. `engines` is
`Engine::IterateType(VEH_TRAIN)` in iteration order. -/
structure Catalog where
  engines : List Engine
  IsEngineBuildable : EngineID → CompanyID → Bool
  GetUnionOfArticulatedRefitMasks : EngineID → CargoTypes
  _standard_cargo_mask : CargoTypes
  HasPowerOnRail : RailType → RailType → Bool

def ParseRailType (str : String) : RailType :=
  if str = "rail" then RAILTYPE_RAIL
  else if str = "electric" then RAILTYPE_ELECTRIC
  else if str = "monorail" then RAILTYPE_MONO
  else if str = "maglev" then RAILTYPE_MAGLEV
  else INVALID_RAILTYPE

def GetRefittableCargoTypes (c : Catalog) (eid : EngineID) : CargoTypes :=
  (c.GetUnionOfArticulatedRefitMasks eid &&& c._standard_cargo_mask) % 2 ^ 64

/-- The `continue` test of the engine loop (line 151): true when `e` is skipped. -/
def engineSkipped (c : Catalog) (rail_type : RailType) (current_company : CompanyID)
    (e : Engine) : Bool :=
  e.railtype != rail_type || !c.IsEngineBuildable e.index current_company || e.GetPower == 0

/-- One iteration of the engine loop (lines 148-172) on the running `best`. -/
def engineLoopBody (c : Catalog) (rail_type : RailType) (current_company : CompanyID)
    (best : Option Engine) (e : Engine) : Option Engine :=
  if engineSkipped c rail_type current_company e then best
  else match best with
    | none => some e
    | some b =>
      if b.GetDisplayMaxSpeed != e.GetDisplayMaxSpeed then
        (if b.GetDisplayMaxSpeed < e.GetDisplayMaxSpeed then some e else some b)
      else if b.GetPower != e.GetPower then
        (if b.GetPower < e.GetPower then some e else some b)
      else if b.GetCost < e.GetCost then some e else some b

/-- The `continue` test of the wagon loop (line 186): true when `e` is skipped. -/
def wagonSkipped (c : Catalog) (rail_type : RailType) (current_company : CompanyID)
    (cargo : CargoID) (e : Engine) : Bool :=
  !c.HasPowerOnRail e.railtype rail_type || !c.IsEngineBuildable e.index current_company
    || decide (e.GetPower > 0) || !HasBit (GetRefittableCargoTypes c e.index) cargo

/-- One iteration of the wagon loop (lines 183-201) on the running `best`. -/
def wagonLoopBody (c : Catalog) (rail_type : RailType) (current_company : CompanyID)
    (cargo : CargoID) (best : Option Engine) (e : Engine) : Option Engine :=
  if wagonSkipped c rail_type current_company cargo e then best
  else match best with
    | none => some e
    | some b =>
      if b.GetDisplayMaxSpeed != e.GetDisplayMaxSpeed then
        (if b.GetDisplayMaxSpeed < e.GetDisplayMaxSpeed then some e else some b)
      else if b.GetCost < e.GetCost then some e else some b

/-- `GetNewTrainUnit(cargo, wagon_cargo)`; the globals `rail_type` and
`current_company` it reads are arguments. -/
def GetNewTrainUnit (c : Catalog) (rail_type : RailType) (current_company : CompanyID)
    (cargo wagon_cargo : CargoID) : EngineID × CargoID :=
  if cargo = CT_INVALID then
    match c.engines.foldl (engineLoopBody c rail_type current_company) none with
    | none => (INVALID_ENGINE, CT_INVALID)
    | some best =>
      (best.index,
        if HasBit (GetRefittableCargoTypes c best.index) wagon_cargo then wagon_cargo
        else CT_INVALID)
  else
    match c.engines.foldl (wagonLoopBody c rail_type current_company cargo) none with
    | none => (INVALID_ENGINE, CT_INVALID)
    | some best => (best.index, cargo)

/-- The search for the cargo the engines are refitted to (lines 408-414):
the first entry of the signature that is not `CT_INVALID`, else `CT_INVALID`. -/
def wagonCargoOf : List CargoID → CargoID
  | [] => CT_INVALID
  | cargo :: rest => if cargo ≠ CT_INVALID then cargo else wagonCargoOf rest

/-! ## The game as the engine reads it -/

/-- Modelled from the spec: the entity kind "train", enumerator of `vehicle_type.h`. -/
def VEH_TRAIN : Nat := 0
/-- Modelled from the spec: the "go to depot" instruction kind, enumerator of `order_type.h`. -/
def OT_GOTO_DEPOT : Nat := 2
/-- Modelled from the spec: the message of the synthesized `Failure(transport-rejected)`,
constant of `strings_type.h`. -/
def INVALID_STRING_ID : Nat := 0xFFFF

/-- Modelled from the spec: the result of a command, `Success(payload)` or
`Failure(reason)`; the class `CommandCost` of `command_type.h` is not among the
sources. `CommandCost(StringID)` builds a failure. -/
structure CommandCost where
  success : Bool
  cost : Int
  message : Nat
deriving DecidableEq, Repr

def CommandCost.Succeeded (c : CommandCost) : Bool := c.success
def CommandCost.Failed (c : CommandCost) : Bool := !c.success
/-- Modelled from the spec: the constructor `CommandCost(StringID msg)` of `command_type.h`. -/
def CommandCost.error (msg : Nat) : CommandCost := { success := false, cost := 0, message := msg }

/-- The command identifiers the engine passes to `DoCommandPEx`, and
`CMD_FOUND_TOWN`, which `CallbackWrapper` tests for. -/
inductive CommandId where
  | GetCmdSendToDepot
  | CMD_DEPOT_SELL_ALL_VEHICLES
  | CMD_CONVERT_RAIL
  | CMD_CLONE_VEHICLE
  | GetCmdBuildVeh
  | CMD_MOVE_RAIL_VEHICLE
  | CMD_CLONE_ORDER
  | CMD_DELETE_ORDER
  | CMD_INSERT_ORDER
  | CMD_SKIP_TO_ORDER
  | CMD_MASS_START_STOP
  | CMD_FOUND_TOWN
deriving DecidableEq, Repr

/-- The arguments of one `DoCommandPEx` call. -/
structure Command where
  tile : TileIndex
  p1 : Nat
  p2 : Nat
  p3 : Nat
  cmd : CommandId
deriving DecidableEq, Repr

/-- What a `DoCommandPEx` call does as seen from the awaiter: whether it ran
`CallbackWrapper` before returning and with which result, the value of
`_new_vehicle_id` when it returns, and its return value. -/
structure Submission where
  callback : Option CommandCost
  _new_vehicle_id : VehicleID
  ret : Bool

structure Order where
  Pack : Nat
  GetType : Nat
  GetDestination : Nat
deriving DecidableEq, Repr

def Order.IsType (o : Order) (t : Nat) : Bool := o.GetType == t

/-- A unit of a train chain as the snapshot reads it. -/
structure TrainUnit where
  IsEngine : Bool
  cargo_type : CargoID
deriving DecidableEq, Repr

/-- A vehicle of the pool as the engine reads it. `FirstShared` stands for the
pointer `v->FirstShared()`, of which only equality and order are used;
`GetNextUnits` is the chain after the vehicle itself. -/
structure Vehicle where
  index : VehicleID
  type : Nat
  IsPrimaryVehicle : Bool
  owner : CompanyID
  tile : TileIndex
  IsStoppedInDepot : Bool
  current_order_GetType : Nat
  FirstShared : Nat
  Orders : List Order
  GetNumOrders : Nat
  cur_real_order_index : Nat
  IsEngine : Bool
  cargo_type : CargoID
  GetNextUnits : List TrainUnit
  First_index : VehicleID
  Last_index : VehicleID
deriving DecidableEq, Repr

/-- The game at one moment, as far as the engine reads it. Nothing in it is
defined in the sources: every field is an input. `vehicles` is
`Vehicle::Iterate()` in iteration order; `DoCommandPEx` is the behaviour of a
submission made at this moment; `vliPack co` is
`VehicleListIdentifier(VL_GROUP_LIST, VEH_TRAIN, co, ALL_GROUP).Pack()`. -/
structure World where
  _local_company : CompanyID
  _networking : Bool
  _new_vehicle_id : VehicleID
  vehicles : List Vehicle
  catalog : Catalog
  GetRailType : TileIndex → RailType
  GetDepotIndex : TileIndex → Nat
  TileXY : Nat → Nat → TileIndex
  MapMaxX : Nat
  MapMaxY : Nat
  freeform_edges : Bool
  DEPOT_MASS_SEND : Nat
  CO_SHARE : Nat
  vliPack : CompanyID → Nat
  DoCommandPEx : Command → Submission

/-- `Vehicle::Get(vid)`; `none` when the pool has no such vehicle. -/
def World.Get (w : World) (vid : VehicleID) : Option Vehicle :=
  w.vehicles.find? (fun v => v.index == vid)

/-! ## Data of a run -/

def TICKS_PER_SECOND : Nat := 30

structure VehicleProperties where
  depot : TileIndex
  cargos : List CargoID
  route_index : Nat
deriving DecidableEq, Repr

structure Route where
  packed_orders : List Nat
  first_clonables : List (List CargoID × VehicleID)
  first_shared : VehicleID
deriving DecidableEq, Repr

/-- The constructor `Route(packed_orders)`. -/
def Route.new (packed_orders : List Nat) : Route :=
  { packed_orders := packed_orders, first_clonables := [], first_shared := INVALID_VEHICLE }

/-- `std::map::try_emplace`: inserts only when the key is absent. -/
def try_emplace (m : List (List CargoID × VehicleID)) (k : List CargoID) (v : VehicleID) :
    List (List CargoID × VehicleID) :=
  match m.lookup k with
  | some _ => m
  | none => m ++ [(k, v)]

/-- The locals of `DoCoro` that live across the reconstruction loop: `routes`,
`vehicles_for_copying`, the snapshots after the current one, and the current
snapshot `prop`. -/
structure Rebuild where
  routes : List Route
  vehicles_for_copying : List (List CargoID × VehicleID)
  rest : List VehicleProperties
  prop : VehicleProperties
deriving DecidableEq, Repr

/-- The suspension points of `DoCoro`, named by source line, each with the
locals that are live there. For an `L…` point that is a `co_await WaitTicks`
the frame is the one stored in the promise of the `WaitTicks` task. -/
inductive Frame where
  | L211
  | L217
  | L226
  | L248 (my_vehicles rest : List VehicleID) (num_failed : Nat) (has_succeeded : Bool)
  | L250 (my_vehicles rest : List VehicleID) (num_failed : Nat) (has_succeeded : Bool)
  | L263 (my_vehicles : List VehicleID)
  | L284 (my_vehicles : List VehicleID)
  | L289 (my_vehicles : List VehicleID)
  | L345 (routes : List Route) (vehicle_properties : List VehicleProperties)
      (depots : List TileIndex)
  | L349 (routes : List Route) (vehicle_properties : List VehicleProperties)
      (rest : List TileIndex)
  | L354 (routes : List Route) (vehicle_properties : List VehicleProperties)
      (rest : List TileIndex)
  | L359 (routes : List Route) (vehicle_properties : List VehicleProperties)
  | L362 (routes : List Route) (vehicle_properties : List VehicleProperties)
  | L369 (routes : List Route) (vehicle_properties : List VehicleProperties)
  | L386 (r : Rebuild)
  | L392 (r : Rebuild) (new_train : VehicleID)
  | L397 (r : Rebuild)
  | L425 (r : Rebuild) (wagon_cargo : CargoID) (new_head : VehicleID) (rest : List CargoID)
  | L431 (r : Rebuild) (wagon_cargo : CargoID) (new_head : VehicleID) (rest : List CargoID)
      (new_wagon : VehicleID)
  | L438 (r : Rebuild) (wagon_cargo : CargoID) (new_head : VehicleID) (rest : List CargoID)
  | L443 (r : Rebuild) (wagon_cargo : CargoID) (new_head : VehicleID) (rest : List CargoID)
  | L459 (r : Rebuild) (new_train : VehicleID)
  | L464 (r : Rebuild) (new_train : VehicleID)
  | L470 (r : Rebuild) (new_train : VehicleID)
  | L478 (r : Rebuild) (new_train : VehicleID) (i : Nat)
  | L483 (r : Rebuild) (new_train : VehicleID) (i : Nat)
  | L502 (r : Rebuild)
  | L514
deriving DecidableEq, Repr

/-- A coroutine handle: `task f` is `DoCoro` suspended at `f` on one of its own
awaiters; `waitTicks numticks f` is the `WaitTicks` coroutine suspended at its
`co_await WaitTick()` with local `numticks`, whose promise holds the handle of
`DoCoro` suspended at `f`. -/
inductive Handle where
  | task (f : Frame)
  | waitTicks (numticks : Nat) (f : Frame)
deriving DecidableEq, Repr

/-- The globals of the namespace, and two records that are not variables of
the program: `submitted` holds the arguments of every `DoCommandPEx` call and
`destroyed` the handles on which `destroy()` was called, oldest first. -/
structure State where
  rail_type : RailType
  current_company : CompanyID
  coro_resumer : Option Handle
  coro_waiting_for_callback : Bool
  coro_command_cost : CommandCost
  coro_new_vehicle_id : VehicleID
  submitted : List Command
  destroyed : List Handle
deriving DecidableEq, Repr

/-! ## The scheduler (`auto_upgrade_coro.hpp`)

Functions that can hit an assertion or read a vehicle that is not in the pool
return `Option`; `none` is that fault. -/

def ResetCoroState (s : State) : State :=
  let s := match s.coro_resumer with
    | some h => { s with destroyed := s.destroyed ++ [h], coro_resumer := none }
    | none => s
  { s with coro_waiting_for_callback := false }

def DoCommandPAwaiter.Callback (result : CommandCost) (_new_vehicle_id : VehicleID)
    (s : State) : State :=
  let s := { s with coro_command_cost := result }
  let s := if s.coro_command_cost.Failed then { s with coro_command_cost := s.coro_command_cost }
           else s
  { s with coro_new_vehicle_id := _new_vehicle_id, coro_waiting_for_callback := true }

/-- `CallbackWrapper`: `CcFoundRandomTown` touches no global of the engine. -/
def DoCommandPAwaiter.CallbackWrapper (result : CommandCost) (_new_vehicle_id : VehicleID)
    (cmd : CommandId) (s : State) : State :=
  if cmd = CommandId.CMD_FOUND_TOWN then s
  else DoCommandPAwaiter.Callback result _new_vehicle_id s

/-- `DoCommandPAwaiter::await_suspend(handle)` for the awaiter built from `c`. -/
def DoCommandPAwaiter.await_suspend (w : World) (c : Command) (handle : Handle)
    (s : State) : Option State :=
  if s.coro_resumer.isSome then none
  else
    let s := { s with coro_resumer := some handle, submitted := s.submitted ++ [c] }
    let r := w.DoCommandPEx c
    let s := match r.callback with
      | some result => DoCommandPAwaiter.CallbackWrapper result r._new_vehicle_id c.cmd s
      | none => s
    if !r.ret && w._networking then
      some (DoCommandPAwaiter.Callback (CommandCost.error INVALID_STRING_ID) r._new_vehicle_id s)
    else some s

def DoCommandPAwaiter.await_resume (s : State) : CommandCost := s.coro_command_cost

def WaitTickAwaiter.await_suspend (handle : Handle) (s : State) : Option State :=
  if s.coro_resumer.isSome then none
  else some { s with coro_resumer := some handle, coro_waiting_for_callback := true }

/-- The pre-decrement `--numticks` on `size_t`. -/
def predecrement (numticks : Nat) : Nat := (numticks + (2 ^ 64 - 1)) % 2 ^ 64

/-- The loop `while (--numticks > 0) co_await WaitTick();` of `WaitTicks`, entered
at its test with the local `numticks`, for the caller suspended at `f`; `resume`
is what the caller does when `final_suspend` runs its handle. -/
def WaitTicks.loop (resume : Frame → State → Option State) (numticks : Nat) (f : Frame)
    (s : State) : Option State :=
  if predecrement numticks > 0 then
    WaitTickAwaiter.await_suspend (Handle.waitTicks (predecrement numticks) f) s
  else resume f s

/-- `co_await WaitTicks(numticks)` by a task that continues at `f`. -/
def co_await_WaitTicks (resume : Frame → State → Option State) (numticks : Nat) (f : Frame)
    (s : State) : Option State :=
  WaitTicks.loop resume numticks f s

/-- Running a handle: `DoCoro` continues at its frame, `WaitTicks` at its loop test. -/
def Handle.run (resume : Frame → State → Option State) : Handle → State → Option State
  | Handle.task f, s => resume f s
  | Handle.waitTicks numticks f, s => WaitTicks.loop resume numticks f s

def HandleCoro (resume : Frame → State → Option State) (s : State) : Option (Bool × State) :=
  match s.coro_resumer with
  | some h =>
    if s.coro_waiting_for_callback then
      (Handle.run resume h
        { s with coro_waiting_for_callback := false, coro_resumer := none }).map
        (fun s => (true, s))
    else some (true, s)
  | none => some (false, s)

def BailOut (s : State) : State :=
  { s with current_company := COMPANY_SPECTATOR }

/-! ## `DoCoro`, slice by slice

A slice is the code `DoCoro` runs between two suspensions. Each function below
is named after the source construct it starts at and returns the globals at the
next suspension, or at the end of the coroutine (where `coro_resumer` is left
null). -/

/-- `co_await WaitTicks(numticks)` when `--numticks` is positive: `WaitTicks`
suspends at its first `co_await WaitTick()` and the caller stays suspended at `f`. -/
def WaitTicks.suspend (numticks : Nat) (f : Frame) (s : State) : Option State :=
  WaitTickAwaiter.await_suspend (Handle.waitTicks (predecrement numticks) f) s

/-- The statement pair `BailOut(); co_return;`. -/
def DoCoro.bail (s : State) : Option State := some (BailOut s)

/-- Lines 511-519: the mass start command. -/
def DoCoro.activation (w : World) (s : State) : Option State :=
  DoCommandPAwaiter.await_suspend w
    { tile := 0, p1 := (1 <<< 1) ||| (1 <<< 0), p2 := w.vliPack s.current_company, p3 := 0,
      cmd := CommandId.CMD_MASS_START_STOP }
    (Handle.task Frame.L514) s

/-- Lines 492-497: the value of `depot_order_index` after the loop, the
position of the first go-to-depot order for the depot at `depot`, or the number
of orders when there is none. The width of `VehicleOrderID` is not in the
sources; the count is a natural number. -/
def DoCoro.depot_order_index (w : World) (depot : TileIndex) : List Order → Nat
  | [] => 0
  | order :: rest =>
    if order.IsType OT_GOTO_DEPOT && order.GetDestination == w.GetDepotIndex depot then 0
    else DoCoro.depot_order_index w depot rest + 1

/-- Lines 491-508, then the next iteration of the loop of line 376 (`next`). -/
def DoCoro.skipOrders (w : World) (next : Rebuild → State → Option State) (r : Rebuild)
    (new_train : VehicleID) (s : State) : Option State := do
  let v ← w.Get new_train
  let depot_order_index := DoCoro.depot_order_index w r.prop.depot v.Orders
  if depot_order_index < v.GetNumOrders then
    let next_order_index := (depot_order_index + 1) % v.GetNumOrders
    if v.cur_real_order_index ≠ next_order_index then
      DoCommandPAwaiter.await_suspend w
        { tile := r.prop.depot, p1 := new_train, p2 := next_order_index, p3 := 0,
          cmd := CommandId.CMD_SKIP_TO_ORDER }
        (Handle.task (Frame.L502 r)) s
    else next r s
  else next r s

/-- Line 488 and what follows it. -/
def DoCoro.line488 (w : World) (next : Rebuild → State → Option State) (r : Rebuild)
    (new_train : VehicleID) (s : State) : Option State := do
  let route ← r.routes[r.prop.route_index]?
  let route := { route with
    first_clonables := try_emplace route.first_clonables r.prop.cargos new_train }
  let r := { r with routes := r.routes.set r.prop.route_index route }
  DoCoro.skipOrders w next r new_train s

/-- The loop of lines 477-484 entered at its test with index `i`, then line 486. -/
def DoCoro.insertLoop (w : World) (next : Rebuild → State → Option State) (r : Rebuild)
    (new_train : VehicleID) (i : Nat) (s : State) : Option State := do
  let route ← r.routes[r.prop.route_index]?
  if i ≠ route.packed_orders.length then
    let order ← route.packed_orders[i]?
    DoCommandPAwaiter.await_suspend w
      { tile := r.prop.depot, p1 := new_train, p2 := i % 2 ^ 32, p3 := order,
        cmd := CommandId.CMD_INSERT_ORDER }
      (Handle.task (Frame.L478 r new_train i)) s
  else
    let route := { route with first_shared := new_train }
    let r := { r with routes := r.routes.set r.prop.route_index route }
    DoCoro.line488 w next r new_train s

/-- The loop of lines 469-475 entered at its test. -/
def DoCoro.deleteLoop (w : World) (next : Rebuild → State → Option State) (r : Rebuild)
    (new_train : VehicleID) (s : State) : Option State := do
  let v ← w.Get new_train
  let oid := v.GetNumOrders
  if oid > 0 then
    DoCommandPAwaiter.await_suspend w
      { tile := r.prop.depot, p1 := new_train, p2 := oid - 1, p3 := 0,
        cmd := CommandId.CMD_DELETE_ORDER }
      (Handle.task (Frame.L470 r new_train)) s
  else DoCoro.insertLoop w next r new_train 0 s

/-- Line 457: share the orders of the route, or install them. -/
def DoCoro.line457 (w : World) (next : Rebuild → State → Option State) (r : Rebuild)
    (new_train : VehicleID) (s : State) : Option State := do
  let route ← r.routes[r.prop.route_index]?
  if route.first_shared ≠ INVALID_VEHICLE then
    DoCommandPAwaiter.await_suspend w
      { tile := r.prop.depot, p1 := (new_train ||| (w.CO_SHARE <<< 30)) % 2 ^ 32,
        p2 := route.first_shared, p3 := 0, cmd := CommandId.CMD_CLONE_ORDER }
      (Handle.task (Frame.L459 r new_train)) s
  else DoCoro.deleteLoop w next r new_train s

/-- The loop of lines 418-446 entered at its head with the cargos still to
build, then lines 447-456. -/
def DoCoro.buildLoop (w : World) (next : Rebuild → State → Option State) (r : Rebuild)
    (wagon_cargo : CargoID) (new_head : VehicleID) (cargos : List CargoID) (s : State) :
    Option State :=
  match cargos with
  | cargo :: rest =>
    let unit := GetNewTrainUnit w.catalog s.rail_type s.current_company cargo wagon_cargo
    if unit.1 = INVALID_ENGINE then DoCoro.bail s
    else
      DoCommandPAwaiter.await_suspend w
        { tile := r.prop.depot, p1 := (unit.1 ||| (unit.2 <<< 24)) % 2 ^ 32, p2 := 0, p3 := 0,
          cmd := CommandId.GetCmdBuildVeh }
        (Handle.task (Frame.L425 r wagon_cargo new_head rest)) s
  | [] =>
    if new_head = INVALID_VEHICLE then DoCoro.bail s
    else
      let r := { r with
        vehicles_for_copying := try_emplace r.vehicles_for_copying r.prop.cargos new_head }
      DoCoro.line457 w next r new_head s

/-- Lines 432-445 after the tick wait of line 431. -/
def DoCoro.attach (w : World) (next : Rebuild → State → Option State) (r : Rebuild)
    (wagon_cargo : CargoID) (new_head : VehicleID) (rest : List CargoID)
    (new_wagon : VehicleID) (s : State) : Option State :=
  if new_head = INVALID_VEHICLE then DoCoro.buildLoop w next r wagon_cargo new_wagon rest s
  else do
    let vw ← w.Get new_wagon
    if new_head ≠ vw.First_index then
      let vh ← w.Get new_head
      DoCommandPAwaiter.await_suspend w
        { tile := r.prop.depot, p1 := new_wagon, p2 := vh.Last_index, p3 := 0,
          cmd := CommandId.CMD_MOVE_RAIL_VEHICLE }
        (Handle.task (Frame.L438 r wagon_cargo new_head rest)) s
    else DoCoro.buildLoop w next r wagon_cargo new_head rest s

/-- The loop of line 376 entered at its head with the snapshots still to rebuild;
after the loop, the activation. -/
def DoCoro.reconstruction (w : World) :
    List VehicleProperties → List Route → List (List CargoID × VehicleID) → State →
      Option State
  | [], _, _, s => DoCoro.activation w s
  | prop :: rest, routes, vehicles_for_copying, s =>
    if w.GetRailType prop.depot ≠ s.rail_type then DoCoro.bail s
    else do
      let route ← routes[prop.route_index]?
      let r : Rebuild :=
        { routes := routes, vehicles_for_copying := vehicles_for_copying, rest := rest,
          prop := prop }
      match route.first_clonables.lookup prop.cargos with
      | some vid =>
        DoCommandPAwaiter.await_suspend w
          { tile := prop.depot, p1 := vid, p2 := 1, p3 := 0, cmd := CommandId.CMD_CLONE_VEHICLE }
          (Handle.task (Frame.L386 r)) s
      | none =>
        match vehicles_for_copying.lookup prop.cargos with
        | some vid =>
          DoCommandPAwaiter.await_suspend w
            { tile := prop.depot, p1 := vid, p2 := 0, p3 := 0,
              cmd := CommandId.CMD_CLONE_VEHICLE }
            (Handle.task (Frame.L397 r)) s
        | none =>
          DoCoro.buildLoop w
            (fun r s => DoCoro.reconstruction w rest r.routes r.vehicles_for_copying s)
            r (wagonCargoOf prop.cargos) INVALID_VEHICLE prop.cargos s

/-- The next iteration of the loop of line 376 for a slice resumed inside it. -/
def DoCoro.next (w : World) (r : Rebuild) (s : State) : Option State :=
  DoCoro.reconstruction w r.rest r.routes r.vehicles_for_copying s

/-- Lines 324-332: the composition of a train, the vehicle itself first. -/
def DoCoro.cargosOf (v : Vehicle) : List CargoID :=
  (({ IsEngine := v.IsEngine, cargo_type := v.cargo_type } : TrainUnit) :: v.GetNextUnits).map
    (fun t => if t.IsEngine then CT_INVALID else t.cargo_type)

/-- The three vectors filled by the block of lines 292-343. -/
structure Snapshot where
  routes : List Route
  vehicle_properties : List VehicleProperties
  depots : List TileIndex
deriving DecidableEq, Repr

/-- The loop of lines 305-337 over the sorted vehicles from `begin` on. -/
def DoCoro.snapshotLoop (vehicles : List Vehicle) (acc : Snapshot) : Snapshot :=
  match vehicles with
  | [] => acc
  | first :: tail =>
    let group := first :: tail.takeWhile (fun v => v.FirstShared == first.FirstShared)
    let route_index := acc.routes.length
    let packed_orders := first.Orders.map Order.Pack
    DoCoro.snapshotLoop (tail.dropWhile (fun v => v.FirstShared == first.FirstShared))
      { routes := acc.routes ++ [Route.new packed_orders],
        vehicle_properties := acc.vehicle_properties ++
          group.map (fun v =>
            { depot := v.tile, cargos := DoCoro.cargosOf v, route_index := route_index }),
        depots := acc.depots ++ group.map (fun v => v.tile) }
termination_by vehicles.length
decreasing_by
  simp only [List.length_cons]
  exact Nat.lt_succ_of_le (List.dropWhile_sublist _).length_le

/-- `std::unique` on a vector: of each run of equal neighbours the first is kept. -/
def unique : List TileIndex → List TileIndex
  | [] => []
  | [a] => [a]
  | a :: b :: t => if a = b then unique (b :: t) else a :: unique (b :: t)

/-- Lines 292-343. `std::sort` is modelled by insertion sort, one of the orders
it may produce. -/
def DoCoro.snapshot (w : World) (my_vehicles : List VehicleID) : Option Snapshot := do
  let vehicles ← my_vehicles.mapM w.Get
  let sorted := vehicles.insertionSort (fun u v => u.FirstShared ≤ v.FirstShared)
  let snap := DoCoro.snapshotLoop sorted { routes := [], vehicle_properties := [], depots := [] }
  pure { snap with depots := unique (snap.depots.insertionSort (fun a b => a ≤ b)) }

/-- The loop of lines 348-355 entered at its head with the depots still to sell;
after the loop, line 359. -/
def DoCoro.sellLoop (w : World) (routes : List Route)
    (vehicle_properties : List VehicleProperties) (depots : List TileIndex) (s : State) :
    Option State :=
  match depots with
  | depot :: rest =>
    DoCommandPAwaiter.await_suspend w
      { tile := depot, p1 := VEH_TRAIN, p2 := 0, p3 := 0,
        cmd := CommandId.CMD_DEPOT_SELL_ALL_VEHICLES }
      (Handle.task (Frame.L349 routes vehicle_properties rest)) s
  | [] => WaitTicks.suspend TICKS_PER_SECOND (Frame.L359 routes vehicle_properties) s

/-- The loop of lines 271-285 entered at its head, then line 289. -/
def DoCoro.depotWait (w : World) (my_vehicles : List VehicleID) (s : State) : Option State := do
  let vehicles ← my_vehicles.mapM w.Get
  let num_remaining := (vehicles.filter (fun v => !v.IsStoppedInDepot)).length
  if num_remaining = 0 then WaitTicks.suspend TICKS_PER_SECOND (Frame.L289 my_vehicles) s
  else WaitTicks.suspend TICKS_PER_SECOND (Frame.L284 my_vehicles) s

/-- The loop of lines 241-258 over the vehicles still to visit in this pass, then
lines 259-263. -/
def DoCoro.retryPass (w : World) (my_vehicles : List VehicleID) :
    List VehicleID → Nat → Bool → State → Option State
  | [], num_failed, _, s =>
    if num_failed = 0 then DoCoro.depotWait w my_vehicles s
    else WaitTicks.suspend TICKS_PER_SECOND (Frame.L263 my_vehicles) s
  | vid :: rest, num_failed, has_succeeded, s => do
    let v ← w.Get vid
    if !v.IsStoppedInDepot && v.current_order_GetType != OT_GOTO_DEPOT then
      DoCommandPAwaiter.await_suspend w
        { tile := v.tile, p1 := v.index, p2 := 0, p3 := 0, cmd := CommandId.GetCmdSendToDepot }
        (Handle.task (Frame.L248 my_vehicles rest num_failed has_succeeded)) s
    else DoCoro.retryPass w my_vehicles rest num_failed has_succeeded s

/-- Lines 228-233. -/
def DoCoro.my_vehicles (w : World) (s : State) : List VehicleID :=
  (w.vehicles.filter (fun v =>
    v.type == VEH_TRAIN && v.IsPrimaryVehicle && v.owner == s.current_company)).map
    (fun v => v.index)

/-- What `DoCoro` does when the handle of its frame is run: the code from the
suspension point `f` to the next suspension or to the end of the coroutine. -/
def DoCoro.resume (w : World) : Frame → State → Option State
  | Frame.L211, s =>
    DoCommandPAwaiter.await_suspend w
      { tile := 0, p1 := w.DEPOT_MASS_SEND, p2 := w.vliPack s.current_company, p3 := 0,
        cmd := CommandId.GetCmdSendToDepot }
      (Handle.task Frame.L217) s
  | Frame.L217, s => WaitTicks.suspend TICKS_PER_SECOND Frame.L226 s
  | Frame.L226, s =>
    DoCoro.retryPass w (DoCoro.my_vehicles w s) (DoCoro.my_vehicles w s) 0 false s
  | Frame.L248 my_vehicles rest num_failed has_succeeded, s =>
    if (DoCommandPAwaiter.await_resume s).Succeeded then
      WaitTicks.suspend TICKS_PER_SECOND (Frame.L250 my_vehicles rest num_failed true) s
    else DoCoro.retryPass w my_vehicles rest ((num_failed + 1) % 2 ^ 64) has_succeeded s
  | Frame.L250 my_vehicles rest num_failed has_succeeded, s =>
    DoCoro.retryPass w my_vehicles rest num_failed has_succeeded s
  | Frame.L263 my_vehicles, s => DoCoro.retryPass w my_vehicles my_vehicles 0 false s
  | Frame.L284 my_vehicles, s => DoCoro.depotWait w my_vehicles s
  | Frame.L289 my_vehicles, s => do
    let snap ← DoCoro.snapshot w my_vehicles
    WaitTicks.suspend TICKS_PER_SECOND
      (Frame.L345 snap.routes snap.vehicle_properties snap.depots) s
  | Frame.L345 routes vehicle_properties depots, s =>
    DoCoro.sellLoop w routes vehicle_properties depots s
  | Frame.L349 routes vehicle_properties rest, s =>
    if (DoCommandPAwaiter.await_resume s).Failed then DoCoro.bail s
    else WaitTicks.suspend TICKS_PER_SECOND (Frame.L354 routes vehicle_properties rest) s
  | Frame.L354 routes vehicle_properties rest, s =>
    DoCoro.sellLoop w routes vehicle_properties rest s
  | Frame.L359 routes vehicle_properties, s =>
    let min_coord := if w.freeform_edges then 1 else 0
    DoCommandPAwaiter.await_suspend w
      { tile := w.TileXY (w.MapMaxX - 1) (w.MapMaxY - 1), p1 := w.TileXY min_coord min_coord,
        p2 := s.rail_type, p3 := 0, cmd := CommandId.CMD_CONVERT_RAIL }
      (Handle.task (Frame.L362 routes vehicle_properties)) s
  | Frame.L362 routes vehicle_properties, s =>
    if (DoCommandPAwaiter.await_resume s).Failed then DoCoro.bail s
    else WaitTicks.suspend TICKS_PER_SECOND (Frame.L369 routes vehicle_properties) s
  | Frame.L369 routes vehicle_properties, s =>
    DoCoro.reconstruction w vehicle_properties routes [] s
  | Frame.L386 r, s =>
    if (DoCommandPAwaiter.await_resume s).Failed then DoCoro.bail s
    else
      WaitTickAwaiter.await_suspend (Handle.task (Frame.L392 r s.coro_new_vehicle_id)) s
  | Frame.L392 r new_train, s => DoCoro.skipOrders w (DoCoro.next w) r new_train s
  | Frame.L397 r, s =>
    if (DoCommandPAwaiter.await_resume s).Failed then DoCoro.bail s
    else DoCoro.line457 w (DoCoro.next w) r s.coro_new_vehicle_id s
  | Frame.L425 r wagon_cargo new_head rest, s =>
    if (DoCommandPAwaiter.await_resume s).Failed then DoCoro.bail s
    else
      WaitTickAwaiter.await_suspend
        (Handle.task (Frame.L431 r wagon_cargo new_head rest s.coro_new_vehicle_id)) s
  | Frame.L431 r wagon_cargo new_head rest new_wagon, s =>
    DoCoro.attach w (DoCoro.next w) r wagon_cargo new_head rest new_wagon s
  | Frame.L438 r wagon_cargo new_head rest, s =>
    if (DoCommandPAwaiter.await_resume s).Failed then DoCoro.bail s
    else WaitTickAwaiter.await_suspend (Handle.task (Frame.L443 r wagon_cargo new_head rest)) s
  | Frame.L443 r wagon_cargo new_head rest, s =>
    DoCoro.buildLoop w (DoCoro.next w) r wagon_cargo new_head rest s
  | Frame.L459 r new_train, s =>
    if (DoCommandPAwaiter.await_resume s).Failed then DoCoro.bail s
    else WaitTickAwaiter.await_suspend (Handle.task (Frame.L464 r new_train)) s
  | Frame.L464 r new_train, s => DoCoro.line488 w (DoCoro.next w) r new_train s
  | Frame.L470 r new_train, s =>
    if (DoCommandPAwaiter.await_resume s).Failed then DoCoro.bail s
    else DoCoro.deleteLoop w (DoCoro.next w) r new_train s
  | Frame.L478 r new_train i, s =>
    if (DoCommandPAwaiter.await_resume s).Failed then DoCoro.bail s
    else WaitTickAwaiter.await_suspend (Handle.task (Frame.L483 r new_train i)) s
  | Frame.L483 r new_train i, s => DoCoro.insertLoop w (DoCoro.next w) r new_train (i + 1) s
  | Frame.L502 r, s =>
    if (DoCommandPAwaiter.await_resume s).Failed then DoCoro.bail s
    else DoCoro.next w r s
  | Frame.L514, s =>
    if (DoCommandPAwaiter.await_resume s).Failed then DoCoro.bail s
    else some { s with current_company := COMPANY_SPECTATOR }

/-- The call `DoCoro()`: `initial_suspend` does not suspend, so the body runs to
the `co_await WaitTick()` of line 211. -/
def DoCoro (s : State) : Option State :=
  WaitTickAwaiter.await_suspend (Handle.task Frame.L211) s

/-! ## Entry points of `auto_upgrade.cpp` -/

/-- Lines 113-119. -/
def has_trains (w : World) : Bool :=
  w.vehicles.any (fun v => v.type == VEH_TRAIN && v.IsPrimaryVehicle && v.owner == w._local_company)

def Start (w : World) (type_str : String) (s : State) : Option (Bool × State) :=
  if w._local_company = COMPANY_SPECTATOR then some (false, s)
  else
    let s := { s with rail_type := ParseRailType type_str }
    if s.rail_type = INVALID_RAILTYPE then some (false, s)
    else if !has_trains w then some (false, s)
    else
      let s := { s with current_company := w._local_company }
      let s := ResetCoroState s
      (DoCoro s).map (fun s => (true, s))

def OnTick (w : World) (s : State) : Option State :=
  if s.current_company ≠ COMPANY_SPECTATOR then
    if w._local_company ≠ s.current_company then some (BailOut s)
    else (HandleCoro (DoCoro.resume w) s).map (fun r => r.2)
  else some s

/-- The scheduler pumped `k` times in a row: `k` successive `HandleCoro` calls. -/
def HandleCoro.times (resume : Frame → State → Option State) : Nat → State → Option State
  | 0, s => some s
  | k + 1, s => (HandleCoro resume s).bind (fun r => HandleCoro.times resume k r.2)

/-- The engine ticked `k` times in a row in the same game: `k` successive `OnTick` calls. -/
def OnTick.times (w : World) : Nat → State → Option State
  | 0, s => some s
  | k + 1, s => (OnTick w s).bind (OnTick.times w k)

/-! ## Sample data -/

/-- Two wagons for cargo 3 and one locomotive, all electric. -/
def sampleCatalog : Catalog :=
  { engines :=
      [ { index := 10, railtype := 1, GetPower := 0, GetDisplayMaxSpeed := 100, GetCost := 50 },
        { index := 11, railtype := 1, GetPower := 0, GetDisplayMaxSpeed := 120, GetCost := 40 },
        { index := 12, railtype := 1, GetPower := 3000, GetDisplayMaxSpeed := 160,
          GetCost := 900 } ],
    IsEngineBuildable := fun _ _ => true,
    GetUnionOfArticulatedRefitMasks := fun eid => if eid = 12 then 0 else 8,
    _standard_cargo_mask := 0xFFFFFFFF,
    HasPowerOnRail := fun a b => a == b }

/-- A primary train of company 1, stopped in the depot at tile 7. -/
def sampleTrain : Vehicle :=
  { index := 5, type := VEH_TRAIN, IsPrimaryVehicle := true, owner := 1, tile := 7,
    IsStoppedInDepot := true, current_order_GetType := 0, FirstShared := 5, Orders := [],
    GetNumOrders := 0, cur_real_order_index := 0, IsEngine := true, cargo_type := 0,
    GetNextUnits := [], First_index := 5, Last_index := 5 }

/-- A networked game seen by company 1, in which every submission is refused
by the transport. -/
def sampleWorld : World :=
  { _local_company := 1, _networking := true, _new_vehicle_id := 0, vehicles := [sampleTrain],
    catalog := sampleCatalog, GetRailType := fun _ => 1, GetDepotIndex := fun _ => 0,
    TileXY := fun x y => y * 64 + x, MapMaxX := 63, MapMaxY := 63, freeform_edges := true,
    DEPOT_MASS_SEND := 0, CO_SHARE := 0, vliPack := fun co => co,
    DoCommandPEx := fun _ =>
      { callback := none, _new_vehicle_id := 0, ret := false } }

/-- The globals before the first run. -/
def sampleState : State :=
  { rail_type := 0, current_company := COMPANY_SPECTATOR, coro_resumer := none,
    coro_waiting_for_callback := false,
    coro_command_cost := { success := true, cost := 0, message := 0 },
    coro_new_vehicle_id := 0, submitted := [], destroyed := [] }

/-- The task of `sampleState` suspended on the command of line 217 in a run of company 1. -/
def sampleAwaiting : State :=
  { sampleState with current_company := 1, coro_resumer := some (Handle.task Frame.L217) }

/-- The sample game after the operator has switched to company 2. -/
def sampleWorldOther : World := { sampleWorld with _local_company := 2 }

/-- A submission in a single player game: the command runs at once and
`CallbackWrapper` is called before `DoCommandPEx` returns; every command
succeeds except the rail conversion. -/
def soloSubmit (c : Command) : Submission :=
  if c.cmd = CommandId.CMD_CONVERT_RAIL then
    { callback := some (CommandCost.error 9), _new_vehicle_id := 0, ret := false }
  else
    { callback := some { success := true, cost := 0, message := 0 }, _new_vehicle_id := 77,
      ret := true }

/-- The sample game played alone. -/
def sampleSolo : World :=
  { _local_company := 1, _networking := false, _new_vehicle_id := 0, vehicles := [sampleTrain],
    catalog := sampleCatalog, GetRailType := fun _ => 1, GetDepotIndex := fun _ => 0,
    TileXY := fun x y => y * 64 + x, MapMaxX := 63, MapMaxY := 63, freeform_edges := true,
    DEPOT_MASS_SEND := 0, CO_SHARE := 0, vliPack := fun co => co,
    DoCommandPEx := soloSubmit }

/-- The game of `sampleSolo` after the liquidation: the train has been sold. -/
def sampleWorldSold : World := { sampleSolo with vehicles := [] }

/-- The run of `sampleSolo` 59 ticks after `Start("electric")`: one tick before
the snapshot. -/
def traceBeforeSnapshot : State :=
  { rail_type := 1, current_company := 1,
    coro_resumer := some (Handle.waitTicks 1 (Frame.L289 [5])),
    coro_waiting_for_callback := true,
    coro_command_cost := { success := true, cost := 0, message := 0 },
    coro_new_vehicle_id := 77,
    submitted := [{ tile := 0, p1 := 0, p2 := 1, p3 := 0, cmd := CommandId.GetCmdSendToDepot }],
    destroyed := [] }

/-- The run of `sampleSolo` 60 ticks after `Start("electric")`: the snapshot is taken. -/
def traceSnapshotted : State :=
  { traceBeforeSnapshot with
    coro_resumer := some (Handle.waitTicks 29
      (Frame.L345 [Route.new []] [{ depot := 7, cargos := [CT_INVALID], route_index := 0 }] [7])) }

/-- The run of `sampleSolo` 89 ticks after `Start("electric")`: the sale of the
trains in the depot at tile 7 has been submitted and has succeeded. -/
def traceSold : State :=
  { traceBeforeSnapshot with
    coro_resumer := some (Handle.task
      (Frame.L349 [Route.new []] [{ depot := 7, cargos := [CT_INVALID], route_index := 0 }] [])),
    submitted :=
      [{ tile := 0, p1 := 0, p2 := 1, p3 := 0, cmd := CommandId.GetCmdSendToDepot },
       { tile := 7, p1 := 0, p2 := 0, p3 := 0, cmd := CommandId.CMD_DEPOT_SELL_ALL_VEHICLES }] }

/-- The run of `sampleSolo` 59 ticks later: the train is sold, the task is
suspended on the conversion command of line 362, and the failure of the
conversion has been delivered. -/
def sampleConverting : State :=
  { rail_type := 1, current_company := 1,
    coro_resumer := some (Handle.task
      (Frame.L362 [Route.new []] [{ depot := 7, cargos := [CT_INVALID], route_index := 0 }])),
    coro_waiting_for_callback := true,
    coro_command_cost := CommandCost.error 9,
    coro_new_vehicle_id := 0,
    submitted :=
      [{ tile := 0, p1 := 0, p2 := 1, p3 := 0, cmd := CommandId.GetCmdSendToDepot },
       { tile := 7, p1 := 0, p2 := 0, p3 := 0, cmd := CommandId.CMD_DEPOT_SELL_ALL_VEHICLES },
       { tile := 4030, p1 := 65, p2 := 1, p3 := 0, cmd := CommandId.CMD_CONVERT_RAIL }],
    destroyed := [] }

/-- The globals one tick later, after the bailout of the sample run. -/
def traceBailed : State :=
  BailOut { sampleConverting with coro_waiting_for_callback := false, coro_resumer := none }

/-- A run of company 1 in the middle of the wait of line 226. -/
def sampleWaiting : State :=
  { sampleState with
    rail_type := 1, current_company := 1,
    coro_resumer := some (Handle.waitTicks 5 Frame.L226),
    coro_waiting_for_callback := true }

/-- The globals after `Start("rail")` is accepted in the sample game from `sampleState`. -/
def sampleStarted : State :=
  { sampleState with
    rail_type := RAILTYPE_RAIL, current_company := 1,
    coro_resumer := some (Handle.task Frame.L211), coro_waiting_for_callback := true }

/-! ## Specification vocabulary -/

/-- A design qualifies for a traction role: nonzero power, buildable by the
company of the run, and of the target rail type (the test of line 151). -/
def tractionQualifies (c : Catalog) (rail_type : RailType) (company : CompanyID)
    (e : Engine) : Prop :=
  e.GetPower ≠ 0 ∧ c.IsEngineBuildable e.index company = true ∧ e.railtype = rail_type

/-- Key (top speed, power, cost) of `a` is lexicographically at most that of `b`. -/
def tractionKeyLe (a b : Engine) : Prop :=
  a.GetDisplayMaxSpeed < b.GetDisplayMaxSpeed ∨
    (a.GetDisplayMaxSpeed = b.GetDisplayMaxSpeed ∧
      (a.GetPower < b.GetPower ∨ (a.GetPower = b.GetPower ∧ a.GetCost ≤ b.GetCost)))

/-- A design qualifies for the cargo role `cargo`: zero power, has power on the
target rail type, buildable by the company of the run, and its refit mask has
the bit of `cargo` (the test of line 186). -/
def wagonQualifies (c : Catalog) (rail_type : RailType) (company : CompanyID)
    (cargo : CargoID) (e : Engine) : Prop :=
  e.GetPower = 0 ∧ c.HasPowerOnRail e.railtype rail_type = true ∧
    c.IsEngineBuildable e.index company = true ∧
    (GetRefittableCargoTypes c e.index).testBit cargo = true

/-- Key (top speed, cost) of `a` is lexicographically at most that of `b`. -/
def wagonKeyLe (a b : Engine) : Prop :=
  a.GetDisplayMaxSpeed < b.GetDisplayMaxSpeed ∨
    (a.GetDisplayMaxSpeed = b.GetDisplayMaxSpeed ∧ a.GetCost ≤ b.GetCost)

/-- What a slice of `DoCoro` started in the state `s` can end in: a fault, a new
suspension that keeps authorization, target and the record of destroyed
handles, or the end of the coroutine in the state `BailOut s` (the state after
line 524 is the same state). -/
def SliceEnds (s : State) (r : Option State) : Prop :=
  ∀ s', r = some s' →
    ((∃ h, s'.coro_resumer = some h) ∧ s'.current_company = s.current_company ∧
      s'.rail_type = s.rail_type ∧ s'.destroyed = s.destroyed) ∨
    s' = BailOut s

/-- The suspension points on a command whose failure the source answers with
`BailOut(); co_return;`: liquidation (349), conversion (362), clone (386, 397),
build (425), move (438), the order commands (459, 470, 478), skip (502) and
activation (514). -/
def Frame.abortsOnFailure : Frame → Bool
  | Frame.L349 _ _ _ => true
  | Frame.L362 _ _ => true
  | Frame.L386 _ => true
  | Frame.L397 _ => true
  | Frame.L425 _ _ _ _ => true
  | Frame.L438 _ _ _ _ => true
  | Frame.L459 _ _ => true
  | Frame.L470 _ _ => true
  | Frame.L478 _ _ _ => true
  | Frame.L502 _ => true
  | Frame.L514 => true
  | _ => false

/-- How a slice depends on the value `coro_resumer` has when the slice starts;
`g res` is the slice run from `s` with `coro_resumer` set to `res`. Either the
slice reaches no suspension point, whatever `res` is (it faults on a read, or it
ends the coroutine), or it reaches exactly one, and the `await_suspend` of that
awaiter is applied to the state the slice started in. -/
def SliceUniform (w : World) (s : State) (g : Option Handle → Option State) : Prop :=
  (∀ res, g res = none) ∨
  (∀ res, g res = some (BailOut { s with coro_resumer := res })) ∨
  (∃ c h, ∀ res, g res = DoCommandPAwaiter.await_suspend w c h { s with coro_resumer := res }) ∨
  (∃ h, ∀ res, g res = WaitTickAwaiter.await_suspend h { s with coro_resumer := res })

/-- The slice at `f` faults whatever `coro_resumer` holds when it starts: it
faults before it reaches a suspension point, on a vehicle or a route that is
not there, and not on an assertion. -/
def PoolFault (w : World) (f : Frame) (s : State) : Prop :=
  ∀ res, DoCoro.resume w f { s with coro_resumer := res } = none

/-- The frame of `DoCoro` behind a handle. -/
def Handle.frame : Handle → Frame
  | Handle.task f => f
  | Handle.waitTicks _ f => f

/-- The command of line 349 for one depot. -/
def sellAll (depot : TileIndex) : Command :=
  { tile := depot, p1 := VEH_TRAIN, p2 := 0, p3 := 0,
    cmd := CommandId.CMD_DEPOT_SELL_ALL_VEHICLES }

/-- The task is inside the loop of lines 348-355 over `depots`, entered when the
record of submissions was `base`: it has submitted the sell commands of the
first `k` depots and nothing else, and is suspended with the other depots still
to visit, before a submission (lines 345 and 354) or on the `k`-th one
(line 349). -/
def Liquidating (routes : List Route) (vehicle_properties : List VehicleProperties)
    (depots : List TileIndex) (base : List Command) (k : Nat) (s : State) : Prop :=
  k ≤ depots.length ∧ s.submitted = base ++ (depots.take k).map sellAll ∧
  ∃ h, s.coro_resumer = some h ∧
    (h.frame = Frame.L345 routes vehicle_properties (depots.drop k) ∨
     h.frame = Frame.L354 routes vehicle_properties (depots.drop k) ∨
     (0 < k ∧ h.frame = Frame.L349 routes vehicle_properties (depots.drop k)))

/-- Where a run that entered the loop of lines 348-355 can be: in the loop
after `k` sell commands, without authorization after `k` sell commands and
nothing else, or past the loop after the sell commands of all depots. -/
def Liquidation (routes : List Route) (vehicle_properties : List VehicleProperties)
    (depots : List TileIndex) (base : List Command) (s : State) : Prop :=
  (∃ k, Liquidating routes vehicle_properties depots base k s) ∨
  (s.current_company = COMPANY_SPECTATOR ∧
    ∃ k, k ≤ depots.length ∧ s.submitted = base ++ (depots.take k).map sellAll) ∨
  (base ++ depots.map sellAll) <+: s.submitted

/-- The coroutine frames of the engine: the frame of `DoCoro` (a `Task`)
suspended at a point of its body, and the frame of `WaitTicks` (an
`AwaitableTask`) suspended at its `co_await WaitTick()` with the local
`numticks`. -/
inductive Coroutine where
  | DoCoro (f : Frame)
  | WaitTicks (numticks : Nat)
deriving DecidableEq, Repr

/-- The frames that are allocated while `coro_resumer` holds the handle: the
frame the handle refers to and, for a handle of `WaitTicks`, the frame of the
`DoCoro` that awaits it, which the promise of `WaitTicks` names in `resumer`
(`auto_upgrade_coro.hpp`, lines 115 and 131). -/
def Handle.coroutines : Handle → List Coroutine
  | Handle.task f => [Coroutine.DoCoro f]
  | Handle.waitTicks numticks f => [Coroutine.WaitTicks numticks, Coroutine.DoCoro f]

/-- The frames freed by `handle.destroy()`: the frame of the coroutine the
handle refers to, with its promise and its locals. The promise of `WaitTicks`
keeps its caller in a `std::coroutine_handle<>` (line 115), a pointer that owns
nothing, and `AwaitableTask` and its `Awaiter` hold references only, so the
frame of the caller is not freed with it. -/
def Handle.destroy : Handle → List Coroutine
  | Handle.task f => [Coroutine.DoCoro f]
  | Handle.waitTicks numticks _ => [Coroutine.WaitTicks numticks]

/-- The frames that `handle.destroy()` leaves allocated although the handle was
the only way to them. -/
def Handle.leaked (h : Handle) : List Coroutine :=
  h.coroutines.filter (fun c => !h.destroy.contains c)

/-- The frames freed by the `destroy()` calls recorded in the state. -/
def State.freed (s : State) : List Coroutine := (s.destroyed.map Handle.destroy).flatten

/-- The frames those calls left allocated with no handle that refers to them. -/
def State.leaked (s : State) : List Coroutine := (s.destroyed.map Handle.leaked).flatten

/-! ## Executions -/

/-- What can happen to the engine: the console command in the game `w`, a tick
in the game `w`, and the delivery of the result of one of its commands, that
is `Callback` run by the command subsystem (`CallbackWrapper` for a command
other than `CMD_FOUND_TOWN`) while `_new_vehicle_id` has the given value. -/
inductive Event where
  | start (w : World) (type_str : String)
  | tick (w : World)
  | deliver (result : CommandCost) (_new_vehicle_id : VehicleID)

def Event.apply : Event → State → Option State
  | Event.start w type_str, s => (Start w type_str s).map (fun r => r.2)
  | Event.tick w, s => OnTick w s
  | Event.deliver result n, s => some (DoCommandPAwaiter.Callback result n s)

/-- The events of a list applied in order. -/
def Event.run : List Event → State → Option State
  | [], s => some s
  | e :: es, s => (e.apply s).bind (Event.run es)

/-- The event is a `Start` that is accepted; acceptance depends on the game and
the string only (theorem `Start_eq`). -/
def Event.accepted : Event → Bool
  | Event.start w type_str =>
    w._local_company != COMPANY_SPECTATOR && ParseRailType type_str != INVALID_RAILTYPE
      && has_trains w
  | _ => false

/-- The submission `c` made in the game `w` is taken by the transport without
an answer: `DoCommandPEx` returns true and the callback has not been run, so
the result is still to be delivered. -/
def World.sends (w : World) (c : Command) : Bool :=
  (w.DoCommandPEx c).ret && (w.DoCommandPEx c).callback.isNone

/-- The engine together with the number of its commands that were sent and
whose result has not been delivered yet. -/
structure Session where
  state : State
  in_flight : Nat
deriving DecidableEq, Repr

/-- An event applied to a session. A tick adds the commands it submitted that
the transport took without an answer; a delivery answers one command in flight
and is possible only when there is one. -/
def Session.apply : Event → Session → Option Session
  | Event.start w type_str, x =>
    (Start w type_str x.state).map (fun r => { x with state := r.2 })
  | Event.tick w, x =>
    (OnTick w x.state).map (fun s =>
      { state := s,
        in_flight := x.in_flight
          + ((s.submitted.drop x.state.submitted.length).filter w.sends).length })
  | Event.deliver result n, x =>
    if x.in_flight = 0 then none
    else some { state := DoCommandPAwaiter.Callback result n x.state,
                in_flight := x.in_flight - 1 }

def Session.run : List Event → Session → Option Session
  | [], x => some x
  | e :: es, x => (Session.apply e x).bind (Session.run es)

/-- A networked game seen by company 1 in which the transport takes every
submission; the results come back later. -/
def sampleNetwork : World :=
  { _local_company := 1, _networking := true, _new_vehicle_id := 0, vehicles := [sampleTrain],
    catalog := sampleCatalog, GetRailType := fun _ => 1, GetDepotIndex := fun _ => 0,
    TileXY := fun x y => y * 64 + x, MapMaxX := 63, MapMaxY := 63, freeform_edges := true,
    DEPOT_MASS_SEND := 0, CO_SHARE := 0, vliPack := fun co => co,
    DoCommandPEx := fun _ => { callback := none, _new_vehicle_id := 0, ret := true } }

/-- The session after `Start`, a tick, `Start` again and a tick in `sampleNetwork`. -/
def sampleTwoInFlight : Session :=
  { state :=
      { rail_type := RAILTYPE_RAIL, current_company := 1,
        coro_resumer := some (Handle.task Frame.L217),
        coro_waiting_for_callback := false,
        coro_command_cost := { success := true, cost := 0, message := 0 },
        coro_new_vehicle_id := 0,
        submitted :=
          [{ tile := 0, p1 := 0, p2 := 1, p3 := 0, cmd := CommandId.GetCmdSendToDepot },
           { tile := 0, p1 := 0, p2 := 1, p3 := 0, cmd := CommandId.GetCmdSendToDepot }],
        destroyed := [Handle.task Frame.L217] },
    in_flight := 2 }

/-- The session of `sampleTwoInFlight` after the delivery of one result and a tick. -/
def sampleStaleResume : Session :=
  { state :=
      { sampleTwoInFlight.state with
        coro_resumer := some (Handle.waitTicks 29 Frame.L226),
        coro_waiting_for_callback := true },
    in_flight := 1 }

/-- A run of company 1 about to enter the sell loop with the depots at tiles 3, 5 and 8. -/
def sampleLiquidating : State :=
  { rail_type := RAILTYPE_ELECTRIC, current_company := 1,
    coro_resumer := some (Handle.task (Frame.L345 [] [] [3, 5, 8])),
    coro_waiting_for_callback := true,
    coro_command_cost := { success := true, cost := 0, message := 0 },
    coro_new_vehicle_id := 0, submitted := [], destroyed := [] }

/-- In `sampleNetwork`: the sale in the first depot succeeds, the wait of line
354 passes, the sale in the second depot fails, and two more ticks follow. -/
def sampleFailedSale : List Event :=
  [Event.tick sampleNetwork, Event.deliver { success := true, cost := 0, message := 0 } 0]
    ++ List.replicate 30 (Event.tick sampleNetwork)
    ++ [Event.deliver (CommandCost.error INVALID_STRING_ID) 0, Event.tick sampleNetwork,
        Event.tick sampleNetwork]

/-- The globals after `sampleFailedSale` from `sampleLiquidating`. -/
def sampleSecondSaleFailed : State :=
  { rail_type := RAILTYPE_ELECTRIC, current_company := COMPANY_SPECTATOR,
    coro_resumer := none,
    coro_waiting_for_callback := false,
    coro_command_cost := CommandCost.error INVALID_STRING_ID,
    coro_new_vehicle_id := 0, submitted := [sellAll 3, sellAll 5], destroyed := [] }

/-- A successful result comes with a vehicle id other than `INVALID_VEHICLE`. -/
def GoodResult (s : State) : Prop :=
  s.coro_command_cost.Failed = false → s.coro_new_vehicle_id ≠ INVALID_VEHICLE

/-- The event delivers no successful result with the vehicle id
`INVALID_VEHICLE`, which is the index of no vehicle of the pool. -/
def Event.valid : Event → Prop
  | Event.start _ _ => True
  | Event.tick w =>
    ∀ c result, (w.DoCommandPEx c).callback = some result → result.Failed = false →
      (w.DoCommandPEx c)._new_vehicle_id ≠ INVALID_VEHICLE
  | Event.deliver result n => result.Failed = false → n ≠ INVALID_VEHICLE

/-- A game played alone in which every command succeeds at once and reports
the vehicle 5, the only vehicle of the pool. -/
def sampleRebuildWorld : World :=
  { sampleSolo with
    DoCommandPEx := fun _ =>
      { callback := some { success := true, cost := 0, message := 0 }, _new_vehicle_id := 5,
        ret := true } }

/-- The snapshot of a train made of a locomotive and a wagon for cargo 3, of route 0. -/
def sampleTwin : VehicleProperties := { depot := 7, cargos := [CT_INVALID, 3], route_index := 0 }

/-- A run of company 1 about to rebuild two trains of one route with the same
signature; the route has two orders. -/
def sampleRebuildEntry : State :=
  { rail_type := RAILTYPE_ELECTRIC, current_company := 1,
    coro_resumer :=
      some (Handle.task (Frame.L369 [Route.new [100, 200]] [sampleTwin, sampleTwin])),
    coro_waiting_for_callback := true,
    coro_command_cost := { success := true, cost := 0, message := 0 },
    coro_new_vehicle_id := 0, submitted := [], destroyed := [] }

/-- The records of the sample run when the first train is rebuilt. -/
def sampleSecondTwin : Rebuild :=
  { routes :=
      [{ packed_orders := [100, 200], first_clonables := [([CT_INVALID, 3], 5)],
         first_shared := 5 }],
    vehicles_for_copying := [([CT_INVALID, 3], 5)], rest := [], prop := sampleTwin }

/-- The globals 9 ticks of `sampleRebuildWorld` after `sampleRebuildEntry`: the
second train is being cloned with shared orders. -/
def sampleCloning : State :=
  { rail_type := RAILTYPE_ELECTRIC, current_company := 1,
    coro_resumer := some (Handle.task (Frame.L386 sampleSecondTwin)),
    coro_waiting_for_callback := true,
    coro_command_cost := { success := true, cost := 0, message := 0 },
    coro_new_vehicle_id := 5,
    submitted :=
      [{ tile := 7, p1 := 4278190092, p2 := 0, p3 := 0, cmd := CommandId.GetCmdBuildVeh },
       { tile := 7, p1 := 50331659, p2 := 0, p3 := 0, cmd := CommandId.GetCmdBuildVeh },
       { tile := 7, p1 := 5, p2 := 0, p3 := 100, cmd := CommandId.CMD_INSERT_ORDER },
       { tile := 7, p1 := 5, p2 := 1, p3 := 200, cmd := CommandId.CMD_INSERT_ORDER },
       { tile := 7, p1 := 5, p2 := 1, p3 := 0, cmd := CommandId.CMD_CLONE_VEHICLE }],
    destroyed := [] }

/-- The records of the sample run while the first train is given its orders. -/
def sampleFirstTwin : Rebuild :=
  { routes := [Route.new [100, 200]], vehicles_for_copying := [([CT_INVALID, 3], 5)],
    rest := [sampleTwin], prop := sampleTwin }

/-- The globals 6 ticks of `sampleRebuildWorld` after `sampleRebuildEntry`: the
first order of the route has been inserted in the orders of the first train. -/
def sampleInstalling : State :=
  { rail_type := RAILTYPE_ELECTRIC, current_company := 1,
    coro_resumer := some (Handle.task (Frame.L483 sampleFirstTwin 5 0)),
    coro_waiting_for_callback := true,
    coro_command_cost := { success := true, cost := 0, message := 0 },
    coro_new_vehicle_id := 5,
    submitted :=
      [{ tile := 7, p1 := 4278190092, p2 := 0, p3 := 0, cmd := CommandId.GetCmdBuildVeh },
       { tile := 7, p1 := 50331659, p2 := 0, p3 := 0, cmd := CommandId.GetCmdBuildVeh },
       { tile := 7, p1 := 5, p2 := 0, p3 := 100, cmd := CommandId.CMD_INSERT_ORDER }],
    destroyed := [] }

/-- A run of company 1 towards electrified rail whose trains have been sold,
about to submit the conversion of line 362. -/
def sampleSoldOut : State :=
  { rail_type := RAILTYPE_ELECTRIC, current_company := 1,
    coro_resumer :=
      some (Handle.task
        (Frame.L359 [Route.new []] [{ depot := 7, cargos := [CT_INVALID], route_index := 0 }])),
    coro_waiting_for_callback := true,
    coro_command_cost := { success := true, cost := 0, message := 0 },
    coro_new_vehicle_id := 0, submitted := [], destroyed := [] }

/-- A catalog with one locomotive and one wagon for cargo 3, both for plain
rail, in a game where plain rail vehicles have power on electrified rail. -/
def sampleMixedCatalog : Catalog :=
  { engines :=
      [ { index := 20, railtype := RAILTYPE_RAIL, GetPower := 1000, GetDisplayMaxSpeed := 100,
          GetCost := 500 },
        { index := 21, railtype := RAILTYPE_RAIL, GetPower := 0, GetDisplayMaxSpeed := 100,
          GetCost := 50 } ],
    IsEngineBuildable := fun _ _ => true,
    GetUnionOfArticulatedRefitMasks := fun _ => 8,
    _standard_cargo_mask := 0xFFFFFFFF,
    HasPowerOnRail := fun a b => a == b || (a == RAILTYPE_RAIL && b == RAILTYPE_ELECTRIC) }

/-- The test of line 494: the order is a go-to-depot order for the depot at `depot`. -/
def isDepotOrder (w : World) (depot : TileIndex) (order : Order) : Bool :=
  order.IsType OT_GOTO_DEPOT && order.GetDestination == w.GetDepotIndex depot

/-- A new train with three orders, the second a go-to-depot order for depot 0,
about to execute its first order. -/
def sampleOrdersTrain : Vehicle :=
  { sampleTrain with
    Orders :=
      [{ Pack := 100, GetType := 1, GetDestination := 4 },
       { Pack := 200, GetType := OT_GOTO_DEPOT, GetDestination := 0 },
       { Pack := 300, GetType := 1, GetDestination := 9 }],
    GetNumOrders := 3, cur_real_order_index := 0 }

/-- The game of `sampleRebuildWorld` with `sampleOrdersTrain` as its only vehicle. -/
def sampleOrdersWorld : World := { sampleRebuildWorld with vehicles := [sampleOrdersTrain] }

/-- The locals `routes` and `vehicles_for_copying` held at a suspension point
from the sell loop on; before the loop of line 376 `vehicles_for_copying` does
not exist yet and is taken as empty. -/
def Frame.records : Frame → Option (List Route × List (List CargoID × VehicleID))
  | Frame.L345 routes _ _ => some (routes, [])
  | Frame.L349 routes _ _ => some (routes, [])
  | Frame.L354 routes _ _ => some (routes, [])
  | Frame.L359 routes _ => some (routes, [])
  | Frame.L362 routes _ => some (routes, [])
  | Frame.L369 routes _ => some (routes, [])
  | Frame.L386 r => some (r.routes, r.vehicles_for_copying)
  | Frame.L392 r _ => some (r.routes, r.vehicles_for_copying)
  | Frame.L397 r => some (r.routes, r.vehicles_for_copying)
  | Frame.L425 r _ _ _ => some (r.routes, r.vehicles_for_copying)
  | Frame.L431 r _ _ _ _ => some (r.routes, r.vehicles_for_copying)
  | Frame.L438 r _ _ _ => some (r.routes, r.vehicles_for_copying)
  | Frame.L443 r _ _ _ => some (r.routes, r.vehicles_for_copying)
  | Frame.L459 r _ => some (r.routes, r.vehicles_for_copying)
  | Frame.L464 r _ => some (r.routes, r.vehicles_for_copying)
  | Frame.L470 r _ => some (r.routes, r.vehicles_for_copying)
  | Frame.L478 r _ _ => some (r.routes, r.vehicles_for_copying)
  | Frame.L483 r _ _ => some (r.routes, r.vehicles_for_copying)
  | Frame.L502 r => some (r.routes, r.vehicles_for_copying)
  | _ => none

/-- The records `R'` come after the records `R` by writes that are made once:
the routes are as many, the captured orders of a route are unchanged, a
`first_shared` that was set is unchanged, and every entry of `first_clonables`
of a route and of `vehicles_for_copying` is still there with its vehicle. -/
def WriteOnce (R R' : List Route × List (List CargoID × VehicleID)) : Prop :=
  R'.1.length = R.1.length ∧
  (∀ (j : Nat) (route route' : Route), R.1[j]? = some route → R'.1[j]? = some route' →
    route'.packed_orders = route.packed_orders ∧
    (route.first_shared ≠ INVALID_VEHICLE → route'.first_shared = route.first_shared) ∧
    ∀ cargos vid, route.first_clonables.lookup cargos = some vid →
      route'.first_clonables.lookup cargos = some vid) ∧
  ∀ cargos vid, R.2.lookup cargos = some vid → R'.2.lookup cargos = some vid

/-- What the tests passed on the way to a suspension point tell about its
locals: in the delete and insert loops `first_shared` of the route is not set
(line 457); after the move of line 438 `new_head` is not `INVALID_VEHICLE`
(line 433); and `new_wagon` of line 430 is not `INVALID_VEHICLE` when successful
results come with the id of a vehicle (`V`). The points before the snapshot are
left out. -/
def Frame.guarded (V : Prop) : Frame → Prop
  | Frame.L211 => False
  | Frame.L217 => False
  | Frame.L226 => False
  | Frame.L248 _ _ _ _ => False
  | Frame.L250 _ _ _ _ => False
  | Frame.L263 _ => False
  | Frame.L284 _ => False
  | Frame.L289 _ => False
  | Frame.L431 _ _ _ _ new_wagon => V → new_wagon ≠ INVALID_VEHICLE
  | Frame.L438 _ _ new_head _ => new_head ≠ INVALID_VEHICLE
  | Frame.L443 _ _ new_head _ => new_head ≠ INVALID_VEHICLE
  | Frame.L470 r _ =>
    ∀ route, r.routes[r.prop.route_index]? = some route →
      route.first_shared = INVALID_VEHICLE
  | Frame.L478 r _ _ =>
    ∀ route, r.routes[r.prop.route_index]? = some route →
      route.first_shared = INVALID_VEHICLE
  | Frame.L483 r _ _ =>
    ∀ route, r.routes[r.prop.route_index]? = some route →
      route.first_shared = INVALID_VEHICLE
  | _ => True

/-- The suspension point `f` is guarded and its records, when it has some, come
after `R0` by writes made once. -/
def Kept (V : Prop) (R0 : List Route × List (List CargoID × VehicleID)) (f : Frame) : Prop :=
  f.guarded V ∧ ∀ R, f.records = some R → WriteOnce R0 R

/-- The result of a slice: when it returns with the task suspended, `Kept`
holds at the suspension point. -/
def SliceKeeps (V : Prop) (R0 : List Route × List (List CargoID × VehicleID))
    (res : Option State) : Prop :=
  ∀ s', res = some s' → ∀ h, s'.coro_resumer = some h → Kept V R0 h.frame

/-- A run between the snapshot and its end whose records come after `R0`. -/
def Keeping (V : Prop) (R0 : List Route × List (List CargoID × VehicleID)) (s : State) :
    Prop :=
  (V → GoodResult s) ∧ ∀ h, s.coro_resumer = some h → Kept V R0 h.frame

theorem HasBit_iff_testBit (x : CargoTypes) (y : Nat) (hx : x < 2 ^ 64) :
    HasBit x y = x.testBit y := by
  unfold HasBit
  by_cases hy : y < 64
  · have h2 : ((1 : Nat) <<< y) % 2 ^ 64 = 2 ^ y := by
      rw [Nat.one_shiftLeft]
      exact Nat.mod_eq_of_lt (Nat.pow_lt_pow_right (by norm_num) hy)
    rw [h2, Nat.and_two_pow]
    cases h : x.testBit y <;> simp [h]
  · have hy2 : 64 ≤ y := Nat.le_of_not_lt hy
    have h2 : ((1 : Nat) <<< y) % 2 ^ 64 = 0 := by
      rw [Nat.one_shiftLeft]
      exact Nat.mod_eq_zero_of_dvd (Nat.pow_dvd_pow 2 hy2)
    have h3 : x.testBit y = false :=
      Nat.testBit_lt_two_pow (lt_of_lt_of_le hx (Nat.pow_le_pow_right (by norm_num) hy2))
    rw [h2, h3]
    simp

theorem GetRefittableCargoTypes_lt (c : Catalog) (eid : EngineID) :
    GetRefittableCargoTypes c eid < 2 ^ 64 :=
  Nat.mod_lt _ (by norm_num)

/-- The fold of a selection loop: a loop body that keeps `best` on skipped
entries, takes the first entry that is not skipped, and afterwards keeps an
upper bound of the two, ends on an upper bound of all entries not skipped. -/
theorem selection_fold {le : Engine → Engine → Prop} (skip : Engine → Bool)
    (body : Option Engine → Engine → Option Engine)
    (le_refl : ∀ a, le a a) (le_trans : ∀ a b d, le a b → le b d → le a d)
    (hskip : ∀ best e, skip e = true → body best e = best)
    (hfirst : ∀ e, skip e = false → body none e = some e)
    (hnext : ∀ b e, skip e = false →
      (body (some b) e = some b ∧ le e b) ∨ (body (some b) e = some e ∧ le b e))
    (l : List Engine) (best : Option Engine) :
    (best = none ∧ (∀ e ∈ l, skip e = true) ∧ l.foldl body best = none) ∨
    (∃ d, l.foldl body best = some d ∧ (best = some d ∨ (d ∈ l ∧ skip d = false)) ∧
      (∀ b, best = some b → le b d) ∧ ∀ e ∈ l, skip e = false → le e d) := by
  induction l generalizing best with
  | nil =>
    cases best with
    | none => left; simp
    | some b =>
      right
      refine ⟨b, rfl, Or.inl rfl, ?_, ?_⟩
      · intro b' hb'; cases hb'; exact le_refl _
      · intro e he; cases he
  | cons x xs ih =>
    rw [List.foldl_cons]
    by_cases hx : skip x = true
    · rw [hskip best x hx]
      rcases ih best with ⟨h1, h2, h3⟩ | ⟨d, h1, h2, h3, h4⟩
      · left
        refine ⟨h1, ?_, h3⟩
        intro e he
        rcases List.mem_cons.mp he with rfl | he
        · exact hx
        · exact h2 e he
      · right
        refine ⟨d, h1, ?_, h3, ?_⟩
        · rcases h2 with h2 | ⟨h2, h2'⟩
          · exact Or.inl h2
          · exact Or.inr ⟨List.mem_cons_of_mem _ h2, h2'⟩
        · intro e he hs
          rcases List.mem_cons.mp he with rfl | he
          · rw [hx] at hs; cases hs
          · exact h4 e he hs
    · have hx' : skip x = false := by simpa using hx
      right
      cases best with
      | none =>
        rw [hfirst x hx']
        rcases ih (some x) with ⟨h1, _⟩ | ⟨d, h1, h2, h3, h4⟩
        · cases h1
        · refine ⟨d, h1, Or.inr ?_, ?_, ?_⟩
          · rcases h2 with h2 | ⟨h2, h2'⟩
            · cases h2; exact ⟨List.mem_cons_self _ _, hx'⟩
            · exact ⟨List.mem_cons_of_mem _ h2, h2'⟩
          · intro b hb; cases hb
          · intro e he hs
            rcases List.mem_cons.mp he with rfl | he
            · exact h3 _ rfl
            · exact h4 e he hs
      | some b =>
        rcases hnext b x hx' with ⟨hb, hle⟩ | ⟨hb, hle⟩
        · rw [hb]
          rcases ih (some b) with ⟨h1, _⟩ | ⟨d, h1, h2, h3, h4⟩
          · cases h1
          · refine ⟨d, h1, ?_, h3, ?_⟩
            · rcases h2 with h2 | ⟨h2, h2'⟩
              · exact Or.inl h2
              · exact Or.inr ⟨List.mem_cons_of_mem _ h2, h2'⟩
            · intro e he hs
              rcases List.mem_cons.mp he with rfl | he
              · exact le_trans _ _ _ hle (h3 _ rfl)
              · exact h4 e he hs
        · rw [hb]
          rcases ih (some x) with ⟨h1, _⟩ | ⟨d, h1, h2, h3, h4⟩
          · cases h1
          · refine ⟨d, h1, Or.inr ?_, ?_, ?_⟩
            · rcases h2 with h2 | ⟨h2, h2'⟩
              · cases h2; exact ⟨List.mem_cons_self _ _, hx'⟩
              · exact ⟨List.mem_cons_of_mem _ h2, h2'⟩
            · intro b' hb'
              cases hb'
              exact le_trans _ _ _ hle (h3 _ rfl)
            · intro e he hs
              rcases List.mem_cons.mp he with rfl | he
              · exact h3 _ rfl
              · exact h4 e he hs

theorem tractionKeyLe_refl (a : Engine) : tractionKeyLe a a :=
  Or.inr ⟨rfl, Or.inr ⟨rfl, le_refl _⟩⟩

theorem tractionKeyLe_trans (a b d : Engine) (h1 : tractionKeyLe a b)
    (h2 : tractionKeyLe b d) : tractionKeyLe a d := by
  unfold tractionKeyLe at *
  omega

theorem wagonKeyLe_refl (a : Engine) : wagonKeyLe a a :=
  Or.inr ⟨rfl, le_refl _⟩

theorem wagonKeyLe_trans (a b d : Engine) (h1 : wagonKeyLe a b)
    (h2 : wagonKeyLe b d) : wagonKeyLe a d := by
  unfold wagonKeyLe at *
  omega

theorem engineSkipped_eq_false (c : Catalog) (rt : RailType) (co : CompanyID) (e : Engine) :
    engineSkipped c rt co e = false ↔ tractionQualifies c rt co e := by
  unfold engineSkipped tractionQualifies
  cases hb : c.IsEngineBuildable e.index co <;> simp [hb]
  tauto

theorem wagonSkipped_eq_false (c : Catalog) (rt : RailType) (co : CompanyID)
    (cargo : CargoID) (e : Engine) :
    wagonSkipped c rt co cargo e = false ↔ wagonQualifies c rt co cargo e := by
  unfold wagonSkipped wagonQualifies
  rw [HasBit_iff_testBit _ _ (GetRefittableCargoTypes_lt c e.index)]
  cases hb : c.IsEngineBuildable e.index co <;>
    cases hp : c.HasPowerOnRail e.railtype rt <;>
    cases ht : (GetRefittableCargoTypes c e.index).testBit cargo <;> simp

theorem engine_fold (c : Catalog) (rt : RailType) (co : CompanyID) :
    ((∀ e ∈ c.engines, ¬ tractionQualifies c rt co e) ∧
      c.engines.foldl (engineLoopBody c rt co) none = none) ∨
    (∃ d, c.engines.foldl (engineLoopBody c rt co) none = some d ∧ d ∈ c.engines ∧
      tractionQualifies c rt co d ∧
      ∀ e ∈ c.engines, tractionQualifies c rt co e → tractionKeyLe e d) := by
  have key := selection_fold (engineSkipped c rt co) (engineLoopBody c rt co)
    tractionKeyLe_refl tractionKeyLe_trans
    (by intro best e h; simp [engineLoopBody, h])
    (by intro e h; simp [engineLoopBody, h])
    (by
      intro b e h
      simp only [engineLoopBody, h, tractionKeyLe]
      by_cases h1 : b.GetDisplayMaxSpeed = e.GetDisplayMaxSpeed
      · by_cases h2 : b.GetPower = e.GetPower
        · by_cases h3 : b.GetCost < e.GetCost
          · simp [h1, h2, h3]; omega
          · simp [h1, h2, h3]; omega
        · by_cases h3 : b.GetPower < e.GetPower
          · simp [h1, h2, h3]
          · simp [h1, h2, h3]; omega
      · by_cases h3 : b.GetDisplayMaxSpeed < e.GetDisplayMaxSpeed
        · simp [h1, h3]
        · simp [h1, h3]; omega)
    c.engines none
  rcases key with ⟨_, h2, h3⟩ | ⟨d, h1, h2, _, h4⟩
  · left
    refine ⟨?_, h3⟩
    intro e he hq
    have := (engineSkipped_eq_false c rt co e).mpr hq
    rw [h2 e he] at this
    cases this
  · right
    rcases h2 with h2 | ⟨h2, h2'⟩
    · cases h2
    · exact ⟨d, h1, h2, (engineSkipped_eq_false c rt co d).mp h2',
        fun e he hq => h4 e he ((engineSkipped_eq_false c rt co e).mpr hq)⟩

theorem wagon_fold (c : Catalog) (rt : RailType) (co : CompanyID) (cargo : CargoID) :
    ((∀ e ∈ c.engines, ¬ wagonQualifies c rt co cargo e) ∧
      c.engines.foldl (wagonLoopBody c rt co cargo) none = none) ∨
    (∃ d, c.engines.foldl (wagonLoopBody c rt co cargo) none = some d ∧ d ∈ c.engines ∧
      wagonQualifies c rt co cargo d ∧
      ∀ e ∈ c.engines, wagonQualifies c rt co cargo e → wagonKeyLe e d) := by
  have key := selection_fold (wagonSkipped c rt co cargo) (wagonLoopBody c rt co cargo)
    wagonKeyLe_refl wagonKeyLe_trans
    (by intro best e h; simp [wagonLoopBody, h])
    (by intro e h; simp [wagonLoopBody, h])
    (by
      intro b e h
      simp only [wagonLoopBody, h, wagonKeyLe]
      by_cases h1 : b.GetDisplayMaxSpeed = e.GetDisplayMaxSpeed
      · by_cases h3 : b.GetCost < e.GetCost
        · simp [h1, h3]; omega
        · simp [h1, h3]; omega
      · by_cases h3 : b.GetDisplayMaxSpeed < e.GetDisplayMaxSpeed
        · simp [h1, h3]
        · simp [h1, h3]; omega)
    c.engines none
  rcases key with ⟨_, h2, h3⟩ | ⟨d, h1, h2, _, h4⟩
  · left
    refine ⟨?_, h3⟩
    intro e he hq
    have := (wagonSkipped_eq_false c rt co cargo e).mpr hq
    rw [h2 e he] at this
    cases this
  · right
    rcases h2 with h2 | ⟨h2, h2'⟩
    · cases h2
    · exact ⟨d, h1, h2, (wagonSkipped_eq_false c rt co cargo d).mp h2',
        fun e he hq => h4 e he ((wagonSkipped_eq_false c rt co cargo e).mpr hq)⟩

/-- C2: for a traction role (`cargo == CT_INVALID`) `GetNewTrainUnit` returns
`INVALID_ENGINE` when no design of the catalog qualifies (nonzero power,
buildable by the company of the run, of the target rail type), and otherwise the
index of a qualifying design whose key (top speed, power, cost) is
lexicographically at least the key of every qualifying design. -/
theorem GetNewTrainUnit_traction (c : Catalog) (rail_type : RailType)
    (current_company : CompanyID) (wagon_cargo : CargoID) :
    ((∀ e ∈ c.engines, ¬ tractionQualifies c rail_type current_company e) ∧
      GetNewTrainUnit c rail_type current_company CT_INVALID wagon_cargo
        = (INVALID_ENGINE, CT_INVALID)) ∨
    (∃ d ∈ c.engines, tractionQualifies c rail_type current_company d ∧
      (GetNewTrainUnit c rail_type current_company CT_INVALID wagon_cargo).1 = d.index ∧
      ∀ e ∈ c.engines, tractionQualifies c rail_type current_company e →
        tractionKeyLe e d) := by
  rcases engine_fold c rail_type current_company with ⟨h1, h2⟩ | ⟨d, h1, h2, h3, h4⟩
  · left
    refine ⟨h1, ?_⟩
    simp [GetNewTrainUnit, h2]
  · right
    refine ⟨d, h2, h3, ?_, h4⟩
    simp [GetNewTrainUnit, h1]

/-- C3: for a requested cargo `c != CT_INVALID`, `GetNewTrainUnit` returns
`INVALID_ENGINE` when no design qualifies (zero power, `HasPowerOnRail` of its
rail type on the target, buildable by the company of the run, refittable to the
cargo), and otherwise the pair of a qualifying design and the cargo, where the
key (top speed, cost) of the design is lexicographically at least the key of
every qualifying design. -/
theorem GetNewTrainUnit_wagon (c : Catalog) (rail_type : RailType)
    (current_company : CompanyID) (cargo wagon_cargo : CargoID)
    (hcargo : cargo ≠ CT_INVALID) :
    ((∀ e ∈ c.engines, ¬ wagonQualifies c rail_type current_company cargo e) ∧
      (GetNewTrainUnit c rail_type current_company cargo wagon_cargo).1 = INVALID_ENGINE) ∨
    (∃ d ∈ c.engines, wagonQualifies c rail_type current_company cargo d ∧
      GetNewTrainUnit c rail_type current_company cargo wagon_cargo = (d.index, cargo) ∧
      ∀ e ∈ c.engines, wagonQualifies c rail_type current_company cargo e →
        wagonKeyLe e d) := by
  rcases wagon_fold c rail_type current_company cargo with ⟨h1, h2⟩ | ⟨d, h1, h2, h3, h4⟩
  · left
    refine ⟨h1, ?_⟩
    simp [GetNewTrainUnit, hcargo, h2]
  · right
    refine ⟨d, h2, h3, ?_, h4⟩
    simp [GetNewTrainUnit, hcargo, h1]

/-- Witness of `GetNewTrainUnit_wagon`: cargo 3 in the sample catalog. -/
theorem GetNewTrainUnit_wagon_witness :
    (3 : CargoID) ≠ CT_INVALID ∧
    (((∀ e ∈ sampleCatalog.engines, ¬ wagonQualifies sampleCatalog 1 1 3 e) ∧
      (GetNewTrainUnit sampleCatalog 1 1 3 3).1 = INVALID_ENGINE) ∨
    (∃ d ∈ sampleCatalog.engines, wagonQualifies sampleCatalog 1 1 3 d ∧
      GetNewTrainUnit sampleCatalog 1 1 3 3 = (d.index, 3) ∧
      ∀ e ∈ sampleCatalog.engines, wagonQualifies sampleCatalog 1 1 3 e →
        wagonKeyLe e d)) :=
  ⟨by decide, GetNewTrainUnit_wagon sampleCatalog 1 1 3 3 (by decide)⟩

theorem ParseRailType_valid_iff (str : String) :
    ParseRailType str ≠ INVALID_RAILTYPE ↔
      (str = "rail" ∨ str = "electric" ∨ str = "monorail" ∨ str = "maglev") := by
  unfold ParseRailType
  by_cases h1 : str = "rail"
  · simp [h1, RAILTYPE_RAIL, INVALID_RAILTYPE]
  · by_cases h2 : str = "electric"
    · simp [h2, RAILTYPE_ELECTRIC, INVALID_RAILTYPE]
    · by_cases h3 : str = "monorail"
      · simp [h3, RAILTYPE_MONO, INVALID_RAILTYPE]
      · by_cases h4 : str = "maglev"
        · simp [h4, RAILTYPE_MAGLEV, INVALID_RAILTYPE]
        · simp [h1, h2, h3, h4]

theorem has_trains_iff (w : World) :
    has_trains w = true ↔
      ∃ v ∈ w.vehicles, v.type = VEH_TRAIN ∧ v.IsPrimaryVehicle = true ∧
        v.owner = w._local_company := by
  simp [has_trains, List.any_eq_true, and_assoc]

theorem ResetCoroState_coro_resumer (s : State) : (ResetCoroState s).coro_resumer = none := by
  unfold ResetCoroState
  cases h : s.coro_resumer <;> simp [h]

/-- The state an accepted `Start` ends in. -/
theorem Start_eq (w : World) (type_str : String) (s : State) :
    Start w type_str s =
      if w._local_company = COMPANY_SPECTATOR then some (false, s)
      else if ParseRailType type_str = INVALID_RAILTYPE then
        some (false, { s with rail_type := ParseRailType type_str })
      else if has_trains w = false then
        some (false, { s with rail_type := ParseRailType type_str })
      else
        some (true,
          { ResetCoroState { s with rail_type := ParseRailType type_str,
                                    current_company := w._local_company } with
            coro_resumer := some (Handle.task Frame.L211),
            coro_waiting_for_callback := true }) := by
  unfold Start
  by_cases h1 : w._local_company = COMPANY_SPECTATOR
  · simp [h1]
  · by_cases h2 : ParseRailType type_str = INVALID_RAILTYPE
    · simp [h1, h2]
    · cases h3 : has_trains w
      · simp [h1, h2, h3]
      · simp [h1, h2, h3, DoCoro, WaitTickAwaiter.await_suspend, ResetCoroState_coro_resumer]

/-- C1: `Start` returns, and it returns true exactly when the local company is
not `COMPANY_SPECTATOR`, the string is one of "rail", "electric", "monorail",
"maglev" (the strings for which `ParseRailType` does not return
`INVALID_RAILTYPE`), and the local company owns a primary train; in every other
case it returns false. -/
theorem Start_true_iff (w : World) (type_str : String) (s : State) :
    (∃ b s', Start w type_str s = some (b, s') ∧
      (b = true ↔
        (w._local_company ≠ COMPANY_SPECTATOR ∧
          (type_str = "rail" ∨ type_str = "electric" ∨ type_str = "monorail" ∨
            type_str = "maglev") ∧
          ∃ v ∈ w.vehicles, v.type = VEH_TRAIN ∧ v.IsPrimaryVehicle = true ∧
            v.owner = w._local_company))) ∧
    (ParseRailType type_str ≠ INVALID_RAILTYPE ↔
      (type_str = "rail" ∨ type_str = "electric" ∨ type_str = "monorail" ∨
        type_str = "maglev")) := by
  refine ⟨?_, ParseRailType_valid_iff type_str⟩
  rw [Start_eq, ← has_trains_iff, ← ParseRailType_valid_iff]
  by_cases h1 : w._local_company = COMPANY_SPECTATOR
  · exact ⟨false, s, by rw [if_pos h1], by simp [h1]⟩
  · by_cases h2 : ParseRailType type_str = INVALID_RAILTYPE
    · exact ⟨false, _, by rw [if_neg h1, if_pos h2], by simp [h2]⟩
    · cases h3 : has_trains w
      · exact ⟨false, _, by rw [if_neg h1, if_neg h2, if_pos rfl], by simp⟩
      · exact ⟨true, _, by rw [if_neg h1, if_neg h2, if_neg (by simp)], by simp [h1, h2]⟩

theorem wagonCargoOf_eq (cargos : List CargoID) :
    wagonCargoOf cargos = (cargos.find? (fun c => c != CT_INVALID)).getD CT_INVALID := by
  induction cargos with
  | nil => rfl
  | cons c rest ih =>
    by_cases h : c = CT_INVALID
    · simp [wagonCargoOf, List.find?, h, ih]
    · have hb : (c != CT_INVALID) = true := by simpa using h
      simp [wagonCargoOf, List.find?, h, hb]

/-- C4: when the engine loop selects the design `e` for a traction unit of a
train with signature `cargos`, the cargo returned with it (the affinity passed
to the build command) is the dominant cargo of the signature, its first entry
other than `CT_INVALID`, exactly when the refit mask of `e` contains that
cargo; otherwise, and when the signature has no such entry, it is `CT_INVALID`. -/
theorem GetNewTrainUnit_engine_refit (c : Catalog) (rail_type : RailType)
    (current_company : CompanyID) (cargos : List CargoID) (e : Engine)
    (hsel : c.engines.foldl (engineLoopBody c rail_type current_company) none = some e) :
    GetNewTrainUnit c rail_type current_company CT_INVALID (wagonCargoOf cargos)
      = (e.index, (GetNewTrainUnit c rail_type current_company CT_INVALID
          (wagonCargoOf cargos)).2) ∧
    match cargos.find? (fun x => x != CT_INVALID) with
    | some dominant =>
      wagonCargoOf cargos = dominant ∧
      ((GetNewTrainUnit c rail_type current_company CT_INVALID (wagonCargoOf cargos)).2
          = dominant ↔ (GetRefittableCargoTypes c e.index).testBit dominant = true) ∧
      ((GetRefittableCargoTypes c e.index).testBit dominant = false →
        (GetNewTrainUnit c rail_type current_company CT_INVALID (wagonCargoOf cargos)).2
          = CT_INVALID)
    | none =>
      (GetNewTrainUnit c rail_type current_company CT_INVALID (wagonCargoOf cargos)).2
        = CT_INVALID := by
  have hw := wagonCargoOf_eq cargos
  have hb := HasBit_iff_testBit (GetRefittableCargoTypes c e.index) (wagonCargoOf cargos)
    (GetRefittableCargoTypes_lt c e.index)
  refine ⟨by simp [GetNewTrainUnit, hsel], ?_⟩
  cases hf : cargos.find? (fun x => x != CT_INVALID) with
  | none =>
    rw [hf] at hw
    simp only [Option.getD_none] at hw
    simp [GetNewTrainUnit, hsel, hw]
  | some dominant =>
    rw [hf] at hw
    simp only [Option.getD_some] at hw
    have hne : dominant ≠ CT_INVALID := by
      have := List.find?_some hf
      simpa using this
    rw [hw] at hb
    simp only [GetNewTrainUnit, hsel, hw, hb, if_true]
    cases ht : (GetRefittableCargoTypes c e.index).testBit dominant
    · simp [Ne.symm hne]
    · simp

/-- Witness of `GetNewTrainUnit_engine_refit`: the locomotive of the sample
catalog, which cannot be refitted, for the signature engine, cargo 3. -/
theorem GetNewTrainUnit_engine_refit_witness :
    sampleCatalog.engines.foldl (engineLoopBody sampleCatalog 1 1) none
      = some { index := 12, railtype := 1, GetPower := 3000, GetDisplayMaxSpeed := 160,
               GetCost := 900 } ∧
    GetNewTrainUnit sampleCatalog 1 1 CT_INVALID (wagonCargoOf [CT_INVALID, 3])
      = (12, CT_INVALID) := by
  have h := GetNewTrainUnit_engine_refit sampleCatalog 1 1 [CT_INVALID, 3]
    { index := 12, railtype := 1, GetPower := 3000, GetDisplayMaxSpeed := 160, GetCost := 900 }
    (by decide)
  refine ⟨by decide, ?_⟩
  rw [h.1]
  have h2 := h.2
  simp only [List.find?, CT_INVALID] at h2
  simp only [CT_INVALID]
  rw [h2.2.2 (by decide)]

/-! ### The scheduler -/

theorem predecrement_succ (k : Nat) (hk : k + 1 < 2 ^ 64) : predecrement (k + 1) = k := by
  unfold predecrement
  omega

/-- One pump of a `WaitTicks` frame whose counter is above one: it suspends again. -/
theorem HandleCoro_waitTicks_step (resume : Frame → State → Option State) (k : Nat)
    (f : Frame) (s : State) (hk : k + 2 < 2 ^ 64) :
    HandleCoro resume
      { s with coro_resumer := some (Handle.waitTicks (k + 2) f),
               coro_waiting_for_callback := true }
      = some (true, { s with coro_resumer := some (Handle.waitTicks (k + 1) f),
                             coro_waiting_for_callback := true }) := by
  simp [HandleCoro, Handle.run, WaitTicks.loop, WaitTickAwaiter.await_suspend,
    predecrement_succ (k + 1) hk]

/-- One pump of a `WaitTicks` frame whose counter is one: the loop ends and the
caller runs. -/
theorem HandleCoro_waitTicks_last (resume : Frame → State → Option State)
    (f : Frame) (s : State) :
    HandleCoro resume
      { s with coro_resumer := some (Handle.waitTicks 1 f),
               coro_waiting_for_callback := true }
      = (resume f { s with coro_resumer := none, coro_waiting_for_callback := false }).map
          (fun x => (true, x)) := by
  simp [HandleCoro, Handle.run, WaitTicks.loop, predecrement]

/-- A `WaitTicks` frame with counter `k + 1` is still suspended after `j ≤ k` pumps. -/
theorem times_waitTicks (resume : Frame → State → Option State) (f : Frame) (s : State)
    (j k : Nat) (hj : j ≤ k) (hk : k + 1 < 2 ^ 64) :
    HandleCoro.times resume j
      { s with coro_resumer := some (Handle.waitTicks (k + 1) f),
               coro_waiting_for_callback := true }
      = some { s with coro_resumer := some (Handle.waitTicks (k + 1 - j) f),
                      coro_waiting_for_callback := true } := by
  induction j generalizing k with
  | zero => rfl
  | succ j ih =>
    obtain ⟨k', rfl⟩ : ∃ k', k = k' + 1 := ⟨k - 1, by omega⟩
    rw [HandleCoro.times, HandleCoro_waitTicks_step resume k' f s hk]
    simp only [Option.some_bind]
    rw [ih k' (by omega) (by omega), show k' + 1 + 1 - (j + 1) = k' + 1 - j by omega]

/-- The caller of `WaitTicks(n)`, for `2 ≤ n < 2^64`, stays suspended during
`n - 2` pumps and runs in pump number `n - 1`. -/
theorem co_await_WaitTicks_pumps (resume : Frame → State → Option State) (n : Nat)
    (f : Frame) (s : State) (hn : 2 ≤ n) (hn' : n < 2 ^ 64) (hs : s.coro_resumer = none) :
    ∃ s1, co_await_WaitTicks resume n f s = some s1 ∧
      (∀ j, j < n - 1 → HandleCoro.times resume j s1
        = some { s with coro_resumer := some (Handle.waitTicks (n - 1 - j) f),
                        coro_waiting_for_callback := true }) ∧
      HandleCoro.times resume (n - 1) s1
        = resume f { s with coro_resumer := none, coro_waiting_for_callback := false } := by
  obtain ⟨k, rfl⟩ : ∃ k, n = k + 2 := ⟨n - 2, by omega⟩
  refine ⟨{ s with coro_resumer := some (Handle.waitTicks (k + 1) f),
                   coro_waiting_for_callback := true }, ?_, ?_, ?_⟩
  · simp [co_await_WaitTicks, WaitTicks.loop, WaitTickAwaiter.await_suspend, hs,
      predecrement_succ (k + 1) hn']
  · intro j hj
    have := times_waitTicks resume f s j k (by omega) (by omega)
    simpa using this
  · have h1 := times_waitTicks resume f s k k (le_refl _) (by omega)
    have h2 : ∀ (j : Nat) (a b : State), HandleCoro.times resume j a = some b →
        HandleCoro.times resume (j + 1) a = (HandleCoro resume b).bind (fun r => some r.2) := by
      intro j
      induction j with
      | zero =>
        intro a b hab
        simp only [HandleCoro.times, Option.some.injEq] at hab
        subst hab
        simp [HandleCoro.times]
      | succ j ih =>
        intro a b hab
        rw [HandleCoro.times] at hab ⊢
        cases hh : HandleCoro resume a with
        | none => rw [hh] at hab; simp at hab
        | some r =>
          rw [hh] at hab
          simp only [Option.some_bind] at hab ⊢
          exact ih _ _ hab
    rw [show k + 1 - k = 1 by omega] at h1
    have h3 := h2 k _ _ h1
    rw [show k + 2 - 1 = k + 1 by omega, h3, HandleCoro_waitTicks_last resume f s]
    cases resume f { s with coro_resumer := none, coro_waiting_for_callback := false } <;> rfl

/-- With the constant `TICKS_PER_SECOND` the loop of `WaitTicks` suspends at its
first test, which is why the slices of `DoCoro` can use `WaitTicks.suspend`. -/
theorem co_await_WaitTicks_TICKS_PER_SECOND (resume : Frame → State → Option State)
    (f : Frame) (s : State) :
    co_await_WaitTicks resume TICKS_PER_SECOND f s = WaitTicks.suspend TICKS_PER_SECOND f s := by
  have h : predecrement TICKS_PER_SECOND > 0 := by decide
  simp [co_await_WaitTicks, WaitTicks.loop, WaitTicks.suspend, h]

/-- C5 (evaluation of the code): `co_await WaitTicks(1)` runs its caller at once,
with no pump at all, and the caller of `co_await WaitTicks(TICKS_PER_SECOND)`,
that is of `WaitTicks(30)`, is still suspended after 28 pumps and runs in pump
number 29, one pump earlier than the number of ticks asked for. -/
theorem WaitTicks_resumes_one_tick_early (resume : Frame → State → Option State)
    (f : Frame) :
    co_await_WaitTicks resume 1 f sampleState = resume f sampleState ∧
    ∃ s1, co_await_WaitTicks resume TICKS_PER_SECOND f sampleState = some s1 ∧
      HandleCoro.times resume 28 s1
        = some { sampleState with coro_resumer := some (Handle.waitTicks 1 f),
                                  coro_waiting_for_callback := true } ∧
      HandleCoro.times resume 29 s1 = resume f sampleState := by
  refine ⟨by simp [co_await_WaitTicks, WaitTicks.loop, predecrement], ?_⟩
  obtain ⟨s1, h1, h2, h3⟩ :=
    co_await_WaitTicks_pumps resume TICKS_PER_SECOND f sampleState (by decide) (by decide) rfl
  exact ⟨s1, h1, h2 28 (by decide), h3⟩

/-- C6: when `Callback` is run with `result` while the task is suspended on a
command, the next pump resumes the task in a state where `await_resume`
returns exactly `result` and `coro_new_vehicle_id` is the value `_new_vehicle_id`
had at the delivery; the same through `OnTick` while the run is authorized. -/
theorem Callback_delivers_result (w : World) (resume : Frame → State → Option State)
    (result : CommandCost) (_new_vehicle_id : VehicleID) (s : State) (f : Frame)
    (hs : s.coro_resumer = some (Handle.task f))
    (hrun : s.current_company ≠ COMPANY_SPECTATOR)
    (hco : w._local_company = s.current_company) :
    ∃ s', DoCommandPAwaiter.await_resume s' = result ∧
      s'.coro_new_vehicle_id = _new_vehicle_id ∧
      (DoCommandPAwaiter.Callback result _new_vehicle_id s).coro_new_vehicle_id
        = _new_vehicle_id ∧
      HandleCoro resume (DoCommandPAwaiter.Callback result _new_vehicle_id s)
        = (resume f s').map (fun x => (true, x)) ∧
      OnTick w (DoCommandPAwaiter.Callback result _new_vehicle_id s) = DoCoro.resume w f s' := by
  refine ⟨{ s with coro_command_cost := result, coro_new_vehicle_id := _new_vehicle_id,
                   coro_waiting_for_callback := false, coro_resumer := none }, rfl, rfl, ?_, ?_, ?_⟩
  · simp [DoCommandPAwaiter.Callback]
  · cases hf : result.Failed <;>
      simp [HandleCoro, DoCommandPAwaiter.Callback, hs, hf, Handle.run]
  · have hc : (DoCommandPAwaiter.Callback result _new_vehicle_id s).current_company
        = s.current_company := by
      cases hf : result.Failed <;> simp [DoCommandPAwaiter.Callback, hf]
    unfold OnTick
    rw [hc, if_pos hrun, if_neg (by simpa using hco)]
    cases hf : result.Failed <;>
      simp [HandleCoro, DoCommandPAwaiter.Callback, hs, hf, Handle.run]

/-- Witness of `Callback_delivers_result`: a failure delivered to the task
suspended at line 217. -/
theorem Callback_delivers_result_witness :
    sampleAwaiting.coro_resumer = some (Handle.task Frame.L217) ∧
    sampleAwaiting.current_company ≠ COMPANY_SPECTATOR ∧
    sampleWorld._local_company = sampleAwaiting.current_company ∧
    ∃ s', DoCommandPAwaiter.await_resume s' = CommandCost.error 5 ∧
      s'.coro_new_vehicle_id = 42 ∧
      (DoCommandPAwaiter.Callback (CommandCost.error 5) 42 sampleAwaiting).coro_new_vehicle_id
        = 42 ∧
      HandleCoro (DoCoro.resume sampleWorld)
          (DoCommandPAwaiter.Callback (CommandCost.error 5) 42 sampleAwaiting)
        = (DoCoro.resume sampleWorld Frame.L217 s').map (fun x => (true, x)) ∧
      OnTick sampleWorld (DoCommandPAwaiter.Callback (CommandCost.error 5) 42 sampleAwaiting)
        = DoCoro.resume sampleWorld Frame.L217 s' :=
  ⟨rfl, by decide, rfl,
    Callback_delivers_result sampleWorld (DoCoro.resume sampleWorld) (CommandCost.error 5) 42
      sampleAwaiting Frame.L217 rfl (by decide) rfl⟩

/-- The state in which `await_suspend` returns when the submission is refused in
a networked game. -/
theorem await_suspend_refused (w : World) (c : Command) (handle : Handle) (s : State)
    (hs : s.coro_resumer = none) (hret : (w.DoCommandPEx c).ret = false)
    (hnet : w._networking = true) :
    DoCommandPAwaiter.await_suspend w c handle s
      = some { s with coro_resumer := some handle, submitted := s.submitted ++ [c],
                      coro_command_cost := CommandCost.error INVALID_STRING_ID,
                      coro_new_vehicle_id := (w.DoCommandPEx c)._new_vehicle_id,
                      coro_waiting_for_callback := true } := by
  unfold DoCommandPAwaiter.await_suspend
  simp only [hs, hret, hnet, Option.isSome_none, Bool.false_eq_true, if_false, Bool.not_false,
    Bool.and_self, if_true]
  cases hcb : (w.DoCommandPEx c).callback with
  | none => simp [DoCommandPAwaiter.Callback, CommandCost.error, CommandCost.Failed]
  | some result =>
    by_cases hc : c.cmd = CommandId.CMD_FOUND_TOWN
    · simp [DoCommandPAwaiter.Callback, DoCommandPAwaiter.CallbackWrapper, hc,
        CommandCost.error, CommandCost.Failed]
    · cases hf : result.Failed <;>
        simp [DoCommandPAwaiter.Callback, DoCommandPAwaiter.CallbackWrapper, hc, hf,
          CommandCost.error, CommandCost.Failed]

/-- C7: when `DoCommandPEx` returns false in a networked game, `await_suspend`
returns with the failure `CommandCost(INVALID_STRING_ID)` recorded and the ready
flag set, whatever the game did meanwhile, so the next pump runs the handle in a
state where `await_resume` is a failure. -/
theorem await_suspend_synthesizes_failure (w : World)
    (resume : Frame → State → Option State) (c : Command) (handle : Handle) (s : State)
    (hs : s.coro_resumer = none) (hret : (w.DoCommandPEx c).ret = false)
    (hnet : w._networking = true) :
    ∃ s', DoCommandPAwaiter.await_suspend w c handle s = some s' ∧
      s'.coro_command_cost = CommandCost.error INVALID_STRING_ID ∧
      s'.coro_command_cost.Failed = true ∧
      s'.coro_waiting_for_callback = true ∧
      s'.coro_resumer = some handle ∧
      ∃ s'', HandleCoro resume s' = (Handle.run resume handle s'').map (fun x => (true, x)) ∧
        (DoCommandPAwaiter.await_resume s'').Failed = true :=
  ⟨_, await_suspend_refused w c handle s hs hret hnet, rfl, rfl, rfl, rfl, _, rfl, rfl⟩

/-- Witness of `await_suspend_synthesizes_failure`: the mass start command in
the sample game, where every submission is refused. -/
theorem await_suspend_synthesizes_failure_witness :
    sampleState.coro_resumer = none ∧
    (sampleWorld.DoCommandPEx
      { tile := 0, p1 := 3, p2 := 1, p3 := 0, cmd := CommandId.CMD_MASS_START_STOP }).ret = false ∧
    sampleWorld._networking = true ∧
    ∃ s', DoCommandPAwaiter.await_suspend sampleWorld
        { tile := 0, p1 := 3, p2 := 1, p3 := 0, cmd := CommandId.CMD_MASS_START_STOP }
        (Handle.task Frame.L514) sampleState = some s' ∧
      s'.coro_command_cost = CommandCost.error INVALID_STRING_ID ∧
      s'.coro_command_cost.Failed = true ∧
      s'.coro_waiting_for_callback = true ∧
      s'.coro_resumer = some (Handle.task Frame.L514) ∧
      ∃ s'', HandleCoro (DoCoro.resume sampleWorld) s'
          = (Handle.run (DoCoro.resume sampleWorld) (Handle.task Frame.L514) s'').map
              (fun x => (true, x)) ∧
        (DoCommandPAwaiter.await_resume s'').Failed = true :=
  ⟨rfl, rfl, rfl,
    await_suspend_synthesizes_failure sampleWorld (DoCoro.resume sampleWorld)
      { tile := 0, p1 := 3, p2 := 1, p3 := 0, cmd := CommandId.CMD_MASS_START_STOP }
      (Handle.task Frame.L514) sampleState rfl rfl rfl⟩

/-! ### How a slice of `DoCoro` ends -/

theorem SliceEnds_none (s : State) : SliceEnds s none := by
  intro s' h
  cases h

theorem SliceEnds_bail (s : State) : SliceEnds s (DoCoro.bail s) := by
  intro s' h
  simp only [DoCoro.bail, Option.some.injEq] at h
  exact Or.inr h.symm

theorem SliceEnds_bind {α : Type} (s : State) (x : Option α) (g : α → Option State)
    (h : ∀ a, SliceEnds s (g a)) : SliceEnds s (x >>= g) := by
  cases x with
  | none => exact SliceEnds_none s
  | some a => exact h a

theorem DoCommandPAwaiter.Callback_frame (result : CommandCost) (n : VehicleID) (s : State) :
    (DoCommandPAwaiter.Callback result n s).coro_resumer = s.coro_resumer ∧
    (DoCommandPAwaiter.Callback result n s).current_company = s.current_company ∧
    (DoCommandPAwaiter.Callback result n s).rail_type = s.rail_type ∧
    (DoCommandPAwaiter.Callback result n s).destroyed = s.destroyed ∧
    (DoCommandPAwaiter.Callback result n s).submitted = s.submitted := by
  cases hf : result.Failed <;> simp [DoCommandPAwaiter.Callback, hf]

theorem DoCommandPAwaiter.CallbackWrapper_frame (result : CommandCost) (n : VehicleID)
    (cmd : CommandId) (s : State) :
    (DoCommandPAwaiter.CallbackWrapper result n cmd s).coro_resumer = s.coro_resumer ∧
    (DoCommandPAwaiter.CallbackWrapper result n cmd s).current_company = s.current_company ∧
    (DoCommandPAwaiter.CallbackWrapper result n cmd s).rail_type = s.rail_type ∧
    (DoCommandPAwaiter.CallbackWrapper result n cmd s).destroyed = s.destroyed ∧
    (DoCommandPAwaiter.CallbackWrapper result n cmd s).submitted = s.submitted := by
  unfold DoCommandPAwaiter.CallbackWrapper
  by_cases hc : cmd = CommandId.CMD_FOUND_TOWN
  · simp [hc]
  · simp only [hc, if_false]
    exact DoCommandPAwaiter.Callback_frame result n s

/-- A command `co_await`: the task is suspended on `handle` when it returns. -/
theorem DoCommandPAwaiter.await_suspend_frame (w : World) (c : Command) (handle : Handle)
    (s s' : State) (h : DoCommandPAwaiter.await_suspend w c handle s = some s') :
    s.coro_resumer = none ∧ s'.coro_resumer = some handle ∧
    s'.current_company = s.current_company ∧ s'.rail_type = s.rail_type ∧
    s'.destroyed = s.destroyed ∧ s'.submitted = s.submitted ++ [c] := by
  unfold DoCommandPAwaiter.await_suspend at h
  cases hr : s.coro_resumer with
  | some h0 => simp [hr] at h
  | none =>
    simp only [hr, Option.isSome_none, Bool.false_eq_true, if_false] at h
    refine ⟨rfl, ?_⟩
    cases hcb : (w.DoCommandPEx c).callback with
    | none =>
      simp only [hcb] at h
      split_ifs at h
      · cases h
        have := DoCommandPAwaiter.Callback_frame (CommandCost.error INVALID_STRING_ID)
          (w.DoCommandPEx c)._new_vehicle_id
          { s with coro_resumer := some handle, submitted := s.submitted ++ [c] }
        simpa using this
      · cases h
        simp
    | some result =>
      simp only [hcb] at h
      have e1 := DoCommandPAwaiter.CallbackWrapper_frame result (w.DoCommandPEx c)._new_vehicle_id
        c.cmd { s with coro_resumer := some handle, submitted := s.submitted ++ [c] }
      split_ifs at h
      · cases h
        have := DoCommandPAwaiter.Callback_frame (CommandCost.error INVALID_STRING_ID)
          (w.DoCommandPEx c)._new_vehicle_id
          (DoCommandPAwaiter.CallbackWrapper result (w.DoCommandPEx c)._new_vehicle_id
            c.cmd { s with coro_resumer := some handle, submitted := s.submitted ++ [c] })
        simp only [e1] at this
        simpa using this
      · cases h
        simpa using e1

theorem SliceEnds_command (w : World) (c : Command) (handle : Handle) (s : State) :
    SliceEnds s (DoCommandPAwaiter.await_suspend w c handle s) := by
  intro s' h
  have := DoCommandPAwaiter.await_suspend_frame w c handle s s' h
  exact Or.inl ⟨⟨handle, this.2.1⟩, this.2.2.1, this.2.2.2.1, this.2.2.2.2.1⟩

theorem SliceEnds_tick (handle : Handle) (s : State) :
    SliceEnds s (WaitTickAwaiter.await_suspend handle s) := by
  intro s' h
  unfold WaitTickAwaiter.await_suspend at h
  split_ifs at h
  cases h
  exact Or.inl ⟨⟨handle, rfl⟩, rfl, rfl, rfl⟩

theorem SliceEnds_WaitTicks (n : Nat) (f : Frame) (s : State) :
    SliceEnds s (WaitTicks.suspend n f s) :=
  SliceEnds_tick _ s

theorem SliceEnds_skipOrders (w : World) (next : Rebuild → State → Option State)
    (hnext : ∀ r s, SliceEnds s (next r s)) (r : Rebuild) (new_train : VehicleID) (s : State) :
    SliceEnds s (DoCoro.skipOrders w next r new_train s) := by
  unfold DoCoro.skipOrders
  refine SliceEnds_bind s _ _ (fun v => ?_)
  try simp only []
  split_ifs
  · exact SliceEnds_command _ _ _ s
  · exact hnext r s
  · exact hnext r s

theorem SliceEnds_line488 (w : World) (next : Rebuild → State → Option State)
    (hnext : ∀ r s, SliceEnds s (next r s)) (r : Rebuild) (new_train : VehicleID) (s : State) :
    SliceEnds s (DoCoro.line488 w next r new_train s) := by
  unfold DoCoro.line488
  refine SliceEnds_bind s _ _ (fun v => ?_)
  exact SliceEnds_skipOrders w next hnext _ _ s

theorem SliceEnds_insertLoop (w : World) (next : Rebuild → State → Option State)
    (hnext : ∀ r s, SliceEnds s (next r s)) (r : Rebuild) (new_train : VehicleID) (i : Nat)
    (s : State) : SliceEnds s (DoCoro.insertLoop w next r new_train i s) := by
  unfold DoCoro.insertLoop
  refine SliceEnds_bind s _ _ (fun v => ?_)
  try simp only []
  split_ifs
  · refine SliceEnds_bind s _ _ (fun o => ?_)
    exact SliceEnds_command _ _ _ s
  · exact SliceEnds_line488 w next hnext _ _ s

theorem SliceEnds_deleteLoop (w : World) (next : Rebuild → State → Option State)
    (hnext : ∀ r s, SliceEnds s (next r s)) (r : Rebuild) (new_train : VehicleID)
    (s : State) : SliceEnds s (DoCoro.deleteLoop w next r new_train s) := by
  unfold DoCoro.deleteLoop
  refine SliceEnds_bind s _ _ (fun v => ?_)
  try simp only []
  split_ifs
  · exact SliceEnds_command _ _ _ s
  · exact SliceEnds_insertLoop w next hnext _ _ _ s

theorem SliceEnds_line457 (w : World) (next : Rebuild → State → Option State)
    (hnext : ∀ r s, SliceEnds s (next r s)) (r : Rebuild) (new_train : VehicleID)
    (s : State) : SliceEnds s (DoCoro.line457 w next r new_train s) := by
  unfold DoCoro.line457
  refine SliceEnds_bind s _ _ (fun v => ?_)
  try simp only []
  split_ifs
  · exact SliceEnds_command _ _ _ s
  · exact SliceEnds_deleteLoop w next hnext _ _ s

theorem SliceEnds_buildLoop (w : World) (next : Rebuild → State → Option State)
    (hnext : ∀ r s, SliceEnds s (next r s)) (r : Rebuild) (wagon_cargo : CargoID)
    (new_head : VehicleID) (cargos : List CargoID) (s : State) :
    SliceEnds s (DoCoro.buildLoop w next r wagon_cargo new_head cargos s) := by
  unfold DoCoro.buildLoop
  cases cargos with
  | nil =>
    try simp only []
    split_ifs
    · exact SliceEnds_bail s
    · exact SliceEnds_line457 w next hnext _ _ s
  | cons cargo rest =>
    try simp only []
    split_ifs
    · exact SliceEnds_bail s
    · exact SliceEnds_command _ _ _ s

theorem SliceEnds_attach (w : World) (next : Rebuild → State → Option State)
    (hnext : ∀ r s, SliceEnds s (next r s)) (r : Rebuild) (wagon_cargo : CargoID)
    (new_head : VehicleID) (rest : List CargoID) (new_wagon : VehicleID) (s : State) :
    SliceEnds s (DoCoro.attach w next r wagon_cargo new_head rest new_wagon s) := by
  unfold DoCoro.attach
  split_ifs
  · exact SliceEnds_buildLoop w next hnext _ _ _ _ s
  · refine SliceEnds_bind s _ _ (fun vw => ?_)
    try simp only []
    split_ifs
    · refine SliceEnds_bind s _ _ (fun vh => ?_)
      exact SliceEnds_command _ _ _ s
    · exact SliceEnds_buildLoop w next hnext _ _ _ _ s

theorem SliceEnds_activation (w : World) (s : State) : SliceEnds s (DoCoro.activation w s) :=
  SliceEnds_command _ _ _ s

theorem SliceEnds_reconstruction (w : World) (props : List VehicleProperties)
    (routes : List Route) (vehicles_for_copying : List (List CargoID × VehicleID))
    (s : State) :
    SliceEnds s (DoCoro.reconstruction w props routes vehicles_for_copying s) := by
  induction props generalizing routes vehicles_for_copying s with
  | nil =>
    unfold DoCoro.reconstruction
    exact SliceEnds_activation w s
  | cons prop rest ih =>
    unfold DoCoro.reconstruction
    split_ifs
    · exact SliceEnds_bail s
    · refine SliceEnds_bind s _ _ (fun route => ?_)
      try simp only []
      split
      · exact SliceEnds_command _ _ _ s
      · split
        · exact SliceEnds_command _ _ _ s
        · exact SliceEnds_buildLoop w _ (fun r s => ih _ _ s) _ _ _ _ s

theorem SliceEnds_next (w : World) (r : Rebuild) (s : State) :
    SliceEnds s (DoCoro.next w r s) :=
  SliceEnds_reconstruction w _ _ _ s

theorem SliceEnds_sellLoop (w : World) (routes : List Route)
    (vehicle_properties : List VehicleProperties) (depots : List TileIndex) (s : State) :
    SliceEnds s (DoCoro.sellLoop w routes vehicle_properties depots s) := by
  unfold DoCoro.sellLoop
  cases depots with
  | nil => exact SliceEnds_WaitTicks _ _ s
  | cons depot rest => exact SliceEnds_command _ _ _ s

theorem SliceEnds_depotWait (w : World) (my_vehicles : List VehicleID) (s : State) :
    SliceEnds s (DoCoro.depotWait w my_vehicles s) := by
  unfold DoCoro.depotWait
  refine SliceEnds_bind s _ _ (fun vehicles => ?_)
  try simp only []
  split_ifs
  · exact SliceEnds_WaitTicks _ _ s
  · exact SliceEnds_WaitTicks _ _ s

theorem SliceEnds_retryPass (w : World) (my_vehicles rest : List VehicleID) (num_failed : Nat)
    (has_succeeded : Bool) (s : State) :
    SliceEnds s (DoCoro.retryPass w my_vehicles rest num_failed has_succeeded s) := by
  induction rest generalizing num_failed has_succeeded with
  | nil =>
    unfold DoCoro.retryPass
    split_ifs
    · exact SliceEnds_depotWait w my_vehicles s
    · exact SliceEnds_WaitTicks _ _ s
  | cons vid rest ih =>
    unfold DoCoro.retryPass
    refine SliceEnds_bind s _ _ (fun v => ?_)
    try simp only []
    split_ifs
    · exact SliceEnds_command _ _ _ s
    · exact ih _ _

theorem SliceEnds_finish (s : State) :
    SliceEnds s (some { s with current_company := COMPANY_SPECTATOR }) := by
  intro s' h
  cases h
  exact Or.inr rfl

/-- Every slice of `DoCoro` ends in a fault, in a new suspension under the same
authorization, or with the coroutine over and the globals equal to `BailOut s`. -/
theorem SliceEnds_resume (w : World) (f : Frame) (s : State) :
    SliceEnds s (DoCoro.resume w f s) := by
  cases f <;> simp only [DoCoro.resume] <;> try split_ifs
  all_goals first
    | exact SliceEnds_bail s
    | exact SliceEnds_command _ _ _ s
    | exact SliceEnds_tick _ s
    | exact SliceEnds_WaitTicks _ _ s
    | exact SliceEnds_retryPass w _ _ _ _ s
    | exact SliceEnds_depotWait w _ s
    | exact SliceEnds_sellLoop w _ _ _ s
    | exact SliceEnds_reconstruction w _ _ _ s
    | exact SliceEnds_next w _ s
    | exact SliceEnds_skipOrders w _ (SliceEnds_next w) _ _ s
    | exact SliceEnds_line457 w _ (SliceEnds_next w) _ _ s
    | exact SliceEnds_line488 w _ (SliceEnds_next w) _ _ s
    | exact SliceEnds_attach w _ (SliceEnds_next w) _ _ _ _ _ s
    | exact SliceEnds_buildLoop w _ (SliceEnds_next w) _ _ _ _ s
    | exact SliceEnds_deleteLoop w _ (SliceEnds_next w) _ _ s
    | exact SliceEnds_insertLoop w _ (SliceEnds_next w) _ _ _ s
    | exact SliceEnds_finish s
    | exact SliceEnds_bind s _ _ (fun _ => SliceEnds_WaitTicks _ _ s)

/-! ### Bailout and restart -/

/-- A pump that ends with the authorization cleared, without loss of
authorization, leaves no handle in the scheduler. -/
theorem OnTick_task_over (w : World) (s s' : State)
    (hrun : s.current_company ≠ COMPANY_SPECTATOR) (hco : w._local_company = s.current_company)
    (h : OnTick w s = some s') (hend : s'.current_company = COMPANY_SPECTATOR) :
    s'.coro_resumer = none := by
  unfold OnTick at h
  rw [if_pos hrun, if_neg (by simpa using hco)] at h
  unfold HandleCoro at h
  cases hr : s.coro_resumer with
  | none =>
    simp only [hr, Option.map_some', Option.some.injEq] at h
    subst h
    exact absurd hend hrun
  | some hd =>
    simp only [hr] at h
    cases hflag : s.coro_waiting_for_callback with
    | false =>
      simp only [hflag, Bool.false_eq_true, if_false, Option.map_some', Option.some.injEq] at h
      subst h
      exact absurd hend hrun
    | true =>
      simp only [hflag, if_true, Option.map_map] at h
      have key : ∀ r, SliceEnds { s with coro_waiting_for_callback := false, coro_resumer := none } r →
          r = some s' → s'.coro_resumer = none := by
        intro r hr' hrs
        rcases hr' s' hrs with ⟨_, hc, _⟩ | hb
        · rw [hc] at hend
          exact absurd hend hrun
        · rw [hb]
          rfl
      have hid : ∀ r : Option State, Option.map ((fun r : Bool × State => r.2) ∘ fun s => (true, s)) r = r := by
        intro r
        cases r <;> rfl
      rw [hid] at h
      cases hd with
      | task f => exact key _ (SliceEnds_resume w f _) h
      | waitTicks k f =>
        simp only [Handle.run, WaitTicks.loop] at h
        split_ifs at h
        · exact key _ (SliceEnds_tick _ _) h
        · exact key _ (SliceEnds_resume w f _) h

theorem OnTick_spectator (w : World) (s : State)
    (h : s.current_company = COMPANY_SPECTATOR) : OnTick w s = some s := by
  simp [OnTick, h]

/-- C8 (counterexample): after an accepted `Start` the operator switches to
another company; the next `OnTick` bails out, and right after that `BailOut`
the scheduler still holds the suspended task and no handle has been destroyed. -/
theorem BailOut_leaves_task_suspended :
    ∃ s1, Start sampleWorld "rail" sampleState = some (true, s1) ∧
      OnTick sampleWorldOther s1 = some (BailOut s1) ∧
      (BailOut s1).current_company = COMPANY_SPECTATOR ∧
      (BailOut s1).coro_resumer = some (Handle.task Frame.L211) ∧
      (BailOut s1).destroyed = [] :=
  ⟨sampleStarted, by decide, by decide, by decide, by decide, by decide⟩

/-- C8 (amended): `BailOut` clears the authorization and touches nothing else.
When the trigger is inside the task, the pump in which the task bails out leaves
no handle in the scheduler. When the trigger is the loss of authorization seen
by `OnTick`, the suspended task stays in `coro_resumer`, no later `OnTick` runs
it, and it is destroyed by `ResetCoroState` in the next accepted `Start`. -/
theorem BailOut_clears_authorization_only :
    (∀ s : State, (BailOut s).current_company = COMPANY_SPECTATOR ∧
      (BailOut s).coro_resumer = s.coro_resumer ∧ (BailOut s).destroyed = s.destroyed ∧
      (BailOut s).coro_waiting_for_callback = s.coro_waiting_for_callback) ∧
    (∀ (w : World) (s s' : State), s.current_company ≠ COMPANY_SPECTATOR →
      w._local_company = s.current_company → OnTick w s = some s' →
      s'.current_company = COMPANY_SPECTATOR → s'.coro_resumer = none) ∧
    (∀ (w : World) (s : State), s.current_company ≠ COMPANY_SPECTATOR →
      w._local_company ≠ s.current_company →
      OnTick w s = some (BailOut s) ∧ ∀ w', OnTick w' (BailOut s) = some (BailOut s)) ∧
    (∀ (w : World) (type_str : String) (s s' : State) (h : Handle),
      s.coro_resumer = some h → Start w type_str (BailOut s) = some (true, s') →
      s'.destroyed = s.destroyed ++ [h] ∧ s'.coro_resumer = some (Handle.task Frame.L211)) := by
  refine ⟨fun s => ⟨rfl, rfl, rfl, rfl⟩, OnTick_task_over, ?_, ?_⟩
  · intro w s hrun hco
    refine ⟨by simp [OnTick, hrun, hco], fun w' => OnTick_spectator w' _ rfl⟩
  · intro w type_str s s' h hs hstart
    rw [Start_eq] at hstart
    split_ifs at hstart <;>
      simp only [Option.some.injEq, Prod.mk.injEq, Bool.false_eq_true, false_and,
        true_and] at hstart
    subst hstart
    simp [ResetCoroState, BailOut, hs]

/-- Witness of `BailOut_clears_authorization_only`: the failure of the
conversion, a trigger inside the task, and the switch of company during the
wait of line 226, followed by a new `Start`. -/
theorem BailOut_clears_authorization_only_witness :
    (sampleConverting.current_company ≠ COMPANY_SPECTATOR ∧
      sampleWorldSold._local_company = sampleConverting.current_company ∧
      ∃ s', OnTick sampleWorldSold sampleConverting = some s' ∧
        s'.current_company = COMPANY_SPECTATOR ∧ s'.coro_resumer = none) ∧
    (sampleWaiting.current_company ≠ COMPANY_SPECTATOR ∧
      sampleWorldOther._local_company ≠ sampleWaiting.current_company ∧
      OnTick sampleWorldOther sampleWaiting = some (BailOut sampleWaiting) ∧
      OnTick sampleWorld (BailOut sampleWaiting) = some (BailOut sampleWaiting)) ∧
    (∃ s', Start sampleWorld "maglev" (BailOut sampleWaiting) = some (true, s') ∧
      s'.destroyed = [Handle.waitTicks 5 Frame.L226] ∧
      s'.coro_resumer = some (Handle.task Frame.L211)) := by
  have hstart : Start sampleWorld "maglev" (BailOut sampleWaiting)
      = some (true, (Start sampleWorld "maglev" (BailOut sampleWaiting)).get (by decide) |>.2) := by
    decide
  have hbail : OnTick sampleWorldSold sampleConverting
      = some ((OnTick sampleWorldSold sampleConverting).get (by decide)) := by
    decide
  refine ⟨⟨by decide, by decide, _, hbail, by decide, ?_⟩, ⟨by decide, by decide, ?_⟩, ?_⟩
  · exact BailOut_clears_authorization_only.2.1 sampleWorldSold sampleConverting _
      (by decide) (by decide) hbail (by decide)
  · have h := BailOut_clears_authorization_only.2.2.1 sampleWorldOther sampleWaiting
      (by decide) (by decide)
    exact ⟨h.1, h.2 sampleWorld⟩
  · have h := BailOut_clears_authorization_only.2.2.2 sampleWorld "maglev" sampleWaiting _
      (Handle.waitTicks 5 Frame.L226) rfl hstart
    exact ⟨_, hstart, h.1, h.2⟩

theorem OnTick.times_add (w : World) (a b : Nat) (s : State) :
    OnTick.times w (a + b) s = (OnTick.times w a s).bind (OnTick.times w b) := by
  induction a generalizing s with
  | zero => simp [OnTick.times]
  | succ a ih =>
    rw [Nat.succ_add, OnTick.times, OnTick.times]
    cases OnTick w s with
    | none => rfl
    | some s1 => exact ih s1

/-- The snapshot of the sample game: one route without orders and one train
made of a single engine in the depot at tile 7. -/
theorem snapshot_sampleSolo :
    DoCoro.snapshot sampleSolo [5]
      = some { routes := [Route.new []],
               vehicle_properties := [{ depot := 7, cargos := [CT_INVALID], route_index := 0 }],
               depots := [7] } := by
  have hv : [5].mapM sampleSolo.Get = some [sampleTrain] := by decide
  have hl : DoCoro.snapshotLoop [sampleTrain]
      { routes := [], vehicle_properties := [], depots := [] }
      = { routes := [Route.new []],
          vehicle_properties := [{ depot := 7, cargos := [CT_INVALID], route_index := 0 }],
          depots := [7] } := by
    rw [DoCoro.snapshotLoop]
    simp [DoCoro.snapshotLoop, DoCoro.cargosOf, sampleTrain, CT_INVALID]
  unfold DoCoro.snapshot
  rw [hv]
  simp [hl, unique, List.insertionSort]

/-- The tick of the sample run in which the snapshot is taken. -/
theorem OnTick_traceBeforeSnapshot :
    OnTick sampleSolo traceBeforeSnapshot = some traceSnapshotted := by
  have e1 : traceBeforeSnapshot.current_company ≠ COMPANY_SPECTATOR := by decide
  have e2 : ¬ (sampleSolo._local_company ≠ traceBeforeSnapshot.current_company) := by decide
  unfold OnTick
  rw [if_pos e1, if_neg e2]
  have e3 : HandleCoro (DoCoro.resume sampleSolo) traceBeforeSnapshot
      = (DoCoro.resume sampleSolo (Frame.L289 [5])
          { traceBeforeSnapshot with coro_waiting_for_callback := false,
                                     coro_resumer := none }).map (fun s => (true, s)) := by
    rfl
  rw [e3]
  simp only [DoCoro.resume, snapshot_sampleSolo]
  rfl

/-- The run of `sampleSolo` from `Start("electric")` to the sale of the train. -/
theorem trace_to_sale :
    ∃ s1, Start sampleSolo "electric" sampleState = some (true, s1) ∧
      OnTick.times sampleSolo 89 s1 = some traceSold := by
  have h1 : OnTick.times sampleSolo 59
      { sampleState with rail_type := 1, current_company := 1,
                         coro_resumer := some (Handle.task Frame.L211),
                         coro_waiting_for_callback := true } = some traceBeforeSnapshot := by
    decide
  have h2 : OnTick.times sampleSolo 1 traceBeforeSnapshot = some traceSnapshotted := by
    show (OnTick sampleSolo traceBeforeSnapshot).bind (OnTick.times sampleSolo 0) = _
    rw [OnTick_traceBeforeSnapshot]
    rfl
  have h3 : OnTick.times sampleSolo 29 traceSnapshotted = some traceSold := by decide
  have h : OnTick.times sampleSolo (59 + (1 + 29))
      { sampleState with rail_type := 1, current_company := 1,
                         coro_resumer := some (Handle.task Frame.L211),
                         coro_waiting_for_callback := true } = some traceSold := by
    rw [OnTick.times_add, h1, Option.some_bind, OnTick.times_add, h2, Option.some_bind, h3]
  exact ⟨_, by decide, h⟩

/-- C9 (counterexample): in a single player game company 1 starts a run towards
electric rail; 89 ticks later its only train is sold, 59 ticks later the
conversion is refused; the next tick bails out and clears the authorization, and
the next `Start` of the same operator, in company 1 and with the valid name
"electric", returns false because the company has no train left. -/
theorem Start_rejected_after_bailout :
    ∃ s1 s2, Start sampleSolo "electric" sampleState = some (true, s1) ∧
      OnTick.times sampleSolo 89 s1 = some traceSold ∧
      OnTick.times sampleWorldSold 59 traceSold = some sampleConverting ∧
      OnTick sampleWorldSold sampleConverting = some s2 ∧
      s2.current_company = COMPANY_SPECTATOR ∧
      sampleWorldSold._local_company ≠ COMPANY_SPECTATOR ∧
      ParseRailType "electric" ≠ INVALID_RAILTYPE ∧
      Start sampleWorldSold "electric" s2 = some (false, s2) := by
  obtain ⟨s1, h1, h2⟩ := trace_to_sale
  exact ⟨s1, traceBailed, h1, h2, by decide, by decide, by decide, by decide, by decide,
    by decide⟩

/-- Whether `Start` accepts depends on the game and the string only, never on
the globals a previous run has left. -/
theorem Start_accepted_iff_has_trains (w : World) (type_str : String) (s : State)
    (hco : w._local_company ≠ COMPANY_SPECTATOR)
    (hstr : ParseRailType type_str ≠ INVALID_RAILTYPE) :
    ((∃ s', Start w type_str s = some (true, s')) ↔
      ∃ v ∈ w.vehicles, v.type = VEH_TRAIN ∧ v.IsPrimaryVehicle = true ∧
        v.owner = w._local_company) ∧
    ((∃ s', Start w type_str s = some (false, s')) ↔
      ¬ ∃ v ∈ w.vehicles, v.type = VEH_TRAIN ∧ v.IsPrimaryVehicle = true ∧
        v.owner = w._local_company) := by
  rw [← has_trains_iff, Start_eq, if_neg hco, if_neg hstr]
  cases h : has_trains w <;> simp

/-- C9 (amended): every fatal path ends with `current_company` equal to
`COMPANY_SPECTATOR`: a failed result at a command whose failure is fatal, a
selection failure, the depot check after the conversion and the loss of
authorization all end in `BailOut s`, and every slice that ends the coroutine
leaves the authorization cleared. A later `Start` by an operator in a company
with a valid name is accepted exactly when that company owns a primary train,
whatever the bailed-out run has left, and is rejected otherwise. -/
theorem fatal_paths_clear_authorization :
    (∀ (w : World) (f : Frame) (s : State), f.abortsOnFailure = true →
      (DoCommandPAwaiter.await_resume s).Failed = true →
      DoCoro.resume w f s = some (BailOut s)) ∧
    (∀ (w : World) (next : Rebuild → State → Option State) (r : Rebuild)
      (wagon_cargo : CargoID) (new_head : VehicleID) (cargo : CargoID) (rest : List CargoID)
      (s : State),
      (GetNewTrainUnit w.catalog s.rail_type s.current_company cargo wagon_cargo).1
        = INVALID_ENGINE →
      DoCoro.buildLoop w next r wagon_cargo new_head (cargo :: rest) s = some (BailOut s)) ∧
    (∀ (w : World) (prop : VehicleProperties) (rest : List VehicleProperties)
      (routes : List Route) (vehicles_for_copying : List (List CargoID × VehicleID))
      (s : State), w.GetRailType prop.depot ≠ s.rail_type →
      DoCoro.reconstruction w (prop :: rest) routes vehicles_for_copying s
        = some (BailOut s)) ∧
    (∀ (w : World) (s : State), s.current_company ≠ COMPANY_SPECTATOR →
      w._local_company ≠ s.current_company → OnTick w s = some (BailOut s)) ∧
    (∀ (w : World) (f : Frame) (s s' : State), DoCoro.resume w f s = some s' →
      s'.coro_resumer = none → s'.current_company = COMPANY_SPECTATOR) ∧
    (∀ s : State, (BailOut s).current_company = COMPANY_SPECTATOR) ∧
    (∀ (w : World) (type_str : String) (s : State), w._local_company ≠ COMPANY_SPECTATOR →
      ParseRailType type_str ≠ INVALID_RAILTYPE →
      ((∃ s', Start w type_str (BailOut s) = some (true, s')) ↔
        ∃ v ∈ w.vehicles, v.type = VEH_TRAIN ∧ v.IsPrimaryVehicle = true ∧
          v.owner = w._local_company) ∧
      ((∃ s', Start w type_str (BailOut s) = some (false, s')) ↔
        ¬ ∃ v ∈ w.vehicles, v.type = VEH_TRAIN ∧ v.IsPrimaryVehicle = true ∧
          v.owner = w._local_company)) := by
  refine ⟨?_, ?_, ?_, ?_, ?_, fun _ => rfl, ?_⟩
  · intro w f s hf hfail
    cases f <;> simp only [Frame.abortsOnFailure, Bool.false_eq_true] at hf <;>
      simp [DoCoro.resume, hfail, DoCoro.bail]
  · intro w next r wagon_cargo new_head cargo rest s h
    simp [DoCoro.buildLoop, h, DoCoro.bail]
  · intro w prop rest routes vehicles_for_copying s h
    simp [DoCoro.reconstruction, h, DoCoro.bail]
  · intro w s hrun hco
    simp [OnTick, hrun, hco]
  · intro w f s s' h hnone
    rcases SliceEnds_resume w f s s' h with ⟨⟨hd, hh⟩, _⟩ | hb
    · rw [hh] at hnone
      cases hnone
    · rw [hb]
      rfl
  · intro w type_str s hco hstr
    exact Start_accepted_iff_has_trains w type_str _ hco hstr

/-- Witness of `fatal_paths_clear_authorization`: the failed conversion of
`sampleConverting`, then `Start` in the game that still has the train and in the
game where it has been sold. -/
theorem fatal_paths_clear_authorization_witness :
    DoCoro.resume sampleWorldSold
        (Frame.L362 [Route.new []] [{ depot := 7, cargos := [CT_INVALID], route_index := 0 }])
        sampleConverting = some (BailOut sampleConverting) ∧
    (∃ s', Start sampleWorld "electric" (BailOut sampleConverting) = some (true, s')) ∧
    (∃ s', Start sampleWorldSold "electric" (BailOut sampleConverting) = some (false, s')) :=
  ⟨fatal_paths_clear_authorization.1 sampleWorldSold _ sampleConverting rfl (by decide),
    (fatal_paths_clear_authorization.2.2.2.2.2.2 sampleWorld "electric" sampleConverting
      (by decide) (by decide)).1.mpr ⟨sampleTrain, by decide, rfl, rfl, rfl⟩,
    (fatal_paths_clear_authorization.2.2.2.2.2.2 sampleWorldSold "electric" sampleConverting
      (by decide) (by decide)).2.mpr (by simp [sampleWorldSold])⟩

/-- When `Start` is accepted, `ResetCoroState` calls `destroy()` on whatever
handle `coro_resumer` held before and clears the ready flag before `DoCoro` is
called on that state; after `Start` the scheduler holds the new task, suspended
at the tick wait of line 211 with the ready flag set, and `current_company` is
the local company. -/
theorem Start_replaces_task (w : World) (type_str : String) (s s' : State)
    (h : Start w type_str s = some (true, s')) :
    (ResetCoroState { s with rail_type := ParseRailType type_str,
                             current_company := w._local_company }).coro_resumer = none ∧
    (ResetCoroState { s with rail_type := ParseRailType type_str,
                             current_company := w._local_company }).coro_waiting_for_callback
      = false ∧
    (∀ old, s.coro_resumer = some old →
      (ResetCoroState { s with rail_type := ParseRailType type_str,
                               current_company := w._local_company }).destroyed
        = s.destroyed ++ [old]) ∧
    DoCoro (ResetCoroState { s with rail_type := ParseRailType type_str,
                                    current_company := w._local_company }) = some s' ∧
    s'.coro_resumer = some (Handle.task Frame.L211) ∧
    s'.coro_waiting_for_callback = true ∧
    s'.current_company = w._local_company ∧
    (∀ old, s.coro_resumer = some old → s'.destroyed = s.destroyed ++ [old]) := by
  rw [Start_eq] at h
  split_ifs at h <;>
    simp only [Option.some.injEq, Prod.mk.injEq, Bool.false_eq_true, false_and,
      true_and] at h
  subst h
  refine ⟨ResetCoroState_coro_resumer _, ?_, ?_, ?_, rfl, rfl, ?_, ?_⟩
  · cases hr : s.coro_resumer <;> simp [ResetCoroState, hr]
  · intro old hold
    simp [ResetCoroState, hold]
  · simp [DoCoro, WaitTickAwaiter.await_suspend, ResetCoroState_coro_resumer]
  · cases hr : s.coro_resumer <;> simp [ResetCoroState, hr]
  · intro old hold
    simp [ResetCoroState, hold]

/-- An instance of `Start_replaces_task`: `Start("electric")` during the wait of
line 226 of a running task; the handle on which `destroy()` is called is that
of `WaitTicks`. -/
theorem Start_replaces_task_witness :
    ∃ s', Start sampleWorld "electric" sampleWaiting = some (true, s') ∧
      s'.coro_resumer = some (Handle.task Frame.L211) ∧
      s'.coro_waiting_for_callback = true ∧
      s'.current_company = sampleWorld._local_company ∧
      s'.destroyed = [Handle.waitTicks 5 Frame.L226] := by
  have hstart : Start sampleWorld "electric" sampleWaiting
      = some (true, (Start sampleWorld "electric" sampleWaiting).get (by decide) |>.2) := by
    decide
  have h := Start_replaces_task sampleWorld "electric" sampleWaiting _ hstart
  exact ⟨_, hstart, h.2.2.2.2.1, h.2.2.2.2.2.1, h.2.2.2.2.2.2.1,
    h.2.2.2.2.2.2.2 (Handle.waitTicks 5 Frame.L226) rfl⟩

/-! ### Ticks without a pending suspension, and after the loss of authorization -/

/-- C12: `OnTick` is a no-op when no run is active, and when a run is active,
the local company is the company of the run and the ready flag is false (the
result the task waits for has not been delivered): it returns the globals and
the records unchanged, so nothing is resumed or submitted, and any number of
such calls, in the same game or in a sequence of games, is the same as one. -/
theorem OnTick_idle :
    (∀ (w : World) (s : State),
      (s.current_company = COMPANY_SPECTATOR ∨
        (w._local_company = s.current_company ∧ s.coro_waiting_for_callback = false)) →
      OnTick w s = some s ∧ ∀ k, OnTick.times w k s = some s) ∧
    (∀ (ws : List World) (s : State),
      (∀ w ∈ ws, s.current_company = COMPANY_SPECTATOR ∨
        (w._local_company = s.current_company ∧ s.coro_waiting_for_callback = false)) →
      Event.run (ws.map Event.tick) s = some s) := by
  have h1 : ∀ (w : World) (s : State),
      (s.current_company = COMPANY_SPECTATOR ∨
        (w._local_company = s.current_company ∧ s.coro_waiting_for_callback = false)) →
      OnTick w s = some s := by
    intro w s h
    rcases h with h | ⟨hco, hflag⟩
    · exact OnTick_spectator w s h
    · unfold OnTick
      by_cases hrun : s.current_company = COMPANY_SPECTATOR
      · simp [hrun]
      · rw [if_pos hrun, if_neg (by simpa using hco)]
        unfold HandleCoro
        cases hr : s.coro_resumer <;> simp [hflag]
  refine ⟨fun w s h => ⟨h1 w s h, ?_⟩, ?_⟩
  · intro k
    induction k with
    | zero => rfl
    | succ k ih => rw [OnTick.times, h1 w s h, Option.some_bind, ih]
  · intro ws
    induction ws with
    | nil => intro s _; rfl
    | cons w ws ih =>
      intro s h
      rw [List.map_cons, Event.run, Event.apply, h1 w s (h w (List.mem_cons_self _ _)),
        Option.some_bind]
      exact ih s (fun w' hw' => h w' (List.mem_cons_of_mem _ hw'))

/-- Witness of `OnTick_idle`: the task of `sampleAwaiting` waits for the result
of the command of line 217. -/
theorem OnTick_idle_witness :
    (sampleWorld._local_company = sampleAwaiting.current_company ∧
      sampleAwaiting.coro_waiting_for_callback = false) ∧
    OnTick sampleWorld sampleAwaiting = some sampleAwaiting ∧
    OnTick.times sampleWorld 1000 sampleAwaiting = some sampleAwaiting ∧
    Event.run ([sampleWorld, sampleWorld].map Event.tick) sampleState = some sampleState :=
  ⟨⟨rfl, rfl⟩, (OnTick_idle.1 sampleWorld sampleAwaiting (Or.inr ⟨rfl, rfl⟩)).1,
    (OnTick_idle.1 sampleWorld sampleAwaiting (Or.inr ⟨rfl, rfl⟩)).2 1000,
    OnTick_idle.2 [sampleWorld, sampleWorld] sampleState (fun _ _ => Or.inl rfl)⟩

theorem Event.accepted_start_false (w : World) (type_str : String) (s : State)
    (h : (Event.start w type_str).accepted = false) :
    ∃ s', Start w type_str s = some (false, s') ∧ s'.current_company = s.current_company ∧
      s'.coro_resumer = s.coro_resumer ∧ s'.submitted = s.submitted ∧
      s'.coro_waiting_for_callback = s.coro_waiting_for_callback ∧
      s'.destroyed = s.destroyed := by
  rw [Start_eq]
  simp only [Event.accepted, Bool.and_eq_false_iff, bne_eq_false_iff_eq] at h
  by_cases h1 : w._local_company = COMPANY_SPECTATOR
  · exact ⟨s, by rw [if_pos h1], rfl, rfl, rfl, rfl, rfl⟩
  · by_cases h2 : ParseRailType type_str = INVALID_RAILTYPE
    · exact ⟨{ s with rail_type := ParseRailType type_str }, by rw [if_neg h1, if_pos h2],
        rfl, rfl, rfl, rfl, rfl⟩
    · have h3 : has_trains w = false := by
        rcases h with (h | h) | h
        · exact absurd h h1
        · exact absurd h h2
        · exact h
      exact ⟨{ s with rail_type := ParseRailType type_str },
        by rw [if_neg h1, if_neg h2, if_pos h3], rfl, rfl, rfl, rfl, rfl⟩

/-- While no run is active, ticks, deliveries and rejected `Start` calls leave
the handle, the record of submissions and the authorization as they are. -/
theorem Event.run_spectator (es : List Event) (s : State)
    (hes : ∀ e ∈ es, e.accepted = false) (hs : s.current_company = COMPANY_SPECTATOR) :
    ∃ s', Event.run es s = some s' ∧ s'.submitted = s.submitted ∧
      s'.coro_resumer = s.coro_resumer ∧ s'.current_company = COMPANY_SPECTATOR ∧
      s'.destroyed = s.destroyed := by
  induction es generalizing s with
  | nil => exact ⟨s, rfl, rfl, rfl, hs, rfl⟩
  | cons e es ih =>
    have hrest : ∀ e' ∈ es, e'.accepted = false := fun e' he' => hes e' (List.mem_cons_of_mem _ he')
    cases e with
    | start w type_str =>
      obtain ⟨s1, h1, h2, h3, h4, _, h6⟩ :=
        Event.accepted_start_false w type_str s (hes _ (List.mem_cons_self _ _))
      obtain ⟨s', e1, e2, e3, e4, e5⟩ := ih s1 hrest (h2.trans hs)
      refine ⟨s', ?_, e2.trans h4, e3.trans h3, e4, e5.trans h6⟩
      simp [Event.run, Event.apply, h1, e1]
    | tick w =>
      obtain ⟨s', e1, e2, e3, e4, e5⟩ := ih s hrest hs
      refine ⟨s', ?_, e2, e3, e4, e5⟩
      simp [Event.run, Event.apply, OnTick_spectator w s hs, e1]
    | deliver result n =>
      have hf := DoCommandPAwaiter.Callback_frame result n s
      obtain ⟨s', e1, e2, e3, e4, e5⟩ :=
        ih (DoCommandPAwaiter.Callback result n s) hrest (hf.2.1.trans hs)
      refine ⟨s', ?_, e2.trans hf.2.2.2.2, e3.trans hf.1, e4, e5.trans hf.2.2.2.1⟩
      simp [Event.run, Event.apply, e1]

/-- C13: when at a tick the local company differs from the company of an active
run, whatever the task is suspended on, `OnTick` bails out without running the
handle (the handle, the flag and the record of submissions are untouched), and
through every later sequence of ticks, deliveries and rejected `Start` calls the
handle is never run and nothing is submitted: the handle and the record of
submissions stay the same until a `Start` is accepted. -/
theorem OnTick_company_changed (w : World) (s : State)
    (hrun : s.current_company ≠ COMPANY_SPECTATOR)
    (hco : w._local_company ≠ s.current_company) :
    OnTick w s = some (BailOut s) ∧
    (BailOut s).coro_resumer = s.coro_resumer ∧
    (BailOut s).coro_waiting_for_callback = s.coro_waiting_for_callback ∧
    (BailOut s).submitted = s.submitted ∧
    ∀ es : List Event, (∀ e ∈ es, e.accepted = false) →
      ∃ s', Event.run es (BailOut s) = some s' ∧ s'.coro_resumer = s.coro_resumer ∧
        s'.submitted = s.submitted ∧ s'.current_company = COMPANY_SPECTATOR := by
  refine ⟨by simp [OnTick, hrun, hco], rfl, rfl, rfl, ?_⟩
  intro es hes
  obtain ⟨s', e1, e2, e3, e4, _⟩ := Event.run_spectator es (BailOut s) hes rfl
  exact ⟨s', e1, e3, e2, e4⟩

/-- Witness of `OnTick_company_changed`: the operator leaves company 1 during
the wait of line 226; later ticks in either company and a late delivery change
nothing. -/
theorem OnTick_company_changed_witness :
    sampleWaiting.current_company ≠ COMPANY_SPECTATOR ∧
    sampleWorldOther._local_company ≠ sampleWaiting.current_company ∧
    OnTick sampleWorldOther sampleWaiting = some (BailOut sampleWaiting) ∧
    ∃ s', Event.run
        [Event.tick sampleWorldOther, Event.deliver (CommandCost.error 3) 9,
          Event.tick sampleWorld] (BailOut sampleWaiting) = some s' ∧
      s'.coro_resumer = sampleWaiting.coro_resumer ∧
      s'.submitted = sampleWaiting.submitted ∧
      s'.current_company = COMPANY_SPECTATOR :=
  ⟨by decide, by decide,
    (OnTick_company_changed sampleWorldOther sampleWaiting (by decide) (by decide)).1,
    (OnTick_company_changed sampleWorldOther sampleWaiting (by decide) (by decide)).2.2.2.2
      [Event.tick sampleWorldOther, Event.deliver (CommandCost.error 3) 9,
        Event.tick sampleWorld] (by decide)⟩

/-! ### Commands in flight -/

/-- C11 (evaluation of the code): in a networked game whose transport takes
every submission, `Start`, a tick, `Start` again and a tick leave two commands
of the engine in flight, the mass order of the destroyed task and the mass order
of the new one; when the result of the first is delivered, the next tick resumes
the new task with it while the command of the new task is still in flight. -/
theorem two_commands_in_flight :
    Session.run
        [Event.start sampleNetwork "rail", Event.tick sampleNetwork,
          Event.start sampleNetwork "rail", Event.tick sampleNetwork]
        { state := sampleState, in_flight := 0 } = some sampleTwoInFlight ∧
    sampleTwoInFlight.in_flight = 2 ∧
    Session.run
        [Event.deliver { success := true, cost := 0, message := 0 } 0,
          Event.tick sampleNetwork] sampleTwoInFlight = some sampleStaleResume ∧
    sampleStaleResume.in_flight = 1 ∧
    sampleStaleResume.state.coro_resumer = some (Handle.waitTicks 29 Frame.L226) :=
  ⟨by decide, rfl, by decide, rfl, rfl⟩

/-! ### The retry loop -/

/-- A vehicle that is stopped in a depot or already heading for one is passed
over: no command, no change of the counters. -/
theorem DoCoro.retryPass_skip (w : World) (my_vehicles : List VehicleID) (vid : VehicleID)
    (rest : List VehicleID) (num_failed : Nat) (has_succeeded : Bool) (s : State) (v : Vehicle)
    (hv : w.Get vid = some v)
    (hok : v.IsStoppedInDepot = true ∨ v.current_order_GetType = OT_GOTO_DEPOT) :
    DoCoro.retryPass w my_vehicles (vid :: rest) num_failed has_succeeded s
      = DoCoro.retryPass w my_vehicles rest num_failed has_succeeded s := by
  rw [DoCoro.retryPass]
  simp only [hv, Option.bind_eq_bind, Option.some_bind]
  rcases hok with h | h
  · simp [h]
  · simp [h]

theorem DoCoro.retryPass_all_skipped (w : World) (my_vehicles rest : List VehicleID)
    (num_failed : Nat) (has_succeeded : Bool) (s : State)
    (h : ∀ vid ∈ rest, ∃ v, w.Get vid = some v ∧
      (v.IsStoppedInDepot = true ∨ v.current_order_GetType = OT_GOTO_DEPOT)) :
    DoCoro.retryPass w my_vehicles rest num_failed has_succeeded s
      = DoCoro.retryPass w my_vehicles [] num_failed has_succeeded s := by
  induction rest with
  | nil => rfl
  | cons vid rest ih =>
    obtain ⟨v, hv, hok⟩ := h vid (List.mem_cons_self _ _)
    rw [DoCoro.retryPass_skip w my_vehicles vid rest num_failed has_succeeded s v hv hok]
    exact ih (fun vid' hvid' => h vid' (List.mem_cons_of_mem _ hvid'))

theorem mapM_Get_isSome (w : World) (l : List VehicleID)
    (h : ∀ vid ∈ l, ∃ v, w.Get vid = some v) : ∃ vs, l.mapM w.Get = some vs := by
  induction l with
  | nil => exact ⟨[], rfl⟩
  | cons vid l ih =>
    obtain ⟨v, hv⟩ := h vid (List.mem_cons_self _ _)
    obtain ⟨vs, hvs⟩ := ih (fun vid' hvid' => h vid' (List.mem_cons_of_mem _ hvid'))
    refine ⟨v :: vs, ?_⟩
    rw [List.mapM_cons, hv, hvs]
    rfl

/-- The depot wait entered with a null `coro_resumer` and all vehicles in the
pool submits nothing and suspends on one of its two waits. -/
theorem DoCoro.depotWait_suspends (w : World) (my_vehicles : List VehicleID) (s : State)
    (hs : s.coro_resumer = none) (h : ∀ vid ∈ my_vehicles, ∃ v, w.Get vid = some v) :
    ∃ f, (f = Frame.L284 my_vehicles ∨ f = Frame.L289 my_vehicles) ∧
      DoCoro.depotWait w my_vehicles s
        = some { s with coro_resumer := some (Handle.waitTicks 29 f),
                        coro_waiting_for_callback := true } := by
  obtain ⟨vs, hvs⟩ := mapM_Get_isSome w my_vehicles h
  unfold DoCoro.depotWait
  simp only [hvs, Option.bind_eq_bind, Option.some_bind]
  have h29 : predecrement TICKS_PER_SECOND = 29 := by decide
  split_ifs
  · exact ⟨_, Or.inr rfl, by simp [WaitTicks.suspend, WaitTickAwaiter.await_suspend, hs, h29]⟩
  · exact ⟨_, Or.inl rfl, by simp [WaitTicks.suspend, WaitTickAwaiter.await_suspend, hs, h29]⟩

/-- C14: when every enumerated vehicle is stopped in a depot or already has a
go-to-depot current order, a pass of the retry loop submits no command, counts
no failure and leaves the loop: the task goes on to the depot wait. In general
the end of a pass leaves the loop exactly when `num_failed` is zero and
otherwise waits and starts a new pass from zero; a vehicle that is passed over
leaves `num_failed` unchanged, a successful submission too, and only a failed
submission adds one. -/
theorem retry_loop_pass :
    (∀ (w : World) (my_vehicles : List VehicleID) (s : State),
      s.coro_resumer = none →
      (∀ vid ∈ my_vehicles, ∃ v, w.Get vid = some v ∧
        (v.IsStoppedInDepot = true ∨ v.current_order_GetType = OT_GOTO_DEPOT)) →
      DoCoro.retryPass w my_vehicles my_vehicles 0 false s = DoCoro.depotWait w my_vehicles s ∧
      ∃ s' f, DoCoro.retryPass w my_vehicles my_vehicles 0 false s = some s' ∧
        s'.submitted = s.submitted ∧
        s'.coro_resumer = some (Handle.waitTicks 29 f) ∧
        (f = Frame.L284 my_vehicles ∨ f = Frame.L289 my_vehicles)) ∧
    (∀ (w : World) (my_vehicles : List VehicleID) (num_failed : Nat) (has_succeeded : Bool)
      (s : State),
      DoCoro.retryPass w my_vehicles [] num_failed has_succeeded s
        = if num_failed = 0 then DoCoro.depotWait w my_vehicles s
          else WaitTicks.suspend TICKS_PER_SECOND (Frame.L263 my_vehicles) s) ∧
    (∀ (w : World) (my_vehicles : List VehicleID) (s : State),
      DoCoro.resume w (Frame.L263 my_vehicles) s
        = DoCoro.retryPass w my_vehicles my_vehicles 0 false s) ∧
    (∀ (w : World) (my_vehicles : List VehicleID) (vid : VehicleID) (rest : List VehicleID)
      (num_failed : Nat) (has_succeeded : Bool) (s : State) (v : Vehicle),
      w.Get vid = some v →
      (v.IsStoppedInDepot = true ∨ v.current_order_GetType = OT_GOTO_DEPOT) →
      DoCoro.retryPass w my_vehicles (vid :: rest) num_failed has_succeeded s
        = DoCoro.retryPass w my_vehicles rest num_failed has_succeeded s) ∧
    (∀ (w : World) (my_vehicles rest : List VehicleID) (num_failed : Nat)
      (has_succeeded : Bool) (s : State),
      DoCoro.resume w (Frame.L248 my_vehicles rest num_failed has_succeeded) s
        = if (DoCommandPAwaiter.await_resume s).Succeeded = true then
            WaitTicks.suspend TICKS_PER_SECOND
              (Frame.L250 my_vehicles rest num_failed true) s
          else DoCoro.retryPass w my_vehicles rest ((num_failed + 1) % 2 ^ 64)
            has_succeeded s) ∧
    (∀ (w : World) (my_vehicles rest : List VehicleID) (num_failed : Nat)
      (has_succeeded : Bool) (s : State),
      DoCoro.resume w (Frame.L250 my_vehicles rest num_failed has_succeeded) s
        = DoCoro.retryPass w my_vehicles rest num_failed has_succeeded s) := by
  refine ⟨?_, ?_, ?_, ?_, ?_, ?_⟩
  · intro w my_vehicles s hs h
    have h1 : DoCoro.retryPass w my_vehicles my_vehicles 0 false s
        = DoCoro.depotWait w my_vehicles s := by
      rw [DoCoro.retryPass_all_skipped w my_vehicles my_vehicles 0 false s h]
      simp [DoCoro.retryPass]
    obtain ⟨f, hf, h2⟩ := DoCoro.depotWait_suspends w my_vehicles s hs
      (fun vid hvid => (h vid hvid).imp fun v hv => hv.1)
    exact ⟨h1, _, f, h1.trans h2, rfl, rfl, hf⟩
  · intro w my_vehicles num_failed has_succeeded s
    simp [DoCoro.retryPass]
  · intro w my_vehicles s
    simp [DoCoro.resume]
  · intro w my_vehicles vid rest num_failed has_succeeded s v hv hok
    exact DoCoro.retryPass_skip w my_vehicles vid rest num_failed has_succeeded s v hv hok
  · intro w my_vehicles rest num_failed has_succeeded s
    simp [DoCoro.resume]
  · intro w my_vehicles rest num_failed has_succeeded s
    simp [DoCoro.resume]

/-- Witness of `retry_loop_pass`: the only train of the sample game is stopped
in its depot. -/
theorem retry_loop_pass_witness :
    (∀ vid ∈ [5], ∃ v, sampleSolo.Get vid = some v ∧
      (v.IsStoppedInDepot = true ∨ v.current_order_GetType = OT_GOTO_DEPOT)) ∧
    ∃ s' f, DoCoro.retryPass sampleSolo [5] [5] 0 false sampleState = some s' ∧
      s'.submitted = sampleState.submitted ∧
      s'.coro_resumer = some (Handle.waitTicks 29 f) ∧
      (f = Frame.L284 [5] ∨ f = Frame.L289 [5]) := by
  have h : ∀ vid ∈ [5], ∃ v, sampleSolo.Get vid = some v ∧
      (v.IsStoppedInDepot = true ∨ v.current_order_GetType = OT_GOTO_DEPOT) := by
    intro vid hvid
    simp only [List.mem_singleton] at hvid
    subst hvid
    exact ⟨sampleTrain, by decide, Or.inl rfl⟩
  exact ⟨h, (retry_loop_pass.1 sampleSolo [5] sampleState rfl h).2⟩

/-! ### Suspension points and the assertion -/

theorem SliceUniform_none (w : World) (s : State) : SliceUniform w s (fun _ => none) :=
  Or.inl (fun _ => rfl)

theorem SliceUniform_bail (w : World) (s : State) :
    SliceUniform w s (fun res => DoCoro.bail { s with coro_resumer := res }) :=
  Or.inr (Or.inl (fun _ => rfl))

theorem SliceUniform_command (w : World) (c : Command) (h : Handle) (s : State) :
    SliceUniform w s
      (fun res => DoCommandPAwaiter.await_suspend w c h { s with coro_resumer := res }) :=
  Or.inr (Or.inr (Or.inl ⟨c, h, fun _ => rfl⟩))

theorem SliceUniform_tick (w : World) (h : Handle) (s : State) :
    SliceUniform w s (fun res => WaitTickAwaiter.await_suspend h { s with coro_resumer := res }) :=
  Or.inr (Or.inr (Or.inr ⟨h, fun _ => rfl⟩))

theorem SliceUniform_WaitTicks (w : World) (n : Nat) (f : Frame) (s : State) :
    SliceUniform w s (fun res => WaitTicks.suspend n f { s with coro_resumer := res }) :=
  SliceUniform_tick w _ s

theorem SliceUniform_bind {α : Type} (w : World) (s : State) (x : Option α)
    (g : α → Option Handle → Option State) (h : ∀ a, SliceUniform w s (g a)) :
    SliceUniform w s (fun res => x >>= fun a => g a res) := by
  cases x with
  | none => exact SliceUniform_none w s
  | some a => exact h a

theorem SliceUniform_ite (w : World) (s : State) (c : Prop) [Decidable c]
    (a b : Option Handle → Option State) (ha : SliceUniform w s a) (hb : SliceUniform w s b) :
    SliceUniform w s (fun res => if c then a res else b res) := by
  by_cases hc : c
  · simpa [hc] using ha
  · simpa [hc] using hb

theorem SliceUniform_skipOrders (w : World) (next : Rebuild → State → Option State)
    (hnext : ∀ r s, SliceUniform w s (fun res => next r { s with coro_resumer := res }))
    (r : Rebuild) (new_train : VehicleID) (s : State) :
    SliceUniform w s
      (fun res => DoCoro.skipOrders w next r new_train { s with coro_resumer := res }) := by
  unfold DoCoro.skipOrders
  refine SliceUniform_bind w s _ _ (fun v => ?_)
  dsimp only
  refine SliceUniform_ite w s _ _ _ ?_ (hnext r s)
  exact SliceUniform_ite w s _ _ _ (SliceUniform_command w _ _ s) (hnext r s)

theorem SliceUniform_line488 (w : World) (next : Rebuild → State → Option State)
    (hnext : ∀ r s, SliceUniform w s (fun res => next r { s with coro_resumer := res }))
    (r : Rebuild) (new_train : VehicleID) (s : State) :
    SliceUniform w s
      (fun res => DoCoro.line488 w next r new_train { s with coro_resumer := res }) := by
  unfold DoCoro.line488
  refine SliceUniform_bind w s _ _ (fun v => ?_)
  exact SliceUniform_skipOrders w next hnext _ _ s

theorem SliceUniform_insertLoop (w : World) (next : Rebuild → State → Option State)
    (hnext : ∀ r s, SliceUniform w s (fun res => next r { s with coro_resumer := res }))
    (r : Rebuild) (new_train : VehicleID) (i : Nat) (s : State) :
    SliceUniform w s
      (fun res => DoCoro.insertLoop w next r new_train i { s with coro_resumer := res }) := by
  unfold DoCoro.insertLoop
  refine SliceUniform_bind w s _ _ (fun v => ?_)
  dsimp only
  refine SliceUniform_ite w s _ _ _ ?_ (SliceUniform_line488 w next hnext _ _ s)
  refine SliceUniform_bind w s _ _ (fun o => ?_)
  exact SliceUniform_command w _ _ s

theorem SliceUniform_deleteLoop (w : World) (next : Rebuild → State → Option State)
    (hnext : ∀ r s, SliceUniform w s (fun res => next r { s with coro_resumer := res }))
    (r : Rebuild) (new_train : VehicleID) (s : State) :
    SliceUniform w s
      (fun res => DoCoro.deleteLoop w next r new_train { s with coro_resumer := res }) := by
  unfold DoCoro.deleteLoop
  refine SliceUniform_bind w s _ _ (fun v => ?_)
  dsimp only
  exact SliceUniform_ite w s _ _ _ (SliceUniform_command w _ _ s)
    (SliceUniform_insertLoop w next hnext _ _ _ s)

theorem SliceUniform_line457 (w : World) (next : Rebuild → State → Option State)
    (hnext : ∀ r s, SliceUniform w s (fun res => next r { s with coro_resumer := res }))
    (r : Rebuild) (new_train : VehicleID) (s : State) :
    SliceUniform w s
      (fun res => DoCoro.line457 w next r new_train { s with coro_resumer := res }) := by
  unfold DoCoro.line457
  refine SliceUniform_bind w s _ _ (fun v => ?_)
  dsimp only
  exact SliceUniform_ite w s _ _ _ (SliceUniform_command w _ _ s)
    (SliceUniform_deleteLoop w next hnext _ _ s)

theorem SliceUniform_buildLoop (w : World) (next : Rebuild → State → Option State)
    (hnext : ∀ r s, SliceUniform w s (fun res => next r { s with coro_resumer := res }))
    (r : Rebuild) (wagon_cargo : CargoID) (new_head : VehicleID) (cargos : List CargoID)
    (s : State) :
    SliceUniform w s
      (fun res => DoCoro.buildLoop w next r wagon_cargo new_head cargos
        { s with coro_resumer := res }) := by
  cases cargos with
  | nil =>
    simp only [DoCoro.buildLoop]
    exact SliceUniform_ite w s _ _ _ (SliceUniform_bail w s)
      (SliceUniform_line457 w next hnext _ _ s)
  | cons cargo rest =>
    simp only [DoCoro.buildLoop]
    exact SliceUniform_ite w s _ _ _ (SliceUniform_bail w s) (SliceUniform_command w _ _ s)

theorem SliceUniform_attach (w : World) (next : Rebuild → State → Option State)
    (hnext : ∀ r s, SliceUniform w s (fun res => next r { s with coro_resumer := res }))
    (r : Rebuild) (wagon_cargo : CargoID) (new_head : VehicleID) (rest : List CargoID)
    (new_wagon : VehicleID) (s : State) :
    SliceUniform w s
      (fun res => DoCoro.attach w next r wagon_cargo new_head rest new_wagon
        { s with coro_resumer := res }) := by
  unfold DoCoro.attach
  refine SliceUniform_ite w s _ _ _ (SliceUniform_buildLoop w next hnext _ _ _ _ s) ?_
  refine SliceUniform_bind w s _ _ (fun vw => ?_)
  dsimp only
  refine SliceUniform_ite w s _ _ _ ?_ (SliceUniform_buildLoop w next hnext _ _ _ _ s)
  refine SliceUniform_bind w s _ _ (fun vh => ?_)
  exact SliceUniform_command w _ _ s

theorem SliceUniform_activation (w : World) (s : State) :
    SliceUniform w s (fun res => DoCoro.activation w { s with coro_resumer := res }) := by
  unfold DoCoro.activation
  dsimp only
  exact SliceUniform_command w _ _ s

theorem SliceUniform_reconstruction (w : World) (props : List VehicleProperties)
    (routes : List Route) (vehicles_for_copying : List (List CargoID × VehicleID))
    (s : State) :
    SliceUniform w s
      (fun res => DoCoro.reconstruction w props routes vehicles_for_copying
        { s with coro_resumer := res }) := by
  induction props generalizing routes vehicles_for_copying s with
  | nil =>
    simp only [DoCoro.reconstruction]
    exact SliceUniform_activation w s
  | cons prop rest ih =>
    simp only [DoCoro.reconstruction]
    refine SliceUniform_ite w s _ _ _ (SliceUniform_bail w s) ?_
    refine SliceUniform_bind w s _ _ (fun route => ?_)
    dsimp only
    cases route.first_clonables.lookup prop.cargos with
    | some vid => exact SliceUniform_command w _ _ s
    | none =>
      cases vehicles_for_copying.lookup prop.cargos with
      | some vid => exact SliceUniform_command w _ _ s
      | none => exact SliceUniform_buildLoop w _ (fun r s => ih _ _ s) _ _ _ _ s

theorem SliceUniform_next (w : World) (r : Rebuild) (s : State) :
    SliceUniform w s (fun res => DoCoro.next w r { s with coro_resumer := res }) :=
  SliceUniform_reconstruction w _ _ _ s

theorem SliceUniform_sellLoop (w : World) (routes : List Route)
    (vehicle_properties : List VehicleProperties) (depots : List TileIndex) (s : State) :
    SliceUniform w s
      (fun res => DoCoro.sellLoop w routes vehicle_properties depots
        { s with coro_resumer := res }) := by
  cases depots with
  | nil => exact SliceUniform_WaitTicks w _ _ s
  | cons depot rest => exact SliceUniform_command w _ _ s

theorem SliceUniform_depotWait (w : World) (my_vehicles : List VehicleID) (s : State) :
    SliceUniform w s
      (fun res => DoCoro.depotWait w my_vehicles { s with coro_resumer := res }) := by
  unfold DoCoro.depotWait
  refine SliceUniform_bind w s _ _ (fun vehicles => ?_)
  dsimp only
  exact SliceUniform_ite w s _ _ _ (SliceUniform_WaitTicks w _ _ s)
    (SliceUniform_WaitTicks w _ _ s)

theorem SliceUniform_retryPass (w : World) (my_vehicles rest : List VehicleID)
    (num_failed : Nat) (has_succeeded : Bool) (s : State) :
    SliceUniform w s
      (fun res => DoCoro.retryPass w my_vehicles rest num_failed has_succeeded
        { s with coro_resumer := res }) := by
  induction rest generalizing num_failed has_succeeded with
  | nil =>
    simp only [DoCoro.retryPass]
    exact SliceUniform_ite w s _ _ _ (SliceUniform_depotWait w my_vehicles s)
      (SliceUniform_WaitTicks w _ _ s)
  | cons vid rest ih =>
    simp only [DoCoro.retryPass]
    refine SliceUniform_bind w s _ _ (fun v => ?_)
    dsimp only
    exact SliceUniform_ite w s _ _ _ (SliceUniform_command w _ _ s) (ih _ _)

/-- Every slice of `DoCoro` reaches at most one suspension point, and the
`await_suspend` it runs there sees the `coro_resumer` the slice started with. -/
theorem SliceUniform_resume (w : World) (f : Frame) (s : State) :
    SliceUniform w s (fun res => DoCoro.resume w f { s with coro_resumer := res }) := by
  cases f <;> simp only [DoCoro.resume, DoCommandPAwaiter.await_resume]
  case L211 => exact SliceUniform_command w _ _ s
  case L217 => exact SliceUniform_WaitTicks w _ _ s
  case L226 =>
    have h : ∀ res, DoCoro.my_vehicles w { s with coro_resumer := res }
        = DoCoro.my_vehicles w s := fun _ => rfl
    simp only [h]
    exact SliceUniform_retryPass w _ _ _ _ s
  case L248 =>
    exact SliceUniform_ite w s (s.coro_command_cost.Succeeded = true) _ _
      (SliceUniform_WaitTicks w _ _ s) (SliceUniform_retryPass w _ _ _ _ s)
  case L250 => exact SliceUniform_retryPass w _ _ _ _ s
  case L263 => exact SliceUniform_retryPass w _ _ _ _ s
  case L284 => exact SliceUniform_depotWait w _ s
  case L289 => exact SliceUniform_bind w s _ _ (fun _ => SliceUniform_WaitTicks w _ _ s)
  case L345 => exact SliceUniform_sellLoop w _ _ _ s
  case L349 =>
    exact SliceUniform_ite w s (s.coro_command_cost.Failed = true) _ _ (SliceUniform_bail w s)
      (SliceUniform_WaitTicks w _ _ s)
  case L354 => exact SliceUniform_sellLoop w _ _ _ s
  case L359 => exact SliceUniform_command w _ _ s
  case L362 =>
    exact SliceUniform_ite w s (s.coro_command_cost.Failed = true) _ _ (SliceUniform_bail w s)
      (SliceUniform_WaitTicks w _ _ s)
  case L369 => exact SliceUniform_reconstruction w _ _ _ s
  case L386 =>
    exact SliceUniform_ite w s (s.coro_command_cost.Failed = true) _ _ (SliceUniform_bail w s) (SliceUniform_tick w _ s)
  case L392 => exact SliceUniform_skipOrders w _ (SliceUniform_next w) _ _ s
  case L397 =>
    exact SliceUniform_ite w s (s.coro_command_cost.Failed = true) _ _ (SliceUniform_bail w s)
      (SliceUniform_line457 w _ (SliceUniform_next w) _ _ s)
  case L425 =>
    exact SliceUniform_ite w s (s.coro_command_cost.Failed = true) _ _ (SliceUniform_bail w s) (SliceUniform_tick w _ s)
  case L431 => exact SliceUniform_attach w _ (SliceUniform_next w) _ _ _ _ _ s
  case L438 =>
    exact SliceUniform_ite w s (s.coro_command_cost.Failed = true) _ _ (SliceUniform_bail w s) (SliceUniform_tick w _ s)
  case L443 => exact SliceUniform_buildLoop w _ (SliceUniform_next w) _ _ _ _ s
  case L459 =>
    exact SliceUniform_ite w s (s.coro_command_cost.Failed = true) _ _ (SliceUniform_bail w s) (SliceUniform_tick w _ s)
  case L464 => exact SliceUniform_line488 w _ (SliceUniform_next w) _ _ s
  case L470 =>
    exact SliceUniform_ite w s (s.coro_command_cost.Failed = true) _ _ (SliceUniform_bail w s)
      (SliceUniform_deleteLoop w _ (SliceUniform_next w) _ _ s)
  case L478 =>
    exact SliceUniform_ite w s (s.coro_command_cost.Failed = true) _ _ (SliceUniform_bail w s) (SliceUniform_tick w _ s)
  case L483 => exact SliceUniform_insertLoop w _ (SliceUniform_next w) _ _ _ s
  case L502 =>
    exact SliceUniform_ite w s (s.coro_command_cost.Failed = true) _ _ (SliceUniform_bail w s) (SliceUniform_next w _ s)
  case L514 =>
    exact SliceUniform_ite w s (s.coro_command_cost.Failed = true) _ _ (SliceUniform_bail w s)
      (Or.inr (Or.inl (fun _ => rfl)))

theorem WaitTickAwaiter.tick_suspend_eq_none (h : Handle) (s : State) :
    WaitTickAwaiter.await_suspend h s = none ↔ s.coro_resumer ≠ none := by
  unfold WaitTickAwaiter.await_suspend
  cases hr : s.coro_resumer <;> simp

theorem DoCommandPAwaiter.await_suspend_eq_none (w : World) (c : Command) (h : Handle)
    (s : State) : DoCommandPAwaiter.await_suspend w c h s = none ↔ s.coro_resumer ≠ none := by
  unfold DoCommandPAwaiter.await_suspend
  cases hr : s.coro_resumer with
  | some h0 => simp
  | none =>
    simp only [Option.isSome_none, Bool.false_eq_true, if_false, ne_eq, not_true_eq_false,
      iff_false]
    split_ifs <;> simp

/-- The form of every slice: a fault on a read, the end of the coroutine, or one
`await_suspend` applied to the state the slice started in. -/
theorem DoCoro.resume_form (w : World) (f : Frame) (s : State) :
    PoolFault w f s ∨ DoCoro.resume w f s = some (BailOut s) ∨
    (∃ c h, DoCoro.resume w f s = DoCommandPAwaiter.await_suspend w c h s) ∨
    (∃ h, DoCoro.resume w f s = WaitTickAwaiter.await_suspend h s) := by
  have hself : ({ s with coro_resumer := s.coro_resumer } : State) = s := by
    cases s
    rfl
  rcases SliceUniform_resume w f s with h1 | h1 | ⟨c, hd, h1⟩ | ⟨hd, h1⟩
  · exact Or.inl h1
  · have := h1 s.coro_resumer
    simp only [hself] at this
    exact Or.inr (Or.inl this)
  · have := h1 s.coro_resumer
    simp only [hself] at this
    exact Or.inr (Or.inr (Or.inl ⟨c, hd, this⟩))
  · have := h1 s.coro_resumer
    simp only [hself] at this
    exact Or.inr (Or.inr (Or.inr ⟨hd, this⟩))

/-- A slice started with a null `coro_resumer` faults only on a read. -/
theorem DoCoro.resume_eq_none (w : World) (f : Frame) (s : State)
    (hs : s.coro_resumer = none) (h : DoCoro.resume w f s = none) : PoolFault w f s := by
  rcases DoCoro.resume_form w f s with h1 | h1 | ⟨c, hd, h1⟩ | ⟨hd, h1⟩
  · exact h1
  · rw [h] at h1
    cases h1
  · rw [h] at h1
    exact absurd ((DoCommandPAwaiter.await_suspend_eq_none w c hd s).mp h1.symm) (by simp [hs])
  · rw [h] at h1
    exact absurd ((WaitTickAwaiter.tick_suspend_eq_none hd s).mp h1.symm) (by simp [hs])

theorem Start_isSome (w : World) (type_str : String) (s : State) :
    ∃ r, Start w type_str s = some r := by
  rw [Start_eq]
  split_ifs <;> exact ⟨_, rfl⟩

/-! ### The snapshot -/

theorem dropWhile_FirstShared_ne (first : Vehicle) (tail : List Vehicle)
    (hs : (first :: tail).Sorted (fun u v => u.FirstShared ≤ v.FirstShared)) :
    ∀ v ∈ tail.dropWhile (fun v => v.FirstShared == first.FirstShared),
      v.FirstShared ≠ first.FirstShared := by
  induction tail with
  | nil => intro v hv; simp at hv
  | cons t ts ih =>
    intro v hv
    have h1 := List.sorted_cons.mp hs
    have h2 := List.sorted_cons.mp h1.2
    by_cases ht : t.FirstShared = first.FirstShared
    · have e : (t :: ts).dropWhile (fun v => v.FirstShared == first.FirstShared)
          = ts.dropWhile (fun v => v.FirstShared == first.FirstShared) := by
        simp [List.dropWhile_cons, ht]
      rw [e] at hv
      exact ih (List.sorted_cons.mpr ⟨fun b hb => h1.1 b (List.mem_cons_of_mem _ hb), h2.2⟩) v hv
    · have e : (t :: ts).dropWhile (fun v => v.FirstShared == first.FirstShared) = t :: ts := by
        simp [List.dropWhile_cons, ht]
      rw [e] at hv
      have hlt : first.FirstShared < t.FirstShared :=
        lt_of_le_of_ne (h1.1 t (List.mem_cons_self _ _)) (Ne.symm ht)
      rcases List.mem_cons.mp hv with rfl | hv
      · exact ht
      · have := h2.1 v hv
        omega

theorem dedup_group (x : Nat) (k : Nat) (m : List Nat) (hx : x ∉ m) :
    (List.replicate (k + 1) x ++ m).dedup = x :: m.dedup := by
  induction k with
  | zero =>
    simp only [zero_add, List.replicate_one, List.singleton_append]
    exact List.dedup_cons_of_not_mem hx
  | succ k ih =>
    rw [List.replicate_succ, List.cons_append, List.dedup_cons_of_mem, ih]
    simp [List.replicate_succ]

/-- The loop of the snapshot on a list sorted by `FirstShared`, from any
contents of the three vectors: the snapshots appended are those of the vehicles
in order, with a route index that is a function of `FirstShared`. -/
theorem DoCoro.snapshotLoop_spec (n : Nat) :
    ∀ (l : List Vehicle) (acc : Snapshot), l.length ≤ n →
      l.Sorted (fun u v => u.FirstShared ≤ v.FirstShared) →
      ∃ (rix : Nat → Nat) (rs : List Route),
        (DoCoro.snapshotLoop l acc).vehicle_properties = acc.vehicle_properties ++
          l.map (fun v => { depot := v.tile, cargos := DoCoro.cargosOf v,
                            route_index := rix v.FirstShared }) ∧
        (DoCoro.snapshotLoop l acc).routes = acc.routes ++ rs ∧
        (DoCoro.snapshotLoop l acc).depots = acc.depots ++ l.map (fun v => v.tile) ∧
        rs.length = (l.map (fun v => v.FirstShared)).dedup.length ∧
        (∀ v ∈ l, acc.routes.length ≤ rix v.FirstShared ∧
          rix v.FirstShared < acc.routes.length + rs.length) ∧
        (∀ u ∈ l, ∀ v ∈ l, rix u.FirstShared = rix v.FirstShared ↔
          u.FirstShared = v.FirstShared) := by
  induction n with
  | zero =>
    intro l acc hl _
    have : l = [] := List.length_eq_zero.mp (Nat.le_zero.mp hl)
    subst this
    refine ⟨fun _ => 0, [], ?_, ?_, ?_, rfl, ?_, ?_⟩ <;> simp [DoCoro.snapshotLoop]
  | succ n ih =>
    intro l acc hl hs
    cases l with
    | nil => refine ⟨fun _ => 0, [], ?_, ?_, ?_, rfl, ?_, ?_⟩ <;> simp [DoCoro.snapshotLoop]
    | cons first tail =>
      have htail : tail.takeWhile (fun v => v.FirstShared == first.FirstShared) ++
          tail.dropWhile (fun v => v.FirstShared == first.FirstShared) = tail :=
        List.takeWhile_append_dropWhile _ _
      have hdw := dropWhile_FirstShared_ne first tail hs
      have htw : ∀ v ∈ tail.takeWhile (fun v => v.FirstShared == first.FirstShared),
          v.FirstShared = first.FirstShared := by
        intro v hv
        simpa using List.mem_takeWhile_imp hv
      have hsd : (tail.dropWhile (fun v => v.FirstShared == first.FirstShared)).Sorted
          (fun u v => u.FirstShared ≤ v.FirstShared) :=
        ((List.sorted_cons.mp hs).2).sublist (List.dropWhile_sublist _)
      have hld : (tail.dropWhile (fun v => v.FirstShared == first.FirstShared)).length ≤ n :=
        le_trans (List.dropWhile_sublist _).length_le
          (Nat.le_of_succ_le_succ (by simpa using hl))
      rw [DoCoro.snapshotLoop]
      generalize hdwe : tail.dropWhile (fun v => v.FirstShared == first.FirstShared) = dw
        at htail hdw hsd hld
      generalize htwe : tail.takeWhile (fun v => v.FirstShared == first.FirstShared) = tw
        at htail htw
      subst htail
      obtain ⟨rix, rs, h1, h2, h3, h4, h5, h6⟩ := ih dw
        { routes := acc.routes ++ [Route.new (first.Orders.map Order.Pack)],
          vehicle_properties := acc.vehicle_properties ++
            (first :: tw).map (fun v =>
              { depot := v.tile, cargos := DoCoro.cargosOf v,
                route_index := acc.routes.length }),
          depots := acc.depots ++ (first :: tw).map (fun v => v.tile) } hld hsd
      simp only [List.length_append, List.length_singleton] at h5
      refine ⟨fun y => if y = first.FirstShared then acc.routes.length else rix y,
        Route.new (first.Orders.map Order.Pack) :: rs, ?_, ?_, ?_, ?_, ?_, ?_⟩
      · rw [h1, List.append_assoc]
        congr 1
        rw [← List.cons_append, List.map_append]
        congr 1
        · apply List.map_congr_left
          intro v hv
          have : v.FirstShared = first.FirstShared := by
            rcases List.mem_cons.mp hv with rfl | hv
            · rfl
            · exact htw v hv
          simp [this]
        · apply List.map_congr_left
          intro v hv
          simp [hdw v hv]
      · rw [h2]
        simp
      · rw [h3]
        simp
      · have e : (first :: (tw ++ dw)).map (fun v => v.FirstShared)
            = List.replicate (tw.length + 1) first.FirstShared ++ dw.map (fun v => v.FirstShared) := by
          rw [← List.cons_append, List.map_append]
          congr 1
          rw [List.eq_replicate_iff]
          refine ⟨by simp, ?_⟩
          intro b hb
          obtain ⟨v, hv, rfl⟩ := List.mem_map.mp hb
          rcases List.mem_cons.mp hv with rfl | hv
          · rfl
          · exact htw v hv
        rw [e, dedup_group]
        · simp [h4]
        · intro hmem
          obtain ⟨v, hv, hveq⟩ := List.mem_map.mp hmem
          exact hdw v hv hveq
      · intro v hv
        simp only [List.length_cons]
        by_cases hvx : v.FirstShared = first.FirstShared
        · simp only [hvx, if_true]
          omega
        · simp only [hvx, if_false]
          have hvd : v ∈ dw := by
            rcases List.mem_cons.mp hv with rfl | hv
            · exact absurd rfl hvx
            · rcases List.mem_append.mp hv with hv | hv
              · exact absurd (htw v hv) hvx
              · exact hv
          have := h5 v hvd
          omega
      · intro u hu v hv
        have hmem : ∀ z ∈ first :: (tw ++ dw), z.FirstShared ≠ first.FirstShared → z ∈ dw := by
          intro z hz hzx
          rcases List.mem_cons.mp hz with rfl | hz
          · exact absurd rfl hzx
          · rcases List.mem_append.mp hz with hz | hz
            · exact absurd (htw z hz) hzx
            · exact hz
        by_cases hux : u.FirstShared = first.FirstShared
        · by_cases hvx : v.FirstShared = first.FirstShared
          · simp [hux, hvx]
          · simp only [hux, hvx, if_true, if_false]
            have := h5 v (hmem v hv hvx)
            constructor
            · intro h; omega
            · intro h; exact absurd h.symm hvx
        · by_cases hvx : v.FirstShared = first.FirstShared
          · simp only [hux, hvx, if_true, if_false]
            have := h5 u (hmem u hu hux)
            constructor
            · intro h; omega
            · intro h; exact h.elim
          · simp only [hux, hvx, if_false]
            exact h6 u (hmem u hu hux) v (hmem v hv hvx)

/-- C20: on every list of vehicles sorted by `FirstShared` the loop of the
snapshot makes one `VehicleProperties` per vehicle, in order, with the depot and
the composition of that vehicle, and one `Route` per distinct `FirstShared`; the
route index of a snapshot is a function `rix` of the `FirstShared` of its
vehicle, it is below the number of routes, and two vehicles get the same index
exactly when they have the same `FirstShared`. `DoCoro.snapshot` runs this loop
on a sorted permutation of the vehicles it was given and returns its routes and
snapshots, whenever every vehicle is in the pool. -/
theorem snapshot_one_route_per_group :
    (∀ l : List Vehicle, l.Sorted (fun u v => u.FirstShared ≤ v.FirstShared) →
      ∃ rix : Nat → Nat,
        (DoCoro.snapshotLoop l { routes := [], vehicle_properties := [], depots := [] }
          ).vehicle_properties =
          l.map (fun v => { depot := v.tile, cargos := DoCoro.cargosOf v,
                            route_index := rix v.FirstShared }) ∧
        (DoCoro.snapshotLoop l { routes := [], vehicle_properties := [], depots := [] }
          ).routes.length = (l.map (fun v => v.FirstShared)).dedup.length ∧
        (∀ v ∈ l, rix v.FirstShared <
          (DoCoro.snapshotLoop l { routes := [], vehicle_properties := [], depots := [] }
            ).routes.length) ∧
        (∀ u ∈ l, ∀ v ∈ l, rix u.FirstShared = rix v.FirstShared ↔
          u.FirstShared = v.FirstShared)) ∧
    (∀ (w : World) (my_vehicles : List VehicleID) (vehicles : List Vehicle),
      my_vehicles.mapM w.Get = some vehicles →
      ∃ snap l, DoCoro.snapshot w my_vehicles = some snap ∧
        l.Sorted (fun u v => u.FirstShared ≤ v.FirstShared) ∧ l.Perm vehicles ∧
        snap.routes =
          (DoCoro.snapshotLoop l { routes := [], vehicle_properties := [], depots := [] }
            ).routes ∧
        snap.vehicle_properties =
          (DoCoro.snapshotLoop l { routes := [], vehicle_properties := [], depots := [] }
            ).vehicle_properties) := by
  constructor
  · intro l hl
    obtain ⟨rix, rs, h1, h2, _, h4, h5, h6⟩ :=
      DoCoro.snapshotLoop_spec l.length l
        { routes := [], vehicle_properties := [], depots := [] } le_rfl hl
    simp only [List.nil_append] at h1 h2
    simp only [List.length_nil, Nat.zero_add, Nat.zero_le, true_and] at h5
    refine ⟨rix, h1, by rw [h2, h4], ?_, h6⟩
    intro v hv
    rw [h2]
    exact h5 v hv
  · intro w my_vehicles vehicles hget
    haveI : IsTotal Vehicle (fun u v => u.FirstShared ≤ v.FirstShared) :=
      ⟨fun a b => Nat.le_total a.FirstShared b.FirstShared⟩
    haveI : IsTrans Vehicle (fun u v => u.FirstShared ≤ v.FirstShared) :=
      ⟨fun _ _ _ h1 h2 => Nat.le_trans h1 h2⟩
    refine ⟨{ DoCoro.snapshotLoop
          (vehicles.insertionSort (fun u v => u.FirstShared ≤ v.FirstShared))
          { routes := [], vehicle_properties := [], depots := [] } with
        depots := unique ((DoCoro.snapshotLoop
          (vehicles.insertionSort (fun u v => u.FirstShared ≤ v.FirstShared))
          { routes := [], vehicle_properties := [], depots := [] }).depots.insertionSort
            (fun a b => a ≤ b)) },
      vehicles.insertionSort (fun u v => u.FirstShared ≤ v.FirstShared), ?_,
      List.sorted_insertionSort _ _, List.perm_insertionSort _ _, rfl, rfl⟩
    simp only [DoCoro.snapshot, hget]
    rfl

/-- Witness of `snapshot_one_route_per_group`: the loop on the sample train alone. -/
theorem snapshot_one_route_per_group_witness :
    [sampleTrain].Sorted (fun u v => u.FirstShared ≤ v.FirstShared) ∧
    ∃ rix : Nat → Nat,
      (DoCoro.snapshotLoop [sampleTrain]
        { routes := [], vehicle_properties := [], depots := [] }).vehicle_properties =
        [sampleTrain].map (fun v => { depot := v.tile, cargos := DoCoro.cargosOf v,
                                      route_index := rix v.FirstShared }) ∧
      (DoCoro.snapshotLoop [sampleTrain]
        { routes := [], vehicle_properties := [], depots := [] }).routes.length =
        ([sampleTrain].map (fun v => v.FirstShared)).dedup.length ∧
      (∀ v ∈ [sampleTrain], rix v.FirstShared <
        (DoCoro.snapshotLoop [sampleTrain]
          { routes := [], vehicle_properties := [], depots := [] }).routes.length) ∧
      (∀ u ∈ [sampleTrain], ∀ v ∈ [sampleTrain], rix u.FirstShared = rix v.FirstShared ↔
        u.FirstShared = v.FirstShared) :=
  ⟨List.sorted_singleton _, snapshot_one_route_per_group.1 [sampleTrain]
    (List.sorted_singleton _)⟩

/-! ### Steps of an execution -/

theorem OnTick_cases (w : World) (s s' : State) (h : OnTick w s = some s') :
    s' = s ∨ s' = BailOut s ∨
    ∃ hd, s.coro_resumer = some hd ∧ s.coro_waiting_for_callback = true ∧
      s.current_company ≠ COMPANY_SPECTATOR ∧ w._local_company = s.current_company ∧
      Handle.run (DoCoro.resume w) hd
        { s with coro_waiting_for_callback := false, coro_resumer := none } = some s' := by
  unfold OnTick at h
  by_cases hc : s.current_company = COMPANY_SPECTATOR
  · simp only [hc, ne_eq, not_true_eq_false, if_false, Option.some.injEq] at h
    exact Or.inl h.symm
  · simp only [ne_eq, hc, not_false_eq_true, if_true] at h
    by_cases hl : w._local_company = s.current_company
    · simp only [hl, not_true_eq_false, if_false] at h
      unfold HandleCoro at h
      cases hr : s.coro_resumer with
      | none =>
        simp only [hr, Option.map_some', Option.some.injEq] at h
        exact Or.inl h.symm
      | some hd =>
        simp only [hr] at h
        by_cases hflag : s.coro_waiting_for_callback = true
        · simp only [hflag, if_true, Option.map_map] at h
          refine Or.inr (Or.inr ⟨hd, rfl, hflag, hc, hl, ?_⟩)
          cases hrun : Handle.run (DoCoro.resume w) hd
              { s with coro_waiting_for_callback := false, coro_resumer := none } with
          | none => simp [hrun] at h
          | some s1 =>
            simp only [hrun, Option.map_some', Function.comp_apply, Option.some.injEq] at h
            rw [h]
        · simp only [hflag, Bool.false_eq_true, if_false, Option.map_some',
            Option.some.injEq] at h
          exact Or.inl h.symm
    · simp only [hl, not_false_eq_true, if_true, Option.some.injEq] at h
      exact Or.inr (Or.inl h.symm)

theorem Handle.run_cases (w : World) (hd : Handle) (s0 s' : State)
    (h0 : s0.coro_resumer = none) (h : Handle.run (DoCoro.resume w) hd s0 = some s') :
    (∃ n, s' = { s0 with coro_resumer := some (Handle.waitTicks n hd.frame),
                         coro_waiting_for_callback := true }) ∨
    DoCoro.resume w hd.frame s0 = some s' := by
  cases hd with
  | task f => exact Or.inr h
  | waitTicks numticks f =>
    simp only [Handle.run, WaitTicks.loop] at h
    split_ifs at h
    · left
      simp only [WaitTickAwaiter.await_suspend, h0, Option.isSome_none, Bool.false_eq_true,
        if_false, Option.some.injEq] at h
      exact ⟨predecrement numticks, h.symm⟩
    · exact Or.inr h

/-- What a slice started with a null `coro_resumer` leaves: the state it was
started in without authorization, or that state with the task suspended, after
at most one more submission. -/
theorem DoCoro.resume_effect (w : World) (f : Frame) (s0 s' : State)
    (h0 : s0.coro_resumer = none) (h : DoCoro.resume w f s0 = some s') :
    s' = BailOut s0 ∨
    (∃ c hd, DoCommandPAwaiter.await_suspend w c hd s0 = some s' ∧
      s'.coro_resumer = some hd ∧ s'.current_company = s0.current_company ∧
      s'.submitted = s0.submitted ++ [c]) ∨
    (∃ hd, s' = { s0 with coro_resumer := some hd, coro_waiting_for_callback := true }) := by
  rcases DoCoro.resume_form w f s0 with h1 | h1 | ⟨c, hd, h1⟩ | ⟨hd, h1⟩
  · have := h1 s0.coro_resumer
    have hself : ({ s0 with coro_resumer := s0.coro_resumer } : State) = s0 := by
      cases s0
      rfl
    rw [hself, h] at this
    cases this
  · rw [h] at h1
    exact Or.inl (Option.some.inj h1)
  · rw [h] at h1
    have hf := DoCommandPAwaiter.await_suspend_frame w c hd s0 s' h1.symm
    exact Or.inr (Or.inl ⟨c, hd, h1.symm, hf.2.1, hf.2.2.1, hf.2.2.2.2.2⟩)
  · rw [h] at h1
    simp only [WaitTickAwaiter.await_suspend, h0, Option.isSome_none, Bool.false_eq_true,
      if_false, Option.some.injEq] at h1
    exact Or.inr (Or.inr ⟨hd, h1⟩)

/-- An event that is not an accepted `Start` only appends to the record of
submissions. -/
theorem Event.apply_submitted (e : Event) (s s' : State) (he : e.accepted = false)
    (h : e.apply s = some s') : s.submitted <+: s'.submitted := by
  cases e with
  | start w type_str =>
    obtain ⟨s1, h1, _, _, h4, _, _⟩ := Event.accepted_start_false w type_str s he
    simp only [Event.apply, h1, Option.map_some', Option.some.injEq] at h
    rw [← h, h4]
  | deliver result n =>
    simp only [Event.apply, Option.some.injEq] at h
    rw [← h, (DoCommandPAwaiter.Callback_frame result n s).2.2.2.2]
  | tick w =>
    simp only [Event.apply] at h
    rcases OnTick_cases w s s' h with rfl | rfl | ⟨hd, _, _, _, _, hrun⟩
    · exact List.prefix_refl _
    · exact List.prefix_refl _
    · rcases Handle.run_cases w hd _ s' rfl hrun with ⟨n, rfl⟩ | hres
      · exact List.prefix_refl _
      · rcases DoCoro.resume_effect w _ _ s' rfl hres with rfl | ⟨c, hd', _, _, _, h3⟩ | ⟨hd', rfl⟩
        · exact List.prefix_refl _
        · rw [h3]
          exact List.prefix_append _ _
        · exact List.prefix_refl _

/-! ### Liquidation -/

theorem unique_mem (l : List TileIndex) (d : TileIndex) : d ∈ unique l ↔ d ∈ l := by
  induction l with
  | nil => simp [unique]
  | cons a t ih =>
    cases t with
    | nil => simp [unique]
    | cons b t =>
      rw [unique]
      by_cases hab : a = b
      · subst hab
        simp only [if_true]
        rw [ih]
        simp
      · simp only [hab, if_false, List.mem_cons]
        rw [ih]
        simp

theorem unique_sorted (l : List TileIndex) (h : l.Sorted (fun a b => a ≤ b)) :
    (unique l).Sorted (fun a b => a < b) := by
  induction l with
  | nil => simp [unique]
  | cons a t ih =>
    cases t with
    | nil => simp [unique]
    | cons b t =>
      have h1 := List.sorted_cons.mp h
      have h2 := List.sorted_cons.mp h1.2
      rw [unique]
      by_cases hab : a = b
      · simp only [hab, if_true]
        exact ih h1.2
      · simp only [hab, if_false]
        refine List.sorted_cons.mpr ⟨?_, ih h1.2⟩
        intro d hd
        have hd' := (unique_mem (b :: t) d).mp hd
        have hab' : a < b := lt_of_le_of_ne (h1.1 b (List.mem_cons_self _ _)) hab
        rcases List.mem_cons.mp hd' with rfl | hd'
        · exact hab'
        · have hbd : b ≤ d := h2.1 d hd'
          exact lt_of_lt_of_le hab' hbd

/-- The depots of a snapshot are in strictly ascending order and are the depots
of its `VehicleProperties`. -/
theorem DoCoro.snapshot_depots (w : World) (my_vehicles : List VehicleID) (snap : Snapshot)
    (h : DoCoro.snapshot w my_vehicles = some snap) :
    snap.depots.Sorted (fun a b => a < b) ∧
    ∀ d, d ∈ snap.depots ↔ ∃ p ∈ snap.vehicle_properties, p.depot = d := by
  haveI : IsTotal Vehicle (fun u v => u.FirstShared ≤ v.FirstShared) :=
    ⟨fun a b => Nat.le_total a.FirstShared b.FirstShared⟩
  haveI : IsTrans Vehicle (fun u v => u.FirstShared ≤ v.FirstShared) :=
    ⟨fun _ _ _ h1 h2 => Nat.le_trans h1 h2⟩
  cases hget : my_vehicles.mapM w.Get with
  | none =>
    rw [DoCoro.snapshot, hget] at h
    cases h
  | some vehicles =>
    simp only [DoCoro.snapshot, hget, Option.bind_eq_bind, Option.some_bind, Option.pure_def,
      Option.some.injEq] at h
    obtain ⟨rix, rs, h1, _, h3, _⟩ :=
      DoCoro.snapshotLoop_spec _
        (vehicles.insertionSort (fun u v => u.FirstShared ≤ v.FirstShared))
        { routes := [], vehicle_properties := [], depots := [] } le_rfl
        (List.sorted_insertionSort _ _)
    simp only [List.nil_append] at h1 h3
    subst h
    refine ⟨unique_sorted _ (List.sorted_insertionSort _ _), ?_⟩
    intro d
    simp only [h1, h3]
    rw [unique_mem, (List.perm_insertionSort _ _).mem_iff]
    simp

theorem drop_eq_cons {α : Type} (l : List α) (k : Nat) (d : α) (rest : List α)
    (h : l.drop k = d :: rest) :
    k < l.length ∧ l.take (k + 1) = l.take k ++ [d] ∧ l.drop (k + 1) = rest := by
  induction l generalizing k with
  | nil => simp at h
  | cons a t ih =>
    cases k with
    | zero =>
      simp only [List.drop_zero, List.cons.injEq] at h
      obtain ⟨rfl, rfl⟩ := h
      simp
    | succ k =>
      simp only [List.drop_succ_cons] at h
      obtain ⟨h1, h2, h3⟩ := ih k h
      refine ⟨by simpa using h1, ?_, ?_⟩
      · simp only [List.take_succ_cons, List.cons_append, h2]
      · simpa using h3

/-- A slice of the sell loop, from any of its three suspension points. -/
theorem Liquidation_slice (w : World) (r : List Route) (v : List VehicleProperties)
    (ds : List TileIndex) (base : List Command) (k : Nat) (f : Frame) (s0 s' : State)
    (h0 : s0.coro_resumer = none) (hk : k ≤ ds.length)
    (hsub : s0.submitted = base ++ (ds.take k).map sellAll)
    (hf : f = Frame.L345 r v (ds.drop k) ∨ f = Frame.L354 r v (ds.drop k) ∨
      (0 < k ∧ f = Frame.L349 r v (ds.drop k)))
    (h : DoCoro.resume w f s0 = some s') : Liquidation r v ds base s' := by
  have hsell : DoCoro.sellLoop w r v (ds.drop k) s0 = some s' → Liquidation r v ds base s' := by
    intro hs
    cases hd : ds.drop k with
    | nil =>
      rw [hd] at hs
      simp only [DoCoro.sellLoop, WaitTicks.suspend, WaitTickAwaiter.await_suspend, h0,
        Option.isSome_none, Bool.false_eq_true, if_false, Option.some.injEq] at hs
      have hlen : ds.length ≤ k := List.drop_eq_nil_iff.mp hd
      have hk' : k = ds.length := le_antisymm hk hlen
      right; right
      rw [← hs]
      show base ++ ds.map sellAll <+: s0.submitted
      rw [hsub, hk', List.take_length]
    | cons d rest =>
      rw [hd] at hs
      obtain ⟨h1, h2, h3⟩ := drop_eq_cons ds k d rest hd
      have hfr := DoCommandPAwaiter.await_suspend_frame w (sellAll d)
        (Handle.task (Frame.L349 r v rest)) s0 s' hs
      left
      refine ⟨k + 1, h1, ?_, Handle.task (Frame.L349 r v rest), hfr.2.1, ?_⟩
      · rw [hfr.2.2.2.2.2, hsub, h2, List.map_append, List.append_assoc]
        rfl
      · right; right
        exact ⟨Nat.succ_pos k, by rw [h3]; rfl⟩
  rcases hf with rfl | rfl | ⟨hpos, rfl⟩
  · exact hsell h
  · exact hsell h
  · simp only [DoCoro.resume] at h
    by_cases hfail : (DoCommandPAwaiter.await_resume s0).Failed = true
    · simp only [hfail, if_true, DoCoro.bail, Option.some.injEq] at h
      right; left
      rw [← h]
      exact ⟨rfl, k, hk, hsub⟩
    · simp only [hfail, Bool.false_eq_true, if_false, WaitTicks.suspend,
        WaitTickAwaiter.await_suspend, h0, Option.isSome_none, Option.some.injEq] at h
      left
      rw [← h]
      exact ⟨k, hk, hsub, _, rfl, Or.inr (Or.inl rfl)⟩

/-- The sell loop is left only by the events that an execution is made of. -/
theorem Liquidation_step (r : List Route) (v : List VehicleProperties) (ds : List TileIndex)
    (base : List Command) (e : Event) (s s' : State) (he : e.accepted = false)
    (hinv : Liquidation r v ds base s) (h : e.apply s = some s') :
    Liquidation r v ds base s' := by
  rcases hinv with ⟨k, hk, hsub, hd, hres, hf⟩ | ⟨hc, k, hk, hsub⟩ | hpre
  · cases e with
    | start w type_str =>
      obtain ⟨s1, h1, _, h3, h4, _, _⟩ := Event.accepted_start_false w type_str s he
      simp only [Event.apply, h1, Option.map_some', Option.some.injEq] at h
      subst h
      exact Or.inl ⟨k, hk, h4.trans hsub, hd, h3.trans hres, hf⟩
    | deliver result n =>
      simp only [Event.apply, Option.some.injEq] at h
      subst h
      have hfr := DoCommandPAwaiter.Callback_frame result n s
      exact Or.inl ⟨k, hk, hfr.2.2.2.2.trans hsub, hd, hfr.1.trans hres, hf⟩
    | tick w =>
      simp only [Event.apply] at h
      rcases OnTick_cases w s s' h with rfl | rfl | ⟨hd', hres', _, _, _, hrun⟩
      · exact Or.inl ⟨k, hk, hsub, hd, hres, hf⟩
      · exact Or.inl ⟨k, hk, hsub, hd, hres, hf⟩
      · have hdd : hd' = hd := Option.some.inj (hres'.symm.trans hres)
        subst hdd
        rcases Handle.run_cases w hd'
          { s with coro_waiting_for_callback := false, coro_resumer := none } s' rfl hrun
          with ⟨n, rfl⟩ | hres2
        · exact Or.inl ⟨k, hk, hsub, Handle.waitTicks n hd'.frame, rfl, hf⟩
        · exact Liquidation_slice w r v ds base k hd'.frame
            { s with coro_waiting_for_callback := false, coro_resumer := none } s' rfl hk hsub
            hf hres2
  · obtain ⟨s2, h1, h2, _, h4, _⟩ := Event.run_spectator [e] s
      (by intro e' he'; rw [List.mem_singleton.mp he']; exact he) hc
    simp only [Event.run, h, Option.some_bind, Option.some.injEq] at h1
    subst h1
    exact Or.inr (Or.inl ⟨h4, k, hk, h2.trans hsub⟩)
  · exact Or.inr (Or.inr (hpre.trans (Event.apply_submitted e s s' he h)))

theorem Liquidation_run (r : List Route) (v : List VehicleProperties) (ds : List TileIndex)
    (base : List Command) (es : List Event) (s s' : State)
    (hes : ∀ e ∈ es, e.accepted = false)
    (hinv : Liquidation r v ds base s) (h : Event.run es s = some s') :
    Liquidation r v ds base s' := by
  induction es generalizing s with
  | nil =>
    simp only [Event.run, Option.some.injEq] at h
    subst h
    exact hinv
  | cons e es ih =>
    rw [Event.run] at h
    cases he : e.apply s with
    | none => simp [he] at h
    | some s1 =>
      rw [he, Option.some_bind] at h
      exact ih s1 (fun e' he' => hes e' (List.mem_cons_of_mem _ he'))
        (Liquidation_step r v ds base e s s1 (hes e (List.mem_cons_self _ _)) hinv he) h

/-- C17: the depots of a snapshot are in strictly ascending order, without
duplicates, and are the depots of the vehicle snapshots; the slice after the
snapshot enters the sell loop with them. In the loop a slice at line 345 or 354
submits the sell command of the next depot (or leaves the loop when none is
left) and the slice at line 349 bails out when the result is a failure and
waits otherwise. Through every execution without an accepted `Start` from the
entry of the loop the record of submissions is the record at the entry followed
by the sell commands of the first `k` depots, in order, as long as the run is
in the loop and for ever once it has lost its authorization; it is longer only
after the sell commands of all depots. When the `k`-th sale has failed, the
next tick bails out with these `k` sell commands submitted, and no later tick,
delivery or rejected `Start` submits anything. -/
theorem liquidation_sells_leading_depots :
    (∀ (w : World) (my_vehicles : List VehicleID) (snap : Snapshot),
      DoCoro.snapshot w my_vehicles = some snap →
      snap.depots.Sorted (fun a b => a < b) ∧
      ∀ d, d ∈ snap.depots ↔ ∃ p ∈ snap.vehicle_properties, p.depot = d) ∧
    (∀ (w : World) (my_vehicles : List VehicleID) (snap : Snapshot) (s : State),
      DoCoro.snapshot w my_vehicles = some snap → s.coro_resumer = none →
      ∃ s', DoCoro.resume w (Frame.L289 my_vehicles) s = some s' ∧
        Liquidating snap.routes snap.vehicle_properties snap.depots s.submitted 0 s') ∧
    (∀ (w : World) (r : List Route) (v : List VehicleProperties) (d : TileIndex)
      (rest : List TileIndex) (s : State),
      DoCoro.resume w (Frame.L345 r v (d :: rest)) s
        = DoCommandPAwaiter.await_suspend w (sellAll d) (Handle.task (Frame.L349 r v rest)) s ∧
      DoCoro.resume w (Frame.L354 r v (d :: rest)) s
        = DoCommandPAwaiter.await_suspend w (sellAll d) (Handle.task (Frame.L349 r v rest)) s ∧
      DoCoro.resume w (Frame.L349 r v rest) s
        = (if s.coro_command_cost.Failed then some (BailOut s)
           else WaitTicks.suspend TICKS_PER_SECOND (Frame.L354 r v rest) s) ∧
      DoCoro.resume w (Frame.L354 r v []) s
        = WaitTicks.suspend TICKS_PER_SECOND (Frame.L359 r v) s) ∧
    (∀ (r : List Route) (v : List VehicleProperties) (ds : List TileIndex)
      (base : List Command) (es : List Event) (s s' : State),
      Liquidating r v ds base 0 s → (∀ e ∈ es, e.accepted = false) →
      Event.run es s = some s' → Liquidation r v ds base s') ∧
    (∀ (w : World) (r : List Route) (v : List VehicleProperties) (ds : List TileIndex)
      (base : List Command) (k : Nat) (s : State),
      s.coro_resumer = some (Handle.task (Frame.L349 r v (ds.drop k))) →
      s.submitted = base ++ (ds.take k).map sellAll →
      s.coro_waiting_for_callback = true → s.coro_command_cost.Failed = true →
      s.current_company ≠ COMPANY_SPECTATOR → w._local_company = s.current_company →
      OnTick w s = some (BailOut { s with coro_waiting_for_callback := false,
                                          coro_resumer := none }) ∧
      ∀ es : List Event, (∀ e ∈ es, e.accepted = false) →
        ∃ s2, Event.run es (BailOut { s with coro_waiting_for_callback := false,
                                             coro_resumer := none }) = some s2 ∧
          s2.submitted = base ++ (ds.take k).map sellAll ∧
          s2.current_company = COMPANY_SPECTATOR ∧ s2.coro_resumer = none) := by
  refine ⟨DoCoro.snapshot_depots, ?_, ?_, ?_, ?_⟩
  · intro w my_vehicles snap s hsnap h0
    refine ⟨
      { s with
        coro_resumer :=
          some (Handle.waitTicks (predecrement TICKS_PER_SECOND)
            (Frame.L345 snap.routes snap.vehicle_properties snap.depots)),
        coro_waiting_for_callback := true }, ?_, ?_⟩
    · simp [DoCoro.resume, hsnap, WaitTicks.suspend, WaitTickAwaiter.await_suspend, h0]
    · exact ⟨Nat.zero_le _, by simp, _, rfl, Or.inl rfl⟩
  · intro w r v d rest s
    exact ⟨rfl, rfl, rfl, rfl⟩
  · intro r v ds base es s s' hin hes hrun
    exact Liquidation_run r v ds base es s s' hes (Or.inl ⟨0, hin⟩) hrun
  · intro w r v ds base k s hres hsub hflag hfail hc hl
    constructor
    · simp [OnTick, HandleCoro, Handle.run, DoCoro.resume, DoCoro.bail,
        DoCommandPAwaiter.await_resume, hres, hflag, hfail, hc, hl]
    · intro es hes
      obtain ⟨s2, h1, h2, h3, h4, _⟩ := Event.run_spectator es
        (BailOut { s with coro_waiting_for_callback := false, coro_resumer := none }) hes rfl
      exact ⟨s2, h1, h2.trans hsub, h4, h3⟩

/-- Witness of `liquidation_sells_leading_depots`: with depots 3, 5 and 8, the sale in
depot 5 fails; the sell commands of depots 3 and 5 are the only submissions and
the run has lost its authorization. -/
theorem liquidation_sells_leading_depots_witness :
    Liquidating [] [] [3, 5, 8] [] 0 sampleLiquidating ∧
    (∀ e ∈ sampleFailedSale, e.accepted = false) ∧
    Event.run sampleFailedSale sampleLiquidating = some sampleSecondSaleFailed ∧
    Liquidation [] [] [3, 5, 8] [] sampleSecondSaleFailed :=
  have h1 : Liquidating [] [] [3, 5, 8] [] 0 sampleLiquidating :=
    ⟨by decide, rfl, _, rfl, Or.inl rfl⟩
  have h2 : ∀ e ∈ sampleFailedSale, e.accepted = false := by decide
  have h3 : Event.run sampleFailedSale sampleLiquidating = some sampleSecondSaleFailed := by
    decide
  ⟨h1, h2, h3,
    liquidation_sells_leading_depots.2.2.2.1 [] [] [3, 5, 8] [] sampleFailedSale sampleLiquidating
      sampleSecondSaleFailed h1 h2 h3⟩

/-! ### The records of the reconstruction -/

theorem lookup_append_single (m : List (List CargoID × VehicleID)) (k cargos : List CargoID)
    (v : VehicleID) :
    (m ++ [(k, v)]).lookup cargos =
      match m.lookup cargos with
      | some x => some x
      | none => if cargos = k then some v else none := by
  induction m with
  | nil =>
    by_cases h : cargos = k
    · simp [List.lookup, h]
    · have hb : (cargos == k) = false := by simpa using h
      simp [List.lookup, h, hb]
  | cons a m ih =>
    obtain ⟨k', v'⟩ := a
    by_cases h : cargos = k'
    · simp [List.lookup, h]
    · have hb : (cargos == k') = false := by simpa using h
      simp only [List.cons_append, List.lookup, hb]
      exact ih

theorem lookup_try_emplace (m : List (List CargoID × VehicleID)) (k cargos : List CargoID)
    (v : VehicleID) :
    (try_emplace m k v).lookup cargos =
      match m.lookup cargos with
      | some x => some x
      | none => if cargos = k then some v else none := by
  unfold try_emplace
  cases hk : m.lookup k with
  | none => exact lookup_append_single m k cargos v
  | some y =>
    cases hc : m.lookup cargos with
    | some x => simp [hc]
    | none =>
      have hne : cargos ≠ k := by
        rintro rfl
        rw [hk] at hc
        cases hc
      simp [hne, hc]

theorem lookup_try_emplace_of_some (m : List (List CargoID × VehicleID)) (k cargos : List CargoID)
    (v x : VehicleID) (h : m.lookup cargos = some x) :
    (try_emplace m k v).lookup cargos = some x := by
  rw [lookup_try_emplace, h]

theorem DoCommandPAwaiter.Callback_result (result : CommandCost) (n : VehicleID) (s : State) :
    (DoCommandPAwaiter.Callback result n s).coro_command_cost = result ∧
    (DoCommandPAwaiter.Callback result n s).coro_new_vehicle_id = n := by
  cases hf : result.Failed <;> simp [DoCommandPAwaiter.Callback, hf]

theorem GoodResult_Callback (result : CommandCost) (n : VehicleID) (s : State)
    (h : result.Failed = false → n ≠ INVALID_VEHICLE) :
    GoodResult (DoCommandPAwaiter.Callback result n s) := by
  unfold GoodResult
  rw [(DoCommandPAwaiter.Callback_result result n s).1,
    (DoCommandPAwaiter.Callback_result result n s).2]
  exact h

theorem GoodResult_await_suspend (w : World) (c : Command) (hd : Handle) (s s' : State)
    (hw : (Event.tick w).valid) (hg : GoodResult s)
    (h : DoCommandPAwaiter.await_suspend w c hd s = some s') : GoodResult s' := by
  have herr : ∀ (n : VehicleID) (s1 : State),
      GoodResult (DoCommandPAwaiter.Callback (CommandCost.error INVALID_STRING_ID) n s1) :=
    fun n s1 => GoodResult_Callback _ _ _
      (fun hf => by simp [CommandCost.error, CommandCost.Failed] at hf)
  unfold DoCommandPAwaiter.await_suspend at h
  cases hr : s.coro_resumer with
  | some h0 => simp [hr] at h
  | none =>
    simp only [hr, Option.isSome_none, Bool.false_eq_true, if_false] at h
    cases hcb : (w.DoCommandPEx c).callback with
    | none =>
      simp only [hcb] at h
      split_ifs at h
      · cases h
        exact herr _ _
      · cases h
        exact hg
    | some result =>
      simp only [hcb] at h
      split_ifs at h
      · cases h
        exact herr _ _
      · cases h
        unfold DoCommandPAwaiter.CallbackWrapper
        split_ifs
        · exact hg
        · exact GoodResult_Callback _ _ _ (hw c result hcb)

theorem Event.rejected_start (w : World) (type_str : String) (s : State)
    (h : (Event.start w type_str).accepted = false) :
    Start w type_str s = some (false, s) ∨
    Start w type_str s = some (false, { s with rail_type := ParseRailType type_str }) := by
  rw [Start_eq]
  simp only [Event.accepted, Bool.and_eq_false_iff, bne_eq_false_iff_eq] at h
  by_cases h1 : w._local_company = COMPANY_SPECTATOR
  · left
    rw [if_pos h1]
  · right
    by_cases h2 : ParseRailType type_str = INVALID_RAILTYPE
    · rw [if_neg h1, if_pos h2]
    · have h3 : has_trains w = false := by
        rcases h with (h | h) | h
        · exact absurd h h1
        · exact absurd h h2
        · exact h
      rw [if_neg h1, if_neg h2, if_pos h3]

theorem GoodResult_step (e : Event) (s s' : State) (hv : e.valid) (he : e.accepted = false)
    (hg : GoodResult s) (h : e.apply s = some s') : GoodResult s' := by
  cases e with
  | start w type_str =>
    simp only [Event.apply] at h
    rcases Event.rejected_start w type_str s he with h1 | h1
    · rw [h1] at h
      simp only [Option.map_some', Option.some.injEq] at h
      subst h
      exact hg
    · rw [h1] at h
      simp only [Option.map_some', Option.some.injEq] at h
      subst h
      exact hg
  | deliver result n =>
    simp only [Event.apply, Option.some.injEq] at h
    subst h
    exact GoodResult_Callback result n s hv
  | tick w =>
    simp only [Event.apply] at h
    rcases OnTick_cases w s s' h with rfl | rfl | ⟨hd, _, _, _, _, hrun⟩
    · exact hg
    · exact hg
    · rcases Handle.run_cases w hd
        { s with coro_waiting_for_callback := false, coro_resumer := none } s' rfl hrun
        with ⟨n, rfl⟩ | hres
      · exact hg
      · rcases DoCoro.resume_effect w _ _ s' rfl hres with rfl | ⟨c, hd', h1, _, _, _⟩ | ⟨hd', rfl⟩
        · exact hg
        · exact GoodResult_await_suspend w c hd'
            { s with coro_waiting_for_callback := false, coro_resumer := none } s' hv hg h1
        · exact hg

/-- C23 (evaluation of the code): a `Start` that is not accepted returns false
and leaves `current_company`, `coro_resumer` and `coro_waiting_for_callback` as
they were, but unless the local company is `COMPANY_SPECTATOR` it has already
stored `ParseRailType(type_str)` in `rail_type` (line 106 precedes the two
checks). In the sample run towards electrified rail, after the trains are sold,
`Start("maglev")` is rejected for want of trains and the next tick submits the
conversion to maglev instead of the conversion to electrified rail; a `Start`
with an unknown name leaves `INVALID_RAILTYPE` as the target of the run. -/
theorem Start_rejected_overwrites_rail_type :
    (∀ (w : World) (type_str : String) (s : State),
      (Event.start w type_str).accepted = true ∨
      Start w type_str s =
        some (false,
          if w._local_company = COMPANY_SPECTATOR then s
          else { s with rail_type := ParseRailType type_str })) ∧
    sampleSoldOut.rail_type = RAILTYPE_ELECTRIC ∧
    Start sampleWorldSold "maglev" sampleSoldOut
      = some (false, { sampleSoldOut with rail_type := RAILTYPE_MAGLEV }) ∧
    (OnTick sampleWorldSold sampleSoldOut).map (fun s => s.submitted)
      = some [{ tile := 4030, p1 := 65, p2 := RAILTYPE_ELECTRIC, p3 := 0,
                cmd := CommandId.CMD_CONVERT_RAIL }] ∧
    (OnTick sampleWorldSold { sampleSoldOut with rail_type := RAILTYPE_MAGLEV }).map
        (fun s => s.submitted)
      = some [{ tile := 4030, p1 := 65, p2 := RAILTYPE_MAGLEV, p3 := 0,
                cmd := CommandId.CMD_CONVERT_RAIL }] ∧
    Start sampleWorldSold "tram" sampleSoldOut
      = some (false, { sampleSoldOut with rail_type := INVALID_RAILTYPE }) := by
  refine ⟨?_, rfl, by decide, by decide, by decide, by decide⟩
  intro w type_str s
  rw [Start_eq]
  by_cases h1 : w._local_company = COMPANY_SPECTATOR
  · right
    rw [if_pos h1, if_pos h1]
  · by_cases h2 : ParseRailType type_str = INVALID_RAILTYPE
    · right
      rw [if_neg h1, if_pos h2, if_neg h1]
    · cases h3 : has_trains w with
      | false =>
        right
        rw [if_neg h1, if_neg h2, if_pos rfl, if_neg h1]
      | true =>
        left
        simp [Event.accepted, h1, h2, h3]

/-! ### The rail type of the traction designs -/

/-- C24: for a traction role `GetNewTrainUnit` returns `INVALID_ENGINE` or the
index of a design of the catalog, the one the loop ends with, whose rail type is
the target rail type, whose power is not zero and which the company of the run
can build; a design of another rail type is never the one the loop ends with,
whatever `HasPowerOnRail` says. In the sample catalog, whose two designs are for
plain rail and have power on electrified rail, no locomotive is found for
electrified rail while the wagon is. -/
theorem GetNewTrainUnit_traction_rail_type (c : Catalog) (rail_type : RailType)
    (current_company : CompanyID) (wagon_cargo : CargoID) :
    ((c.engines.foldl (engineLoopBody c rail_type current_company) none = none ∧
      GetNewTrainUnit c rail_type current_company CT_INVALID wagon_cargo
        = (INVALID_ENGINE, CT_INVALID)) ∨
     (∃ d ∈ c.engines,
      c.engines.foldl (engineLoopBody c rail_type current_company) none = some d ∧
      (GetNewTrainUnit c rail_type current_company CT_INVALID wagon_cargo).1 = d.index ∧
      d.railtype = rail_type ∧ d.GetPower ≠ 0 ∧
      c.IsEngineBuildable d.index current_company = true)) ∧
    (∀ e : Engine, e.railtype ≠ rail_type →
      c.engines.foldl (engineLoopBody c rail_type current_company) none ≠ some e) ∧
    (sampleMixedCatalog.HasPowerOnRail RAILTYPE_RAIL RAILTYPE_ELECTRIC = true ∧
      GetNewTrainUnit sampleMixedCatalog RAILTYPE_ELECTRIC 1 CT_INVALID 3
        = (INVALID_ENGINE, CT_INVALID) ∧
      GetNewTrainUnit sampleMixedCatalog RAILTYPE_ELECTRIC 1 3 3 = (21, 3) ∧
      GetNewTrainUnit sampleMixedCatalog RAILTYPE_RAIL 1 CT_INVALID 3 = (20, 3)) := by
  refine ⟨?_, ?_, by decide⟩
  · rcases engine_fold c rail_type current_company with ⟨_, h2⟩ | ⟨d, h1, h2, h3, _⟩
    · left
      refine ⟨h2, ?_⟩
      simp [GetNewTrainUnit, h2]
    · right
      refine ⟨d, h2, h1, ?_, h3.2.2, h3.1, h3.2.1⟩
      simp [GetNewTrainUnit, h1]
  · intro e he hfold
    rcases engine_fold c rail_type current_company with ⟨_, h2⟩ | ⟨d, h1, _, h3, _⟩
    · rw [h2] at hfold
      cases hfold
    · rw [h1] at hfold
      cases hfold
      exact he h3.2.2

/-! ### The order skip -/

theorem DoCoro.depot_order_index_none (w : World) (depot : TileIndex) (l : List Order)
    (h : ∀ o ∈ l, isDepotOrder w depot o = false) :
    DoCoro.depot_order_index w depot l = l.length := by
  induction l with
  | nil => rfl
  | cons o l ih =>
    have ho : (o.IsType OT_GOTO_DEPOT && o.GetDestination == w.GetDepotIndex depot) = false :=
      h o (List.mem_cons_self _ _)
    simp only [DoCoro.depot_order_index, ho, Bool.false_eq_true, if_false, List.length_cons]
    rw [ih (fun o' ho' => h o' (List.mem_cons_of_mem _ ho'))]

theorem DoCoro.depot_order_index_first (w : World) (depot : TileIndex) (l : List Order)
    (d : Nat) (o : Order) (hd : l[d]? = some o) (ho : isDepotOrder w depot o = true)
    (hbefore : ∀ i o', i < d → l[i]? = some o' → isDepotOrder w depot o' = false) :
    DoCoro.depot_order_index w depot l = d := by
  induction l generalizing d with
  | nil => simp at hd
  | cons a l ih =>
    cases d with
    | zero =>
      simp only [List.getElem?_cons_zero, Option.some.injEq] at hd
      subst hd
      have ha : (a.IsType OT_GOTO_DEPOT && a.GetDestination == w.GetDepotIndex depot) = true :=
        ho
      simp only [DoCoro.depot_order_index, ha, if_true]
    | succ d =>
      have ha : (a.IsType OT_GOTO_DEPOT && a.GetDestination == w.GetDepotIndex depot) = false :=
        hbefore 0 a (Nat.succ_pos d) (by simp)
      simp only [DoCoro.depot_order_index, ha, Bool.false_eq_true, if_false]
      rw [ih d (by simpa using hd)
        (fun i o' hi hio => hbefore (i + 1) o' (Nat.succ_lt_succ hi) (by simpa using hio))]

/-- C22: the order skip of lines 491-508 for a new train whose order count is
the length of its order list. When no order of the list is a go-to-depot order
for the depot of the snapshot, no command is submitted and the loop goes on.
When the first such order is at index `d`, the order count is positive, the
target `(d + 1) % n` is below the count `n`, it is `d + 1` unless the depot
order is the last one and 0 then, and the skip command with this target is
submitted exactly when `cur_real_order_index` differs from it. The skip is run
for every new train: after the clone with shared orders (line 392) and after
line 488 for the others. -/
theorem skip_to_order_after_depot :
    (∀ (w : World) (next : Rebuild → State → Option State) (r : Rebuild)
      (new_train : VehicleID) (v : Vehicle) (s : State),
      w.Get new_train = some v → v.GetNumOrders = v.Orders.length →
      (∀ o ∈ v.Orders, isDepotOrder w r.prop.depot o = false) →
      DoCoro.skipOrders w next r new_train s = next r s) ∧
    (∀ (w : World) (next : Rebuild → State → Option State) (r : Rebuild)
      (new_train : VehicleID) (v : Vehicle) (s : State) (d : Nat) (o : Order),
      w.Get new_train = some v → v.GetNumOrders = v.Orders.length →
      v.Orders[d]? = some o → isDepotOrder w r.prop.depot o = true →
      (∀ i o', i < d → v.Orders[i]? = some o' → isDepotOrder w r.prop.depot o' = false) →
      0 < v.GetNumOrders ∧ (d + 1) % v.GetNumOrders < v.GetNumOrders ∧
      (d + 1 < v.GetNumOrders → (d + 1) % v.GetNumOrders = d + 1) ∧
      (d + 1 = v.GetNumOrders → (d + 1) % v.GetNumOrders = 0) ∧
      DoCoro.skipOrders w next r new_train s =
        if v.cur_real_order_index ≠ (d + 1) % v.GetNumOrders then
          DoCommandPAwaiter.await_suspend w
            { tile := r.prop.depot, p1 := new_train, p2 := (d + 1) % v.GetNumOrders, p3 := 0,
              cmd := CommandId.CMD_SKIP_TO_ORDER }
            (Handle.task (Frame.L502 r)) s
        else next r s) ∧
    (∀ (w : World) (r : Rebuild) (new_train : VehicleID) (s : State),
      DoCoro.resume w (Frame.L392 r new_train) s
        = DoCoro.skipOrders w (DoCoro.next w) r new_train s) ∧
    (∀ (w : World) (next : Rebuild → State → Option State) (r : Rebuild)
      (new_train : VehicleID) (route : Route) (s : State),
      r.routes[r.prop.route_index]? = some route →
      DoCoro.line488 w next r new_train s =
        DoCoro.skipOrders w next
          { r with
            routes :=
              r.routes.set r.prop.route_index
                { route with
                  first_clonables :=
                    try_emplace route.first_clonables r.prop.cargos new_train } }
          new_train s) := by
  refine ⟨?_, ?_, fun _ _ _ _ => rfl, ?_⟩
  · intro w next r new_train v s hv hn hnone
    have hidx := DoCoro.depot_order_index_none w r.prop.depot v.Orders hnone
    simp [DoCoro.skipOrders, hv, hidx, hn]
  · intro w next r new_train v s d o hv hn hd ho hbefore
    have hidx := DoCoro.depot_order_index_first w r.prop.depot v.Orders d o hd ho hbefore
    have hlt : d < v.Orders.length := (List.getElem?_eq_some.mp hd).1
    have hlt' : d < v.GetNumOrders := by rw [hn]; exact hlt
    refine ⟨by omega, Nat.mod_lt _ (by omega), fun h => Nat.mod_eq_of_lt h, ?_, ?_⟩
    · intro h
      rw [h]
      exact Nat.mod_self _
    · simp only [DoCoro.skipOrders, hv, hidx, Option.bind_eq_bind, Option.some_bind, hlt',
        if_true]
  · intro w next r new_train route s hroute
    simp [DoCoro.line488, hroute]

/-- Witness of `skip_to_order_after_depot`: a train with three orders whose
second order is the depot order is sent to its third order. -/
theorem skip_to_order_after_depot_witness :
    sampleOrdersWorld.Get 5 = some sampleOrdersTrain ∧
    sampleOrdersTrain.GetNumOrders = sampleOrdersTrain.Orders.length ∧
    DoCoro.skipOrders sampleOrdersWorld (DoCoro.next sampleOrdersWorld) sampleFirstTwin 5
        sampleState =
      if sampleOrdersTrain.cur_real_order_index ≠ (1 + 1) % sampleOrdersTrain.GetNumOrders then
        DoCommandPAwaiter.await_suspend sampleOrdersWorld
          { tile := sampleFirstTwin.prop.depot, p1 := 5,
            p2 := (1 + 1) % sampleOrdersTrain.GetNumOrders, p3 := 0,
            cmd := CommandId.CMD_SKIP_TO_ORDER }
          (Handle.task (Frame.L502 sampleFirstTwin)) sampleState
      else DoCoro.next sampleOrdersWorld sampleFirstTwin sampleState :=
  ⟨rfl, rfl,
    (skip_to_order_after_depot.2.1 sampleOrdersWorld (DoCoro.next sampleOrdersWorld)
      sampleFirstTwin 5 sampleOrdersTrain sampleState 1
      { Pack := 200, GetType := OT_GOTO_DEPOT, GetDestination := 0 } rfl rfl rfl rfl
      (by
        intro i o' hi hio
        have hi0 : i = 0 := by omega
        subst hi0
        simp only [sampleOrdersTrain, List.getElem?_cons_zero, Option.some.injEq] at hio
        subst hio
        rfl)).2.2.2.2⟩

/-! ### Writes made once -/

theorem WriteOnce_refl (R : List Route × List (List CargoID × VehicleID)) : WriteOnce R R := by
  refine ⟨rfl, ?_, fun _ _ h => h⟩
  intro j route route' h1 h2
  have e : route' = route := Option.some.inj (h2.symm.trans h1)
  subst e
  exact ⟨rfl, fun _ => rfl, fun _ _ h => h⟩

theorem WriteOnce_trans (R1 R2 R3 : List Route × List (List CargoID × VehicleID))
    (h12 : WriteOnce R1 R2) (h23 : WriteOnce R2 R3) : WriteOnce R1 R3 := by
  refine ⟨h23.1.trans h12.1, ?_, fun c v h => h23.2.2 c v (h12.2.2 c v h)⟩
  intro j route route'' h1 h3
  have hlt : j < R2.1.length := by
    rw [h12.1]
    exact (List.getElem?_eq_some.mp h1).1
  obtain ⟨a1, a2, a3⟩ := h12.2.1 j route (R2.1[j]) h1 (List.getElem?_eq_getElem hlt)
  obtain ⟨b1, b2, b3⟩ := h23.2.1 j (R2.1[j]) route'' (List.getElem?_eq_getElem hlt) h3
  refine ⟨b1.trans a1, ?_, fun c v h => b3 c v (a3 c v h)⟩
  intro hfs
  have e := a2 hfs
  rw [b2 (by rw [e]; exact hfs), e]

theorem WriteOnce_routes_set (R0 : List Route × List (List CargoID × VehicleID))
    (routes : List Route) (vfc : List (List CargoID × VehicleID)) (j : Nat)
    (route route' : Route) (hk : WriteOnce R0 (routes, vfc)) (hj : routes[j]? = some route)
    (hp : route'.packed_orders = route.packed_orders)
    (hfs : route.first_shared ≠ INVALID_VEHICLE → route'.first_shared = route.first_shared)
    (hfc : ∀ cargos vid, route.first_clonables.lookup cargos = some vid →
      route'.first_clonables.lookup cargos = some vid) :
    WriteOnce R0 (routes.set j route', vfc) := by
  refine WriteOnce_trans R0 (routes, vfc) _ hk ⟨by simp, ?_, fun _ _ h => h⟩
  intro j0 route0 route0' h1 h2
  simp only at h1 h2
  rw [List.getElem?_set] at h2
  by_cases hjj : j = j0
  · subst hjj
    have hlt : j < routes.length := (List.getElem?_eq_some.mp hj).1
    simp only [hlt, if_true, Option.some.injEq] at h2
    subst h2
    have e : route0 = route := Option.some.inj (h1.symm.trans hj)
    subst e
    exact ⟨hp, hfs, hfc⟩
  · rw [if_neg hjj] at h2
    have e : route0' = route0 := Option.some.inj (h2.symm.trans h1)
    subst e
    exact ⟨rfl, fun _ => rfl, fun _ _ h => h⟩

theorem WriteOnce_try_emplace (R0 : List Route × List (List CargoID × VehicleID))
    (routes : List Route) (vfc : List (List CargoID × VehicleID)) (k : List CargoID)
    (v : VehicleID) (hk : WriteOnce R0 (routes, vfc)) :
    WriteOnce R0 (routes, try_emplace vfc k v) :=
  WriteOnce_trans R0 (routes, vfc) _ hk
    ⟨rfl, (WriteOnce_refl (routes, vfc)).2.1,
      fun c x h => lookup_try_emplace_of_some vfc k c v x h⟩

theorem Kept_of_records {V : Prop} {R0 : List Route × List (List CargoID × VehicleID)}
    (f : Frame) (R1 : List Route × List (List CargoID × VehicleID)) (hg : f.guarded V)
    (hrec : f.records = some R1) (hk : WriteOnce R0 R1) : Kept V R0 f := by
  refine ⟨hg, fun R hR => ?_⟩
  rw [hrec] at hR
  cases hR
  exact hk

theorem SliceKeeps_none {V : Prop} {R0 : List Route × List (List CargoID × VehicleID)} :
    SliceKeeps V R0 none := by
  intro s' h
  cases h

theorem SliceKeeps_bail {V : Prop} {R0 : List Route × List (List CargoID × VehicleID)}
    (s : State) (h0 : s.coro_resumer = none) : SliceKeeps V R0 (DoCoro.bail s) := by
  intro s' h hd hres
  simp only [DoCoro.bail, Option.some.injEq] at h
  subst h
  rw [show (BailOut s).coro_resumer = s.coro_resumer from rfl, h0] at hres
  cases hres

theorem SliceKeeps_command {V : Prop} {R0 : List Route × List (List CargoID × VehicleID)}
    (w : World) (c : Command) (f : Frame) (s : State) (hf : Kept V R0 f) :
    SliceKeeps V R0 (DoCommandPAwaiter.await_suspend w c (Handle.task f) s) := by
  intro s' h hd hres
  have e := (DoCommandPAwaiter.await_suspend_frame w c _ s s' h).2.1
  rw [e] at hres
  cases hres
  exact hf

theorem SliceKeeps_suspend {V : Prop} {R0 : List Route × List (List CargoID × VehicleID)}
    (hd : Handle) (s : State) (hf : Kept V R0 hd.frame) :
    SliceKeeps V R0 (WaitTickAwaiter.await_suspend hd s) := by
  intro s' h hd' hres
  unfold WaitTickAwaiter.await_suspend at h
  split_ifs at h
  simp only [Option.some.injEq] at h
  subst h
  cases hres
  exact hf

theorem SliceKeeps_WaitTicks {V : Prop} {R0 : List Route × List (List CargoID × VehicleID)}
    (n : Nat) (f : Frame) (s : State) (hf : Kept V R0 f) :
    SliceKeeps V R0 (WaitTicks.suspend n f s) :=
  SliceKeeps_suspend (Handle.waitTicks (predecrement n) f) s hf

theorem SliceKeeps_bind {V : Prop} {R0 : List Route × List (List CargoID × VehicleID)}
    {α : Type} (x : Option α) (g : α → Option State)
    (h : ∀ a, x = some a → SliceKeeps V R0 (g a)) : SliceKeeps V R0 (x >>= g) := by
  cases x with
  | none => exact SliceKeeps_none
  | some a => exact h a rfl

theorem SliceKeeps_ite {V : Prop} {R0 : List Route × List (List CargoID × VehicleID)}
    (c : Prop) [Decidable c] (a b : Option State)
    (ha : c → SliceKeeps V R0 a) (hb : ¬ c → SliceKeeps V R0 b) :
    SliceKeeps V R0 (if c then a else b) := by
  by_cases hc : c
  · simpa [hc] using ha hc
  · simpa [hc] using hb hc

theorem SliceKeeps_skipOrders {V : Prop} {R0 : List Route × List (List CargoID × VehicleID)}
    (w : World) (next : Rebuild → State → Option State) (r : Rebuild)
    (new_train : VehicleID) (s : State) (h0 : s.coro_resumer = none)
    (hk : WriteOnce R0 (r.routes, r.vehicles_for_copying))
    (hnext : ∀ r' s1, s1.coro_resumer = none →
      WriteOnce R0 (r'.routes, r'.vehicles_for_copying) → SliceKeeps V R0 (next r' s1)) :
    SliceKeeps V R0 (DoCoro.skipOrders w next r new_train s) := by
  unfold DoCoro.skipOrders
  refine SliceKeeps_bind _ _ (fun v _ => ?_)
  dsimp only
  refine SliceKeeps_ite _ _ _ (fun _ => ?_) (fun _ => hnext r s h0 hk)
  exact SliceKeeps_ite _ _ _
    (fun _ => SliceKeeps_command w _ _ s (Kept_of_records _ _ trivial rfl hk))
    (fun _ => hnext r s h0 hk)

theorem SliceKeeps_line488 {V : Prop} {R0 : List Route × List (List CargoID × VehicleID)}
    (w : World) (next : Rebuild → State → Option State) (r : Rebuild)
    (new_train : VehicleID) (s : State) (h0 : s.coro_resumer = none)
    (hk : WriteOnce R0 (r.routes, r.vehicles_for_copying))
    (hnext : ∀ r' s1, s1.coro_resumer = none →
      WriteOnce R0 (r'.routes, r'.vehicles_for_copying) → SliceKeeps V R0 (next r' s1)) :
    SliceKeeps V R0 (DoCoro.line488 w next r new_train s) := by
  unfold DoCoro.line488
  refine SliceKeeps_bind _ _ (fun route hroute => ?_)
  refine SliceKeeps_skipOrders w next _ new_train s h0 ?_ hnext
  exact WriteOnce_routes_set R0 r.routes r.vehicles_for_copying _ route _ hk hroute rfl
    (fun _ => rfl) (fun c x h => lookup_try_emplace_of_some _ _ c _ x h)

theorem SliceKeeps_insertLoop {V : Prop} {R0 : List Route × List (List CargoID × VehicleID)}
    (w : World) (next : Rebuild → State → Option State) (r : Rebuild)
    (new_train : VehicleID) (i : Nat) (s : State) (h0 : s.coro_resumer = none)
    (hk : WriteOnce R0 (r.routes, r.vehicles_for_copying))
    (hinst : ∀ route, r.routes[r.prop.route_index]? = some route →
      route.first_shared = INVALID_VEHICLE)
    (hnext : ∀ r' s1, s1.coro_resumer = none →
      WriteOnce R0 (r'.routes, r'.vehicles_for_copying) → SliceKeeps V R0 (next r' s1)) :
    SliceKeeps V R0 (DoCoro.insertLoop w next r new_train i s) := by
  unfold DoCoro.insertLoop
  refine SliceKeeps_bind _ _ (fun route hroute => ?_)
  dsimp only
  refine SliceKeeps_ite _ _ _ (fun _ => ?_) (fun _ => ?_)
  · refine SliceKeeps_bind _ _ (fun order _ => ?_)
    exact SliceKeeps_command w _ _ s (Kept_of_records _ _ hinst rfl hk)
  · refine SliceKeeps_line488 w next _ new_train s h0 ?_ hnext
    exact WriteOnce_routes_set R0 r.routes r.vehicles_for_copying _ route _ hk hroute rfl
      (fun hfs => absurd (hinst route hroute) hfs) (fun _ _ h => h)

theorem SliceKeeps_deleteLoop {V : Prop} {R0 : List Route × List (List CargoID × VehicleID)}
    (w : World) (next : Rebuild → State → Option State) (r : Rebuild)
    (new_train : VehicleID) (s : State) (h0 : s.coro_resumer = none)
    (hk : WriteOnce R0 (r.routes, r.vehicles_for_copying))
    (hinst : ∀ route, r.routes[r.prop.route_index]? = some route →
      route.first_shared = INVALID_VEHICLE)
    (hnext : ∀ r' s1, s1.coro_resumer = none →
      WriteOnce R0 (r'.routes, r'.vehicles_for_copying) → SliceKeeps V R0 (next r' s1)) :
    SliceKeeps V R0 (DoCoro.deleteLoop w next r new_train s) := by
  unfold DoCoro.deleteLoop
  refine SliceKeeps_bind _ _ (fun v _ => ?_)
  dsimp only
  exact SliceKeeps_ite _ _ _
    (fun _ => SliceKeeps_command w _ _ s (Kept_of_records _ _ hinst rfl hk))
    (fun _ => SliceKeeps_insertLoop w next r new_train 0 s h0 hk hinst hnext)

theorem SliceKeeps_line457 {V : Prop} {R0 : List Route × List (List CargoID × VehicleID)}
    (w : World) (next : Rebuild → State → Option State) (r : Rebuild)
    (new_train : VehicleID) (s : State) (h0 : s.coro_resumer = none)
    (hk : WriteOnce R0 (r.routes, r.vehicles_for_copying))
    (hnext : ∀ r' s1, s1.coro_resumer = none →
      WriteOnce R0 (r'.routes, r'.vehicles_for_copying) → SliceKeeps V R0 (next r' s1)) :
    SliceKeeps V R0 (DoCoro.line457 w next r new_train s) := by
  unfold DoCoro.line457
  refine SliceKeeps_bind _ _ (fun route hroute => ?_)
  dsimp only
  refine SliceKeeps_ite _ _ _
    (fun _ => SliceKeeps_command w _ _ s (Kept_of_records _ _ trivial rfl hk)) (fun hfs => ?_)
  refine SliceKeeps_deleteLoop w next r new_train s h0 hk ?_ hnext
  intro route' hroute'
  have e : route' = route := Option.some.inj (hroute'.symm.trans hroute)
  subst e
  exact not_not.mp hfs

theorem SliceKeeps_buildLoop {V : Prop} {R0 : List Route × List (List CargoID × VehicleID)}
    (w : World) (next : Rebuild → State → Option State) (r : Rebuild)
    (wagon_cargo : CargoID) (new_head : VehicleID) (cargos : List CargoID) (s : State)
    (h0 : s.coro_resumer = none) (hk : WriteOnce R0 (r.routes, r.vehicles_for_copying))
    (hnext : ∀ r' s1, s1.coro_resumer = none →
      WriteOnce R0 (r'.routes, r'.vehicles_for_copying) → SliceKeeps V R0 (next r' s1)) :
    SliceKeeps V R0 (DoCoro.buildLoop w next r wagon_cargo new_head cargos s) := by
  cases cargos with
  | nil =>
    simp only [DoCoro.buildLoop]
    refine SliceKeeps_ite _ _ _ (fun _ => SliceKeeps_bail s h0) (fun _ => ?_)
    exact SliceKeeps_line457 w next _ new_head s h0
      (WriteOnce_try_emplace R0 r.routes r.vehicles_for_copying _ _ hk) hnext
  | cons cargo rest =>
    simp only [DoCoro.buildLoop]
    exact SliceKeeps_ite _ _ _ (fun _ => SliceKeeps_bail s h0)
      (fun _ => SliceKeeps_command w _ _ s (Kept_of_records _ _ trivial rfl hk))

theorem SliceKeeps_attach {V : Prop} {R0 : List Route × List (List CargoID × VehicleID)}
    (w : World) (next : Rebuild → State → Option State) (r : Rebuild)
    (wagon_cargo : CargoID) (new_head : VehicleID) (rest : List CargoID)
    (new_wagon : VehicleID) (s : State)
    (h0 : s.coro_resumer = none) (hk : WriteOnce R0 (r.routes, r.vehicles_for_copying))
    (hnext : ∀ r' s1, s1.coro_resumer = none →
      WriteOnce R0 (r'.routes, r'.vehicles_for_copying) → SliceKeeps V R0 (next r' s1)) :
    SliceKeeps V R0 (DoCoro.attach w next r wagon_cargo new_head rest new_wagon s) := by
  unfold DoCoro.attach
  refine SliceKeeps_ite _ _ _
    (fun _ => SliceKeeps_buildLoop w next r wagon_cargo new_wagon rest s h0 hk hnext)
    (fun hnh => ?_)
  refine SliceKeeps_bind _ _ (fun vw _ => ?_)
  dsimp only
  refine SliceKeeps_ite _ _ _ (fun _ => ?_)
    (fun _ => SliceKeeps_buildLoop w next r wagon_cargo new_head rest s h0 hk hnext)
  refine SliceKeeps_bind _ _ (fun vh _ => ?_)
  exact SliceKeeps_command w _ _ s (Kept_of_records _ _ hnh rfl hk)

theorem SliceKeeps_reconstruction {V : Prop}
    {R0 : List Route × List (List CargoID × VehicleID)} (w : World)
    (props : List VehicleProperties) :
    ∀ (routes : List Route) (vehicles_for_copying : List (List CargoID × VehicleID))
      (s : State), s.coro_resumer = none → WriteOnce R0 (routes, vehicles_for_copying) →
      SliceKeeps V R0 (DoCoro.reconstruction w props routes vehicles_for_copying s) := by
  induction props with
  | nil =>
    intro routes vfc s _ _
    simp only [DoCoro.reconstruction]
    unfold DoCoro.activation
    exact SliceKeeps_command w _ _ s ⟨trivial, fun R h => by cases h⟩
  | cons prop rest ih =>
    intro routes vfc s h0 hk
    simp only [DoCoro.reconstruction]
    refine SliceKeeps_ite _ _ _ (fun _ => SliceKeeps_bail s h0) (fun _ => ?_)
    refine SliceKeeps_bind _ _ (fun route hroute => ?_)
    dsimp only
    cases route.first_clonables.lookup prop.cargos with
    | some vid => exact SliceKeeps_command w _ _ s (Kept_of_records _ _ trivial rfl hk)
    | none =>
      cases vfc.lookup prop.cargos with
      | some vid => exact SliceKeeps_command w _ _ s (Kept_of_records _ _ trivial rfl hk)
      | none =>
        exact SliceKeeps_buildLoop w _
          { routes := routes, vehicles_for_copying := vfc, rest := rest, prop := prop }
          _ _ _ s h0 hk (fun r' s1 h0' hk' => ih _ _ s1 h0' hk')

theorem SliceKeeps_next {V : Prop} {R0 : List Route × List (List CargoID × VehicleID)}
    (w : World) (r : Rebuild) (s : State) (h0 : s.coro_resumer = none)
    (hk : WriteOnce R0 (r.routes, r.vehicles_for_copying)) :
    SliceKeeps V R0 (DoCoro.next w r s) :=
  SliceKeeps_reconstruction w _ _ _ s h0 hk

theorem SliceKeeps_sellLoop {V : Prop} {R0 : List Route × List (List CargoID × VehicleID)}
    (w : World) (routes : List Route) (vehicle_properties : List VehicleProperties)
    (depots : List TileIndex) (s : State) (hk : WriteOnce R0 (routes, [])) :
    SliceKeeps V R0 (DoCoro.sellLoop w routes vehicle_properties depots s) := by
  cases depots with
  | nil =>
    simp only [DoCoro.sellLoop]
    exact SliceKeeps_WaitTicks _ _ s (Kept_of_records _ _ trivial rfl hk)
  | cons depot rest =>
    simp only [DoCoro.sellLoop]
    exact SliceKeeps_command w _ _ s (Kept_of_records _ _ trivial rfl hk)

/-- Every slice from the sell loop on keeps the guards and writes once. -/
theorem Kept_slice {V : Prop} {R0 : List Route × List (List CargoID × VehicleID)}
    (w : World) (f : Frame) (s : State) (h0 : s.coro_resumer = none) (hf : Kept V R0 f)
    (hgood : V → GoodResult s) : SliceKeeps V R0 (DoCoro.resume w f s) := by
  have hnext : ∀ (r' : Rebuild) (s1 : State), s1.coro_resumer = none →
      WriteOnce R0 (r'.routes, r'.vehicles_for_copying) →
      SliceKeeps V R0 (DoCoro.next w r' s1) :=
    fun r' s1 h hk => SliceKeeps_next w r' s1 h hk
  obtain ⟨hg, hrec⟩ := hf
  cases f <;> simp only [DoCoro.resume, DoCommandPAwaiter.await_resume]
  case L211 => exact False.elim hg
  case L217 => exact False.elim hg
  case L226 => exact False.elim hg
  case L248 => exact False.elim hg
  case L250 => exact False.elim hg
  case L263 => exact False.elim hg
  case L284 => exact False.elim hg
  case L289 => exact False.elim hg
  case L345 routes vp ds => exact SliceKeeps_sellLoop w _ _ _ s (hrec _ rfl)
  case L349 routes vp ds =>
    exact SliceKeeps_ite (s.coro_command_cost.Failed = true) _ _
      (fun _ => SliceKeeps_bail s h0)
      (fun _ => SliceKeeps_WaitTicks _ _ s (Kept_of_records _ _ trivial rfl (hrec _ rfl)))
  case L354 routes vp ds => exact SliceKeeps_sellLoop w _ _ _ s (hrec _ rfl)
  case L359 routes vp =>
    exact SliceKeeps_command w _ _ s (Kept_of_records _ _ trivial rfl (hrec _ rfl))
  case L362 routes vp =>
    exact SliceKeeps_ite (s.coro_command_cost.Failed = true) _ _
      (fun _ => SliceKeeps_bail s h0)
      (fun _ => SliceKeeps_WaitTicks _ _ s (Kept_of_records _ _ trivial rfl (hrec _ rfl)))
  case L369 routes vp => exact SliceKeeps_reconstruction w _ _ _ s h0 (hrec _ rfl)
  case L386 r =>
    exact SliceKeeps_ite (s.coro_command_cost.Failed = true) _ _
      (fun _ => SliceKeeps_bail s h0)
      (fun _ => SliceKeeps_suspend (Handle.task _) s
        (Kept_of_records _ _ trivial rfl (hrec _ rfl)))
  case L392 r nt => exact SliceKeeps_skipOrders w _ r nt s h0 (hrec _ rfl) hnext
  case L397 r =>
    exact SliceKeeps_ite (s.coro_command_cost.Failed = true) _ _
      (fun _ => SliceKeeps_bail s h0)
      (fun _ => SliceKeeps_line457 w _ r _ s h0 (hrec _ rfl) hnext)
  case L425 r wc nh rest =>
    refine SliceKeeps_ite (s.coro_command_cost.Failed = true) _ _
      (fun _ => SliceKeeps_bail s h0) (fun hfail => ?_)
    exact SliceKeeps_suspend (Handle.task _) s
      (Kept_of_records _ _ (fun hV => hgood hV (by simpa using hfail)) rfl (hrec _ rfl))
  case L431 r wc nh rest nw =>
    exact SliceKeeps_attach w _ r wc nh rest nw s h0 (hrec _ rfl) hnext
  case L438 r wc nh rest =>
    exact SliceKeeps_ite (s.coro_command_cost.Failed = true) _ _
      (fun _ => SliceKeeps_bail s h0)
      (fun _ => SliceKeeps_suspend (Handle.task _) s
        (Kept_of_records _ _ hg rfl (hrec _ rfl)))
  case L443 r wc nh rest =>
    exact SliceKeeps_buildLoop w _ r wc nh rest s h0 (hrec _ rfl) hnext
  case L459 r nt =>
    exact SliceKeeps_ite (s.coro_command_cost.Failed = true) _ _
      (fun _ => SliceKeeps_bail s h0)
      (fun _ => SliceKeeps_suspend (Handle.task _) s
        (Kept_of_records _ _ trivial rfl (hrec _ rfl)))
  case L464 r nt => exact SliceKeeps_line488 w _ r nt s h0 (hrec _ rfl) hnext
  case L470 r nt =>
    exact SliceKeeps_ite (s.coro_command_cost.Failed = true) _ _
      (fun _ => SliceKeeps_bail s h0)
      (fun _ => SliceKeeps_deleteLoop w _ r nt s h0 (hrec _ rfl) hg hnext)
  case L478 r nt i =>
    exact SliceKeeps_ite (s.coro_command_cost.Failed = true) _ _
      (fun _ => SliceKeeps_bail s h0)
      (fun _ => SliceKeeps_suspend (Handle.task _) s
        (Kept_of_records _ _ hg rfl (hrec _ rfl)))
  case L483 r nt i =>
    exact SliceKeeps_insertLoop w _ r nt (i + 1) s h0 (hrec _ rfl) hg hnext
  case L502 r =>
    exact SliceKeeps_ite (s.coro_command_cost.Failed = true) _ _
      (fun _ => SliceKeeps_bail s h0) (fun _ => SliceKeeps_next w r s h0 (hrec _ rfl))
  case L514 =>
    refine SliceKeeps_ite (s.coro_command_cost.Failed = true) _ _
      (fun _ => SliceKeeps_bail s h0) (fun _ => ?_)
    intro s' h hd hres
    cases h
    rw [show ({ s with current_company := COMPANY_SPECTATOR } : State).coro_resumer
      = s.coro_resumer from rfl, h0] at hres
    cases hres

theorem Keeping_step {V : Prop} {R0 : List Route × List (List CargoID × VehicleID)}
    (e : Event) (s s' : State) (hv : V → e.valid) (he : e.accepted = false)
    (hinv : Keeping V R0 s) (h : e.apply s = some s') : Keeping V R0 s' := by
  obtain ⟨hg, hk⟩ := hinv
  refine ⟨fun hV => GoodResult_step e s s' (hv hV) he (hg hV) h, ?_⟩
  cases e with
  | start w type_str =>
    obtain ⟨s1, h1, _, h3, _, _, _⟩ := Event.accepted_start_false w type_str s he
    simp only [Event.apply, h1, Option.map_some', Option.some.injEq] at h
    subst h
    intro hd hres
    exact hk hd (h3 ▸ hres)
  | deliver result n =>
    simp only [Event.apply, Option.some.injEq] at h
    subst h
    intro hd hres
    exact hk hd ((DoCommandPAwaiter.Callback_frame result n s).1 ▸ hres)
  | tick w =>
    simp only [Event.apply] at h
    rcases OnTick_cases w s s' h with rfl | rfl | ⟨hd', hres', _, _, _, hrun⟩
    · exact hk
    · exact hk
    · rcases Handle.run_cases w hd'
        { s with coro_waiting_for_callback := false, coro_resumer := none } s' rfl hrun
        with ⟨n, rfl⟩ | hres2
      · intro hd hres
        cases hres
        exact hk hd' hres'
      · exact Kept_slice w hd'.frame
          { s with coro_waiting_for_callback := false, coro_resumer := none } rfl
          (hk hd' hres') hg s' hres2

/-- From the snapshot to the end of `DoCoro`, every tick, delivery and rejected
`Start` keeps the guards of the suspension points and writes the records once. -/
theorem Keeping_run {V : Prop} {R0 : List Route × List (List CargoID × VehicleID)}
    (es : List Event) (s s' : State) (hv : V → ∀ e ∈ es, e.valid)
    (hes : ∀ e ∈ es, e.accepted = false) (hinv : Keeping V R0 s)
    (h : Event.run es s = some s') : Keeping V R0 s' := by
  induction es generalizing s with
  | nil =>
    simp only [Event.run, Option.some.injEq] at h
    subst h
    exact hinv
  | cons e es ih =>
    rw [Event.run] at h
    cases he : e.apply s with
    | none => simp [he] at h
    | some s1 =>
      rw [he, Option.some_bind] at h
      exact ih s1 (fun hV e' he' => hv hV e' (List.mem_cons_of_mem _ he'))
        (fun e' he' => hes e' (List.mem_cons_of_mem _ he'))
        (Keeping_step e s s1 (fun hV => hv hV e (List.mem_cons_self _ _))
          (hes e (List.mem_cons_self _ _)) hinv he) h

/-- The slice after the snapshot starts a run in `Keeping` with the routes just
captured. -/
theorem Keeping_entry (V : Prop) (w : World) (my_vehicles : List VehicleID)
    (snap : Snapshot) (s : State) (hsnap : DoCoro.snapshot w my_vehicles = some snap)
    (h0 : s.coro_resumer = none) (hg : V → GoodResult s) :
    ∃ s', DoCoro.resume w (Frame.L289 my_vehicles) s = some s' ∧
      Keeping V (snap.routes, []) s' := by
  refine ⟨
    { s with
      coro_resumer :=
        some (Handle.waitTicks (predecrement TICKS_PER_SECOND)
          (Frame.L345 snap.routes snap.vehicle_properties snap.depots)),
      coro_waiting_for_callback := true }, ?_, hg, ?_⟩
  · simp [DoCoro.resume, hsnap, WaitTicks.suspend, WaitTickAwaiter.await_suspend, h0]
  · intro h hres
    have e : h = Handle.waitTicks (predecrement TICKS_PER_SECOND)
        (Frame.L345 snap.routes snap.vehicle_properties snap.depots) :=
      (Option.some.inj hres).symm
    subst e
    exact Kept_of_records _ _ trivial rfl (WriteOnce_refl _)

/-- C21: from the snapshot to the end of `DoCoro`, through every execution of
ticks, deliveries and rejected `Start` calls, the records held at a later
suspension point come after the records held at an earlier one by writes made
once (`WriteOnce`): the routes are as many and their captured orders are
unchanged, a `first_shared` that is not `INVALID_VEHICLE` keeps its value, and
every entry of `first_clonables` of a route and of `vehicles_for_copying` is
still there with the same vehicle. The maps are written by `try_emplace` only,
which keeps every entry, and the slice after the snapshot starts the run with
the routes just captured. -/
theorem records_written_once :
    (∀ (m : List (List CargoID × VehicleID)) (k cargos : List CargoID) (v x : VehicleID),
      m.lookup cargos = some x → (try_emplace m k v).lookup cargos = some x) ∧
    (∀ (w : World) (my_vehicles : List VehicleID) (snap : Snapshot) (s : State),
      DoCoro.snapshot w my_vehicles = some snap → s.coro_resumer = none →
      ∃ s', DoCoro.resume w (Frame.L289 my_vehicles) s = some s' ∧
        Keeping False (snap.routes, []) s') ∧
    (∀ (R0 R1 R2 : List Route × List (List CargoID × VehicleID)) (es1 es2 : List Event)
      (s0 s1 s2 : State) (h1 h2 : Handle), Keeping False R0 s0 →
      (∀ e ∈ es1, e.accepted = false) → (∀ e ∈ es2, e.accepted = false) →
      Event.run es1 s0 = some s1 → Event.run es2 s1 = some s2 →
      s1.coro_resumer = some h1 → h1.frame.records = some R1 →
      s2.coro_resumer = some h2 → h2.frame.records = some R2 →
      WriteOnce R0 R1 ∧ WriteOnce R1 R2) := by
  refine ⟨fun m k cargos v x h => lookup_try_emplace_of_some m k cargos v x h, ?_, ?_⟩
  · intro w my_vehicles snap s hsnap h0
    exact Keeping_entry False w my_vehicles snap s hsnap h0 (fun h => h.elim)
  · intro R0 R1 R2 es1 es2 s0 s1 s2 h1 h2 hinv hes1 hes2 hrun1 hrun2 hres1 hrec1 hres2 hrec2
    have hk1 := Keeping_run es1 s0 s1 (fun h => h.elim) hes1 hinv hrun1
    have hkept1 := hk1.2 h1 hres1
    have hk1' : Keeping False R1 s1 := by
      refine ⟨fun h => h.elim, fun h hres => ?_⟩
      have e : h = h1 := Option.some.inj (hres.symm.trans hres1)
      subst e
      exact Kept_of_records _ _ hkept1.1 hrec1 (WriteOnce_refl _)
    have hk2 := Keeping_run es2 s1 s2 (fun h => h.elim) hes2 hk1' hrun2
    exact ⟨hkept1.2 R1 hrec1, (hk2.2 h2 hres2).2 R2 hrec2⟩

/-- Witness of `records_written_once`: in the sample run the records held while
the second train is cloned come after those held while the first train gets its
orders, which come after the captured ones. -/
theorem records_written_once_witness :
    Keeping False ([Route.new [100, 200]], []) sampleRebuildEntry ∧
    Event.run (List.replicate 6 (Event.tick sampleRebuildWorld)) sampleRebuildEntry
      = some sampleInstalling ∧
    Event.run (List.replicate 3 (Event.tick sampleRebuildWorld)) sampleInstalling
      = some sampleCloning ∧
    WriteOnce ([Route.new [100, 200]], [])
      (sampleFirstTwin.routes, sampleFirstTwin.vehicles_for_copying) ∧
    WriteOnce (sampleFirstTwin.routes, sampleFirstTwin.vehicles_for_copying)
      (sampleSecondTwin.routes, sampleSecondTwin.vehicles_for_copying) :=
  have h1 : Keeping False ([Route.new [100, 200]], []) sampleRebuildEntry :=
    ⟨fun h => h.elim, fun h hres => by
      have e : h = Handle.task (Frame.L369 [Route.new [100, 200]] [sampleTwin, sampleTwin]) :=
        (Option.some.inj hres).symm
      subst e
      exact Kept_of_records _ _ trivial rfl (WriteOnce_refl _)⟩
  have h2 : Event.run (List.replicate 6 (Event.tick sampleRebuildWorld)) sampleRebuildEntry
      = some sampleInstalling := by decide
  have h3 : Event.run (List.replicate 3 (Event.tick sampleRebuildWorld)) sampleInstalling
      = some sampleCloning := by decide
  ⟨h1, h2, h3,
    records_written_once.2.2 ([Route.new [100, 200]], [])
      (sampleFirstTwin.routes, sampleFirstTwin.vehicles_for_copying)
      (sampleSecondTwin.routes, sampleSecondTwin.vehicles_for_copying)
      (List.replicate 6 (Event.tick sampleRebuildWorld))
      (List.replicate 3 (Event.tick sampleRebuildWorld))
      sampleRebuildEntry sampleInstalling sampleCloning
      (Handle.task (Frame.L483 sampleFirstTwin 5 0)) (Handle.task (Frame.L386 sampleSecondTwin))
      h1 (fun e he => by rw [List.eq_of_mem_replicate he]; rfl)
      (fun e he => by rw [List.eq_of_mem_replicate he]; rfl) h2 h3 rfl rfl rfl rfl⟩

/-! ### The head of a new train -/

/-- The three cases of `HandleCoro`: no handle, a handle whose result is not
ready, or a handle that is run after `coro_resumer` has been set to null. -/
theorem HandleCoro_form (resume : Frame → State → Option State) (s : State) :
    (s.coro_resumer = none ∧ HandleCoro resume s = some (false, s)) ∨
    (∃ h, s.coro_resumer = some h ∧ s.coro_waiting_for_callback = false ∧
      HandleCoro resume s = some (true, s)) ∨
    (∃ h, s.coro_resumer = some h ∧ s.coro_waiting_for_callback = true ∧
      HandleCoro resume s =
        (Handle.run resume h
          { s with coro_waiting_for_callback := false, coro_resumer := none }).map
          (fun s => (true, s))) := by
  unfold HandleCoro
  cases hr : s.coro_resumer with
  | none => exact Or.inl ⟨rfl, rfl⟩
  | some h =>
    cases hflag : s.coro_waiting_for_callback with
    | false => exact Or.inr (Or.inl ⟨h, rfl, rfl, by simp⟩)
    | true => exact Or.inr (Or.inr ⟨h, rfl, rfl, by simp⟩)

/-- The cases of `OnTick`: nothing is run, or the handle held by `coro_resumer`
is run in the state in which `coro_resumer` is null. -/
theorem OnTick_form (w : World) (s : State) :
    OnTick w s = some s ∨ OnTick w s = some (BailOut s) ∨
    ∃ h, s.coro_resumer = some h ∧ s.coro_waiting_for_callback = true ∧
      OnTick w s = Handle.run (DoCoro.resume w) h
        { s with coro_waiting_for_callback := false, coro_resumer := none } := by
  unfold OnTick
  by_cases hc : s.current_company = COMPANY_SPECTATOR
  · simp [hc]
  · by_cases hl : w._local_company = s.current_company
    · simp only [ne_eq, hc, not_false_eq_true, if_true, hl, not_true_eq_false, if_false]
      rcases HandleCoro_form (DoCoro.resume w) s with ⟨_, h1⟩ | ⟨h, _, _, h1⟩ | ⟨h, hr, hf, h1⟩
      · left
        rw [h1]
        rfl
      · left
        rw [h1]
        rfl
      · right; right
        refine ⟨h, hr, hf, ?_⟩
        rw [h1, Option.map_map]
        cases Handle.run (DoCoro.resume w) h
          { s with coro_waiting_for_callback := false, coro_resumer := none } <;> rfl
    · simp [hc, hl]

/-- The tick-waits inside `WaitTicks`: a `WaitTicks` handle run with a null
`coro_resumer` suspends again on `WaitTick()`, and the assertion holds, or it
ends and runs its caller in the same state. -/
theorem WaitTicks.loop_null (resume : Frame → State → Option State) (numticks : Nat)
    (f : Frame) (s : State) (hs : s.coro_resumer = none) :
    (0 < predecrement numticks ∧
      WaitTicks.loop resume numticks f s
        = WaitTickAwaiter.await_suspend (Handle.waitTicks (predecrement numticks) f) s ∧
      WaitTickAwaiter.await_suspend (Handle.waitTicks (predecrement numticks) f) s
        = some { s with coro_resumer := some (Handle.waitTicks (predecrement numticks) f),
                        coro_waiting_for_callback := true }) ∨
    (predecrement numticks = 0 ∧ WaitTicks.loop resume numticks f s = resume f s) := by
  unfold WaitTicks.loop
  by_cases hp : predecrement numticks > 0
  · left
    refine ⟨hp, by rw [if_pos hp], ?_⟩
    simp [WaitTickAwaiter.await_suspend, hs]
  · right
    exact ⟨by omega, by rw [if_neg hp]⟩

/-- A slice started with a null `coro_resumer` faults on a read, ends the
coroutine, or reaches one suspension point, where the assertion holds. -/
theorem DoCoro.resume_null (w : World) (f : Frame) (s : State) (hs : s.coro_resumer = none) :
    (DoCoro.resume w f s = none ∧ PoolFault w f s) ∨
    DoCoro.resume w f s = some (BailOut s) ∨
    (∃ c h s', DoCoro.resume w f s = DoCommandPAwaiter.await_suspend w c h s ∧
      DoCommandPAwaiter.await_suspend w c h s = some s') ∨
    (∃ h s', DoCoro.resume w f s = WaitTickAwaiter.await_suspend h s ∧
      WaitTickAwaiter.await_suspend h s = some s') := by
  have hself : ({ s with coro_resumer := s.coro_resumer } : State) = s := by
    cases s
    rfl
  rcases DoCoro.resume_form w f s with h1 | h1 | ⟨c, hd, h1⟩ | ⟨hd, h1⟩
  · left
    have := h1 s.coro_resumer
    rw [hself] at this
    exact ⟨this, h1⟩
  · exact Or.inr (Or.inl h1)
  · right; right; left
    cases hr : DoCommandPAwaiter.await_suspend w c hd s with
    | none =>
      exact absurd ((DoCommandPAwaiter.await_suspend_eq_none w c hd s).mp hr) (by simp [hs])
    | some s' => exact ⟨c, hd, s', h1, hr⟩
  · right; right; right
    cases hr : WaitTickAwaiter.await_suspend hd s with
    | none => exact absurd ((WaitTickAwaiter.tick_suspend_eq_none hd s).mp hr) (by simp [hs])
    | some s' => exact ⟨hd, s', h1, hr⟩

/-- A slice started while `coro_resumer` still holds a handle cannot suspend:
it faults, on a read or on the assertion of the suspension point it reaches, or
it ends the coroutine. -/
theorem DoCoro.resume_nonnull (w : World) (f : Frame) (s : State)
    (hs : s.coro_resumer ≠ none) :
    DoCoro.resume w f s = none ∨ DoCoro.resume w f s = some (BailOut s) := by
  have hself : ({ s with coro_resumer := s.coro_resumer } : State) = s := by
    cases s
    rfl
  rcases DoCoro.resume_form w f s with h1 | h1 | ⟨c, hd, h1⟩ | ⟨hd, h1⟩
  · left
    have := h1 s.coro_resumer
    rw [hself] at this
    exact this
  · exact Or.inr h1
  · left
    rw [h1]
    exact (DoCommandPAwaiter.await_suspend_eq_none w c hd s).mpr hs
  · left
    rw [h1]
    exact (WaitTickAwaiter.tick_suspend_eq_none hd s).mpr hs

/-- A handle run with a null `coro_resumer`: a fault on a read of the slice of
its frame, the end of the coroutine, or one suspension point, where the
assertion holds. -/
theorem Handle.run_null (w : World) (h : Handle) (s : State) (hs : s.coro_resumer = none) :
    (Handle.run (DoCoro.resume w) h s = none ∧ PoolFault w h.frame s) ∨
    Handle.run (DoCoro.resume w) h s = some (BailOut s) ∨
    (∃ c h' s', Handle.run (DoCoro.resume w) h s = DoCommandPAwaiter.await_suspend w c h' s ∧
      DoCommandPAwaiter.await_suspend w c h' s = some s') ∨
    (∃ h' s', Handle.run (DoCoro.resume w) h s = WaitTickAwaiter.await_suspend h' s ∧
      WaitTickAwaiter.await_suspend h' s = some s') := by
  cases h with
  | task f => exact DoCoro.resume_null w f s hs
  | waitTicks numticks f =>
    rcases WaitTicks.loop_null (DoCoro.resume w) numticks f s hs with ⟨_, h1, h2⟩ | ⟨_, h1⟩
    · exact Or.inr (Or.inr (Or.inr ⟨_, _, h1, h2⟩))
    · show (WaitTicks.loop (DoCoro.resume w) numticks f s = none ∧ PoolFault w f s) ∨
        WaitTicks.loop (DoCoro.resume w) numticks f s = some (BailOut s) ∨
        (∃ c h' s', WaitTicks.loop (DoCoro.resume w) numticks f s
            = DoCommandPAwaiter.await_suspend w c h' s ∧
          DoCommandPAwaiter.await_suspend w c h' s = some s') ∨
        (∃ h' s', WaitTicks.loop (DoCoro.resume w) numticks f s
            = WaitTickAwaiter.await_suspend h' s ∧
          WaitTickAwaiter.await_suspend h' s = some s')
      rw [h1]
      exact DoCoro.resume_null w f s hs

/-- A tick faults only when the slice of the frame the task is suspended at
faults on a read. -/
theorem OnTick_eq_none (w : World) (s : State) (h : OnTick w s = none) :
    ∃ hd, s.coro_resumer = some hd ∧ s.coro_waiting_for_callback = true ∧
      PoolFault w hd.frame { s with coro_waiting_for_callback := false, coro_resumer := none } := by
  rcases OnTick_form w s with h1 | h1 | ⟨hd, hr, hf, h1⟩
  · rw [h] at h1
    cases h1
  · rw [h] at h1
    cases h1
  · refine ⟨hd, hr, hf, ?_⟩
    rw [h] at h1
    rcases Handle.run_null w hd
        { s with coro_waiting_for_callback := false, coro_resumer := none } rfl
      with ⟨_, h2⟩ | h2 | ⟨c, h', s', h2, h3⟩ | ⟨h', s', h2, h3⟩
    · exact h2
    · rw [← h1] at h2
      cases h2
    · rw [← h1, h3] at h2
      cases h2
    · rw [← h1, h3] at h2
      cases h2

/-- C18: the two `await_suspend` fault exactly when `coro_resumer` is not null
(the assertion). `HandleCoro` runs a handle only after it has set
`coro_resumer` to null, and `OnTick` runs nothing else. Run in such a state, a
`WaitTicks` handle suspends again on its `WaitTick()`, where the assertion
holds, or runs its caller in the same state; and a slice of `DoCoro` faults on
a read, ends the coroutine, or reaches exactly one suspension point, whose
`await_suspend` is applied to the state the slice started in, where the
assertion holds. A slice started with a handle still in `coro_resumer` could
not suspend at all. `Start` never faults and calls `DoCoro` after
`ResetCoroState` has set `coro_resumer` to null. So in every execution made of
`Start`, ticks and deliveries, from any state, a fault is a tick in which the
slice of the frame the task is suspended at faults on a read whatever
`coro_resumer` holds, never a violated assertion; the sample executions with a
delivery and a second `Start` do not fault. -/
theorem assertion_never_violated :
    (∀ (h : Handle) (s : State),
      WaitTickAwaiter.await_suspend h s = none ↔ s.coro_resumer ≠ none) ∧
    (∀ (w : World) (c : Command) (h : Handle) (s : State),
      DoCommandPAwaiter.await_suspend w c h s = none ↔ s.coro_resumer ≠ none) ∧
    (∀ (resume : Frame → State → Option State) (s : State),
      (s.coro_resumer = none ∧ HandleCoro resume s = some (false, s)) ∨
      (∃ h, s.coro_resumer = some h ∧ s.coro_waiting_for_callback = false ∧
        HandleCoro resume s = some (true, s)) ∨
      (∃ h, s.coro_resumer = some h ∧ s.coro_waiting_for_callback = true ∧
        HandleCoro resume s =
          (Handle.run resume h
            { s with coro_waiting_for_callback := false, coro_resumer := none }).map
            (fun s => (true, s)))) ∧
    (∀ (resume : Frame → State → Option State) (numticks : Nat) (f : Frame) (s : State),
      s.coro_resumer = none →
      (0 < predecrement numticks ∧
        Handle.run resume (Handle.waitTicks numticks f) s
          = WaitTickAwaiter.await_suspend (Handle.waitTicks (predecrement numticks) f) s ∧
        co_await_WaitTicks resume numticks f s
          = WaitTickAwaiter.await_suspend (Handle.waitTicks (predecrement numticks) f) s ∧
        WaitTickAwaiter.await_suspend (Handle.waitTicks (predecrement numticks) f) s
          = some { s with coro_resumer := some (Handle.waitTicks (predecrement numticks) f),
                          coro_waiting_for_callback := true }) ∨
      (predecrement numticks = 0 ∧
        Handle.run resume (Handle.waitTicks numticks f) s = resume f s ∧
        co_await_WaitTicks resume numticks f s = resume f s)) ∧
    (∀ (w : World) (f : Frame) (s : State), s.coro_resumer = none →
      (DoCoro.resume w f s = none ∧ PoolFault w f s) ∨
      DoCoro.resume w f s = some (BailOut s) ∨
      (∃ c h s', DoCoro.resume w f s = DoCommandPAwaiter.await_suspend w c h s ∧
        DoCommandPAwaiter.await_suspend w c h s = some s') ∨
      (∃ h s', DoCoro.resume w f s = WaitTickAwaiter.await_suspend h s ∧
        WaitTickAwaiter.await_suspend h s = some s')) ∧
    (∀ (w : World) (f : Frame) (s : State), s.coro_resumer ≠ none →
      DoCoro.resume w f s = none ∨ DoCoro.resume w f s = some (BailOut s)) ∧
    (∀ (w : World) (type_str : String) (s : State),
      ∃ r, Start w type_str s = some r ∧
        (r.1 = true →
          (ResetCoroState { s with rail_type := ParseRailType type_str,
                                   current_company := w._local_company }).coro_resumer = none ∧
          DoCoro (ResetCoroState { s with rail_type := ParseRailType type_str,
                                          current_company := w._local_company }) = some r.2 ∧
          WaitTickAwaiter.await_suspend (Handle.task Frame.L211)
            (ResetCoroState { s with rail_type := ParseRailType type_str,
                                     current_company := w._local_company }) = some r.2)) ∧
    (∀ (w : World) (s : State),
      OnTick w s = some s ∨ OnTick w s = some (BailOut s) ∨
      ∃ h, s.coro_resumer = some h ∧ s.coro_waiting_for_callback = true ∧
        OnTick w s = Handle.run (DoCoro.resume w) h
          { s with coro_waiting_for_callback := false, coro_resumer := none } ∧
        ((OnTick w s = none ∧
            PoolFault w h.frame
              { s with coro_waiting_for_callback := false, coro_resumer := none }) ∨
          OnTick w s = some
            (BailOut { s with coro_waiting_for_callback := false, coro_resumer := none }) ∨
          (∃ c h' s', OnTick w s = DoCommandPAwaiter.await_suspend w c h'
              { s with coro_waiting_for_callback := false, coro_resumer := none } ∧
            DoCommandPAwaiter.await_suspend w c h'
              { s with coro_waiting_for_callback := false, coro_resumer := none } = some s') ∨
          (∃ h' s', OnTick w s = WaitTickAwaiter.await_suspend h'
              { s with coro_waiting_for_callback := false, coro_resumer := none } ∧
            WaitTickAwaiter.await_suspend h'
              { s with coro_waiting_for_callback := false, coro_resumer := none } = some s'))) ∧
    (∀ (es : List Event) (s : State), Event.run es s = none →
      ∃ es1 w es2 s1 h, es = es1 ++ Event.tick w :: es2 ∧ Event.run es1 s = some s1 ∧
        s1.coro_resumer = some h ∧ s1.coro_waiting_for_callback = true ∧
        OnTick w s1 = none ∧
        DoCoro.resume w h.frame
          { s1 with coro_waiting_for_callback := false, coro_resumer := none } = none ∧
        PoolFault w h.frame
          { s1 with coro_waiting_for_callback := false, coro_resumer := none }) ∧
    (Event.run
        ([Event.start sampleNetwork "electric", Event.tick sampleNetwork,
          Event.deliver { success := true, cost := 0, message := 0 } 0]
          ++ List.replicate 2 (Event.tick sampleNetwork)
          ++ [Event.start sampleNetwork "maglev"]
          ++ List.replicate 2 (Event.tick sampleNetwork)) sampleState).isSome = true ∧
    (OnTick.times sampleSolo 60
        { sampleState with rail_type := 1, current_company := 1,
                           coro_resumer := some (Handle.task Frame.L211),
                           coro_waiting_for_callback := true }).isSome = true := by
  refine ⟨WaitTickAwaiter.tick_suspend_eq_none, DoCommandPAwaiter.await_suspend_eq_none,
    HandleCoro_form, ?_, DoCoro.resume_null, DoCoro.resume_nonnull, ?_, ?_, ?_, by decide, ?_⟩
  · intro resume numticks f s hs
    rcases WaitTicks.loop_null resume numticks f s hs with ⟨h1, h2, h3⟩ | ⟨h1, h2⟩
    · exact Or.inl ⟨h1, h2, h2, h3⟩
    · exact Or.inr ⟨h1, h2, h2⟩
  · intro w type_str s
    rw [Start_eq]
    split_ifs
    · exact ⟨_, rfl, fun h => by cases h⟩
    · exact ⟨_, rfl, fun h => by cases h⟩
    · exact ⟨_, rfl, fun h => by cases h⟩
    · refine ⟨_, rfl, fun _ => ⟨ResetCoroState_coro_resumer _, ?_, ?_⟩⟩
      · simp [DoCoro, WaitTickAwaiter.await_suspend, ResetCoroState_coro_resumer]
      · simp [WaitTickAwaiter.await_suspend, ResetCoroState_coro_resumer]
  · intro w s
    rcases OnTick_form w s with h1 | h1 | ⟨h, hr, hf, h1⟩
    · exact Or.inl h1
    · exact Or.inr (Or.inl h1)
    · refine Or.inr (Or.inr ⟨h, hr, hf, h1, ?_⟩)
      rw [h1]
      exact Handle.run_null w h _ rfl
  · intro es
    induction es with
    | nil => intro s h; cases h
    | cons e es ih =>
      intro s h
      rw [Event.run] at h
      cases he : e.apply s with
      | none =>
        cases e with
        | start w type_str =>
          obtain ⟨r, hr⟩ := Start_isSome w type_str s
          simp [Event.apply, hr] at he
        | tick w =>
          obtain ⟨hd, hr, hf, hp⟩ := OnTick_eq_none w s he
          refine ⟨[], w, es, s, hd, rfl, rfl, hr, hf, he, ?_, hp⟩
          exact hp none
        | deliver result n => simp [Event.apply] at he
      | some s1 =>
        rw [he, Option.some_bind] at h
        obtain ⟨es1, w, es2, s2, hd, h1, h2, h3⟩ := ih s1 h
        refine ⟨e :: es1, w, es2, s2, hd, by rw [h1]; rfl, ?_, h3⟩
        rw [Event.run, he, Option.some_bind, h2]
  · have h1 : OnTick.times sampleSolo 59
        { sampleState with rail_type := 1, current_company := 1,
                           coro_resumer := some (Handle.task Frame.L211),
                           coro_waiting_for_callback := true } = some traceBeforeSnapshot := by
      decide
    have h : OnTick.times sampleSolo (59 + 1)
        { sampleState with rail_type := 1, current_company := 1,
                           coro_resumer := some (Handle.task Frame.L211),
                           coro_waiting_for_callback := true } = some traceSnapshotted := by
      rw [OnTick.times_add, h1, Option.some_bind]
      show (OnTick sampleSolo traceBeforeSnapshot).bind (OnTick.times sampleSolo 0) = _
      rw [OnTick_traceBeforeSnapshot]
      rfl
    rw [show (60 : Nat) = 59 + 1 from rfl, h]
    rfl

/-- Witness of `assertion_never_violated`: in the game in which the rebuilt
train is missing from the pool, the second tick after `sampleCloning` faults,
on the read of that train by the slice of line 392. -/
theorem assertion_never_violated_witness :
    Event.run [Event.tick sampleWorldSold, Event.tick sampleWorldSold] sampleCloning = none ∧
    ∃ es1 w es2 s1 h,
      [Event.tick sampleWorldSold, Event.tick sampleWorldSold] = es1 ++ Event.tick w :: es2 ∧
      Event.run es1 sampleCloning = some s1 ∧
      s1.coro_resumer = some h ∧ s1.coro_waiting_for_callback = true ∧
      OnTick w s1 = none ∧
      DoCoro.resume w h.frame
        { s1 with coro_waiting_for_callback := false, coro_resumer := none } = none ∧
      PoolFault w h.frame
        { s1 with coro_waiting_for_callback := false, coro_resumer := none } :=
  ⟨by decide,
    assertion_never_violated.2.2.2.2.2.2.2.2.1
      [Event.tick sampleWorldSold, Event.tick sampleWorldSold] sampleCloning (by decide)⟩

/-! ### The frame of the task replaced by `Start` -/

theorem Handle.leaked_waitTicks (numticks : Nat) (f : Frame) :
    (Handle.waitTicks numticks f).leaked = [Coroutine.DoCoro f] := by
  simp [Handle.leaked, Handle.coroutines, Handle.destroy, List.filter]

theorem Handle.leaked_task (f : Frame) : (Handle.task f).leaked = [] := by
  simp [Handle.leaked, Handle.coroutines, Handle.destroy, List.filter]

/-- No event removes a handle from the record of `destroy()` calls. -/
theorem Event.apply_destroyed (e : Event) (s s' : State) (h : e.apply s = some s') :
    s.destroyed <+: s'.destroyed := by
  cases e with
  | start w type_str =>
    simp only [Event.apply] at h
    rw [Start_eq] at h
    split_ifs at h <;> simp only [Option.map_some', Option.some.injEq] at h <;> subst h
    · exact List.prefix_refl _
    · exact List.prefix_refl _
    · exact List.prefix_refl _
    · cases hr : s.coro_resumer with
      | none => simp [ResetCoroState, hr]
      | some old => simp [ResetCoroState, hr]
  | deliver result n =>
    simp only [Event.apply, Option.some.injEq] at h
    rw [← h, (DoCommandPAwaiter.Callback_frame result n s).2.2.2.1]
  | tick w =>
    simp only [Event.apply] at h
    rcases OnTick_cases w s s' h with rfl | rfl | ⟨hd, _, _, _, _, hrun⟩
    · exact List.prefix_refl _
    · exact List.prefix_refl _
    · rcases Handle.run_cases w hd _ s' rfl hrun with ⟨n, rfl⟩ | hres
      · exact List.prefix_refl _
      · rcases SliceEnds_resume w _ _ s' hres with ⟨_, _, _, hd'⟩ | rfl
        · rw [hd']
        · exact List.prefix_refl _

/-- The frames left allocated by `destroy()` calls stay so through every execution. -/
theorem Event.run_leaked (es : List Event) :
    ∀ s s', Event.run es s = some s' → s.leaked <+: s'.leaked := by
  induction es with
  | nil =>
    intro s s' h
    cases h
    exact List.prefix_refl _
  | cons e es ih =>
    intro s s' h
    rw [Event.run] at h
    cases he : e.apply s with
    | none =>
      rw [he] at h
      cases h
    | some s1 =>
      rw [he, Option.some_bind] at h
      obtain ⟨t, ht⟩ := Event.apply_destroyed e s s1 he
      have h1 : s.leaked <+: s1.leaked := by
        unfold State.leaked
        rw [← ht, List.map_append, List.flatten_append]
        exact List.prefix_append _ _
      exact h1.trans (ih s1 s' h)

/-- C10: an accepted `Start` clears the ready flag, calls `destroy()` once, on
the handle `coro_resumer` holds, and leaves the new task suspended at line 211
with the ready flag set and `current_company` the local company. That call
frees the previous task only when the handle is that of `DoCoro`. While the
previous task is inside a `co_await WaitTicks(...)` the handle is that of the
`WaitTicks` coroutine, and `destroy()` frees the frame of `WaitTicks` alone: the
frame of the previous `DoCoro` is not destroyed, no handle to it is left, and no
later event frees it. In the sample game `Start`, two ticks and `Start` again
leave the frame of the first task, suspended at line 226, allocated. -/
theorem Start_leaks_task_in_WaitTicks :
    (∀ (numticks : Nat) (f : Frame),
      (Handle.waitTicks numticks f).coroutines
        = [Coroutine.WaitTicks numticks, Coroutine.DoCoro f] ∧
      (Handle.waitTicks numticks f).destroy = [Coroutine.WaitTicks numticks] ∧
      Coroutine.DoCoro f ∉ (Handle.waitTicks numticks f).destroy ∧
      (Handle.waitTicks numticks f).leaked = [Coroutine.DoCoro f]) ∧
    (∀ (f : Frame), (Handle.task f).destroy = (Handle.task f).coroutines ∧
      (Handle.task f).leaked = []) ∧
    (∀ (w : World) (type_str : String) (s s' : State),
      Start w type_str s = some (true, s') →
      s'.coro_resumer = some (Handle.task Frame.L211) ∧
      s'.coro_waiting_for_callback = true ∧
      s'.current_company = w._local_company ∧
      (s.coro_resumer = none → s'.destroyed = s.destroyed) ∧
      (∀ old, s.coro_resumer = some old →
        s'.destroyed = s.destroyed ++ [old] ∧
        s'.freed = s.freed ++ old.destroy ∧
        s'.leaked = s.leaked ++ old.leaked)) ∧
    (∀ (w : World) (type_str : String) (s s' : State) (numticks : Nat) (f : Frame),
      s.coro_resumer = some (Handle.waitTicks numticks f) →
      Start w type_str s = some (true, s') →
      s'.freed = s.freed ++ [Coroutine.WaitTicks numticks] ∧
      s'.leaked = s.leaked ++ [Coroutine.DoCoro f] ∧
      ∀ es s'', Event.run es s' = some s'' → Coroutine.DoCoro f ∈ s''.leaked) ∧
    (Event.run ([Event.start sampleSolo "electric"]
        ++ List.replicate 2 (Event.tick sampleSolo)) sampleState).map
      (fun s => (s.coro_resumer, s.destroyed))
      = some (some (Handle.waitTicks 29 Frame.L226), []) ∧
    (Event.run ([Event.start sampleSolo "electric"]
        ++ List.replicate 2 (Event.tick sampleSolo)
        ++ [Event.start sampleSolo "maglev"]) sampleState).map
      (fun s => (s.coro_resumer, s.destroyed, s.freed, s.leaked))
      = some (some (Handle.task Frame.L211), [Handle.waitTicks 29 Frame.L226],
          [Coroutine.WaitTicks 29], [Coroutine.DoCoro Frame.L226]) := by
  have key : ∀ (w : World) (type_str : String) (s s' : State),
      Start w type_str s = some (true, s') →
      ∀ old, s.coro_resumer = some old →
        s'.destroyed = s.destroyed ++ [old] ∧
        s'.freed = s.freed ++ old.destroy ∧
        s'.leaked = s.leaked ++ old.leaked := by
    intro w type_str s s' h old hold
    have hd := (Start_replaces_task w type_str s s' h).2.2.2.2.2.2.2 old hold
    refine ⟨hd, ?_, ?_⟩
    · simp [State.freed, hd]
    · simp [State.leaked, hd]
  refine ⟨?_, ?_, ?_, ?_, by decide, by decide⟩
  · intro numticks f
    exact ⟨rfl, rfl, by simp [Handle.destroy], Handle.leaked_waitTicks numticks f⟩
  · intro f
    exact ⟨rfl, Handle.leaked_task f⟩
  · intro w type_str s s' h
    have h1 := Start_replaces_task w type_str s s' h
    refine ⟨h1.2.2.2.2.1, h1.2.2.2.2.2.1, h1.2.2.2.2.2.2.1, ?_, key w type_str s s' h⟩
    intro hnone
    rw [Start_eq] at h
    split_ifs at h <;>
      simp only [Option.some.injEq, Prod.mk.injEq, Bool.false_eq_true, false_and,
        true_and] at h
    subst h
    simp [ResetCoroState, hnone]
  · intro w type_str s s' numticks f hold h
    obtain ⟨_, h2, h3⟩ := key w type_str s s' h _ hold
    rw [Handle.leaked_waitTicks] at h3
    refine ⟨h2, h3, ?_⟩
    intro es s'' hrun
    apply (Event.run_leaked es s' s'' hrun).subset
    rw [h3]
    simp

end AutoUpgradeRailType
